import Mathlib

/-!
# cbatticon: rate filter, battery reading computer and status state machine

A shallow embedding of `cbatticon.c`.  A `gdouble` is an IEEE 754 binary64
value and every operation on doubles rounds its exact result to nearest, ties
to even, as the compiled program does on x86-64.  The numbers read from
attribute files and stored in the filters are finite doubles and are given by
the rational number they denote.  Every `gint` that the code keeps
non-negative (ring indices, sample counts) is a natural number and every other
`gint` an integer; the fields of a `struct timespec` are 64-bit.  Values read
from the outside world (sysfs attribute files, the monotonic clock, the result
of spawning a command) are explicit inputs.
-/

namespace Cbatticon

/-! ## binary64 arithmetic -/

/-- A C `double` (glib `gdouble`) on x86-64: an IEEE 754 binary64 value.  A
finite value is given by the rational number it denotes; the two zeros are not
told apart (the program never divides by a zero it has computed and uses no
other operation that distinguishes them). -/
inductive gdouble where
  | finite (value : ℚ) : gdouble
  | infinite (negative : Bool) : gdouble
  | nan : gdouble
deriving DecidableEq

/-- The power `2 ^ k` for an integer `k`. -/
def two_pow (k : Int) : ℚ :=
  if 0 ≤ k then ((2 ^ k.toNat : Nat) : ℚ) else 1 / ((2 ^ (-k).toNat : Nat) : ℚ)

/-- The integer nearest to `m`, the even one of the two when `m` lies half way
between two integers. -/
def round_nearest_even (m : ℚ) : Int :=
  if m - (⌊m⌋ : ℚ) < 1 / 2 then ⌊m⌋
  else if 1 / 2 < m - (⌊m⌋ : ℚ) then ⌊m⌋ + 1
  else if ⌊m⌋ % 2 = 0 then ⌊m⌋
  else ⌊m⌋ + 1

/-- The loop behind `nat_log2`. -/
def log2_loop : Nat → Nat → Nat
  | 0, _ => 0
  | fuel + 1, n => if 2 ≤ n then log2_loop fuel (n / 2) + 1 else 0

/-- The position of the highest set bit of `n`. -/
def nat_log2 (n : Nat) : Nat := log2_loop n n

/-- The binary exponent with which a positive `x` is stored: the `e` with
`2 ^ e ≤ x < 2 ^ (e + 1)`, and `-1022` in the subnormal range. -/
def double_exponent (x : ℚ) : Int :=
  let e0 : Int := (nat_log2 x.num.natAbs : Int) - (nat_log2 x.den : Int)
  let e1 : Int := if two_pow e0 ≤ x then e0 else e0 - 1
  max e1 (-1022)

/-- A positive `a` rounded to 53 significant bits, to nearest, ties to even. -/
def round_magnitude (a : ℚ) : ℚ :=
  (round_nearest_even (a / two_pow (double_exponent a - 52)) : ℚ)
    * two_pow (double_exponent a - 52)

/-- The binary64 value that an operation with the exact result `x` returns:
`x` rounded to nearest, ties to even, and an infinity when the rounded
magnitude reaches `2 ^ 1024`. -/
def round_double (x : ℚ) : gdouble :=
  if x = 0 then gdouble.finite 0
  else if x < 0 then
    if two_pow 1024 ≤ round_magnitude (-x) then gdouble.infinite true
    else gdouble.finite (-round_magnitude (-x))
  else
    if two_pow 1024 ≤ round_magnitude x then gdouble.infinite false
    else gdouble.finite (round_magnitude x)

/-- The C operator `-x` on doubles. -/
def double_neg : gdouble → gdouble
  | gdouble.finite a => gdouble.finite (-a)
  | gdouble.infinite s => gdouble.infinite (!s)
  | gdouble.nan => gdouble.nan

/-- The C operator `x + y` on doubles. -/
def double_add : gdouble → gdouble → gdouble
  | gdouble.finite a, gdouble.finite b => round_double (a + b)
  | gdouble.finite _, gdouble.infinite t => gdouble.infinite t
  | gdouble.infinite s, gdouble.finite _ => gdouble.infinite s
  | gdouble.infinite s, gdouble.infinite t => if s = t then gdouble.infinite s else gdouble.nan
  | gdouble.nan, _ => gdouble.nan
  | _, gdouble.nan => gdouble.nan

/-- The C operator `x - y` on doubles. -/
def double_sub (x y : gdouble) : gdouble :=
  double_add x (double_neg y)

/-- The C operator `x * y` on doubles. -/
def double_mul : gdouble → gdouble → gdouble
  | gdouble.finite a, gdouble.finite b => round_double (a * b)
  | gdouble.finite a, gdouble.infinite t =>
    if a = 0 then gdouble.nan else gdouble.infinite (xor (decide (a < 0)) t)
  | gdouble.infinite s, gdouble.finite b =>
    if b = 0 then gdouble.nan else gdouble.infinite (xor s (decide (b < 0)))
  | gdouble.infinite s, gdouble.infinite t => gdouble.infinite (xor s t)
  | gdouble.nan, _ => gdouble.nan
  | _, gdouble.nan => gdouble.nan

/-- The C operator `x / y` on doubles; a zero divisor is taken as `+0`. -/
def double_div : gdouble → gdouble → gdouble
  | gdouble.finite a, gdouble.finite b =>
    if b = 0 then (if a = 0 then gdouble.nan else gdouble.infinite (decide (a < 0)))
    else round_double (a / b)
  | gdouble.finite _, gdouble.infinite _ => gdouble.finite 0
  | gdouble.infinite s, gdouble.finite b => gdouble.infinite (xor s (decide (b < 0)))
  | gdouble.infinite _, gdouble.infinite _ => gdouble.nan
  | gdouble.nan, _ => gdouble.nan
  | _, gdouble.nan => gdouble.nan

/-- The C operator `x < y` on doubles: false when either side is a NaN. -/
def double_lt : gdouble → gdouble → Bool
  | gdouble.finite a, gdouble.finite b => decide (a < b)
  | gdouble.finite _, gdouble.infinite t => !t
  | gdouble.infinite s, gdouble.finite _ => s
  | gdouble.infinite s, gdouble.infinite t => s && !t
  | gdouble.nan, _ => false
  | _, gdouble.nan => false

/-- The C operator `x <= y` on doubles: false when either side is a NaN. -/
def double_le : gdouble → gdouble → Bool
  | gdouble.finite a, gdouble.finite b => decide (a ≤ b)
  | gdouble.finite _, gdouble.infinite t => !t
  | gdouble.infinite s, gdouble.finite _ => s
  | gdouble.infinite s, gdouble.infinite t => s || !t
  | gdouble.nan, _ => false
  | _, gdouble.nan => false

/-- The C library function `fabs`. -/
def double_fabs : gdouble → gdouble
  | gdouble.finite a => gdouble.finite (if a < 0 then -a else a)
  | gdouble.infinite _ => gdouble.infinite false
  | gdouble.nan => gdouble.nan

/-- The C library function `floor`. -/
def double_floor : gdouble → gdouble
  | gdouble.finite a => gdouble.finite ((⌊a⌋ : Int) : ℚ)
  | gdouble.infinite s => gdouble.infinite s
  | gdouble.nan => gdouble.nan

/-- The C library function `fmin`: the smaller argument, and the other
argument when one is a NaN. -/
def double_fmin : gdouble → gdouble → gdouble
  | gdouble.nan, y => y
  | x, gdouble.nan => x
  | x, y => if double_lt y x = true then y else x

/-- The value of a 64-bit signed integer (`time_t`, `long`) whose ideal value
is `n`. -/
def wrap_glong (n : Int) : Int :=
  (n + 9223372036854775808) % 18446744073709551616 - 9223372036854775808

/-- The C conversion `(gdouble) n` of a 64-bit signed integer. -/
def double_of_glong (n : Int) : gdouble :=
  round_double ((wrap_glong n : Int) : ℚ)

/-- The C conversion `(gint) x` of a double: truncation toward zero.  When the
truncated value does not fit a 32-bit `gint`, or `x` is an infinity or a NaN,
the C standard leaves the result undefined; the instruction `cvttsd2si` used
on x86-64 then gives `INT_MIN`. -/
def gint_of_double : gdouble → Int
  | gdouble.finite x =>
    let t : Int := if 0 ≤ x then ⌊x⌋ else ⌈x⌉
    if -2147483648 ≤ t ∧ t ≤ 2147483647 then t else -2147483648
  | gdouble.infinite _ => -2147483648
  | gdouble.nan => -2147483648

/-! ## current/power filtering -/

/-- Capacity of the sample ring, `#define MAX_SAMPLES 60`. -/
def MAX_SAMPLES : Nat := 60

/-- The C `struct timespec` as filled in by `clock_gettime`. -/
structure timespec where
  tv_sec : Int
  tv_nsec : Int
deriving DecidableEq, Repr

/-- The C `struct filter`: two arrays indexed by slot, a sample count and the
next write index. -/
structure filter where
  samples : Nat → ℚ
  sample_times : Nat → timespec
  num_samples : Nat
  next_sample : Nat

/-- Store `value` in slot `i` of an array. -/
def array_set {α : Type} (arr : Nat → α) (i : Nat) (value : α) : Nat → α :=
  fun j => if j = i then value else arr j

/-- The function `filter_append`; `now` is what `clock_gettime` stores. -/
def filter_append (f : filter) (value : ℚ) (now : timespec) : filter :=
  let next_sample := (f.next_sample + 1) % MAX_SAMPLES
  { samples := array_set f.samples f.next_sample value
    sample_times := array_set f.sample_times f.next_sample now
    next_sample := next_sample
    num_samples := max next_sample f.num_samples }

/-- The running `sum` of `filter_get_mean` after the loop has added the slots
`0 .. n - 1` in order. -/
def filter_sum (samples : Nat → ℚ) (n : Nat) : gdouble :=
  (List.range n).foldl (fun sum i => double_add sum (gdouble.finite (samples i)))
    (gdouble.finite 0)

/-- The function `filter_get_mean`: the loop adds slots `0 .. num_samples - 1`
in order, then divides by `(gdouble)f->num_samples`. -/
def filter_get_mean (f : filter) : gdouble :=
  double_div (filter_sum f.samples f.num_samples) (round_double (f.num_samples : ℚ))

/-- Seconds between two clock readings, computed as `filter_get_rate` does:
`(gdouble)(t1.tv_sec - t0.tv_sec) + ((gdouble)t1.tv_nsec / 1000000000.0)
- ((gdouble)t0.tv_nsec / 1000000000.0)`. -/
def seconds_between (t0 t1 : timespec) : gdouble :=
  double_sub
    (double_add (double_of_glong (t1.tv_sec - t0.tv_sec))
      (double_div (double_of_glong t1.tv_nsec) (gdouble.finite 1000000000)))
    (double_div (double_of_glong t0.tv_nsec) (gdouble.finite 1000000000))

/-- Seconds from slot `a` to slot `b`, the `time_diff` of `filter_get_rate`. -/
def time_diff (f : filter) (a b : Nat) : gdouble :=
  seconds_between (f.sample_times a) (f.sample_times b)

/-- The function `filter_get_rate` (the debug print is omitted).  The count
never exceeds the index plus `MAX_SAMPLES`, so the subtractions are those of
the C integers. -/
def filter_get_rate (f : filter) : gdouble :=
  if f.num_samples < 2 then gdouble.finite 0
  else
    let a := (f.next_sample + MAX_SAMPLES - f.num_samples) % MAX_SAMPLES
    let b := (f.next_sample + MAX_SAMPLES - 1) % MAX_SAMPLES
    let value_diff := double_sub (gdouble.finite (f.samples b)) (gdouble.finite (f.samples a))
    if double_lt (time_diff f a b) (gdouble.finite 60) = true then gdouble.finite 0
    else double_mul (double_div value_diff (time_diff f a b)) (gdouble.finite 3600)

/-- A zero-initialised static `struct filter`. -/
def filter_zero : filter :=
  { samples := fun _ => 0
    sample_times := fun _ => ⟨0, 0⟩
    num_samples := 0
    next_sample := 0 }

/-- Append a sequence of timestamped values, oldest first. -/
def filter_append_all (f : filter) (xs : List (ℚ × timespec)) : filter :=
  xs.foldl (fun g x => filter_append g x.1 x.2) f

/-- The arithmetic mean of a list of values. -/
def arithmetic_mean (xs : List ℚ) : ℚ := xs.sum / (xs.length : ℚ)

/-- The sum of a list of doubles added up in order, each addition rounded. -/
def double_sum (xs : List ℚ) : gdouble :=
  xs.foldl (fun sum x => double_add sum (gdouble.finite x)) (gdouble.finite 0)

/-! ## status codes and configuration -/

def MISSING : Int := 0
def UNKNOWN : Int := 1
def CHARGED : Int := 2
def CHARGING : Int := 3
def DISCHARGING : Int := 4
def NOT_CHARGING : Int := 5
def LOW_LEVEL : Int := 6
def CRITICAL_LEVEL : Int := 7

def DEFAULT_UPDATE_INTERVAL : Int := 5
def DEFAULT_LOW_LEVEL : Int := 20
def DEFAULT_CRITICAL_LEVEL : Int := 5

/-- The fields of `struct configuration` that the tick reads; a command that
is `NULL` is `none`. -/
structure configuration where
  update_interval : Int
  low_level : Int
  critical_level : Int
  command_low_level : Option String
  command_critical_level : Option String

/-! ## sysfs functions -/

/-- What `g_file_get_contents` followed by `g_ascii_strtod` yields for one
attribute file: the value of `errno` tested afterwards and the parsed number,
a finite double. -/
structure sysattr_read where
  errno : Int
  double_value : ℚ

/-- The function `get_sysattr_double`; `file = none` when the file cannot be
read.  The result is the number stored through `value` when the returned
status is `TRUE`, and `none` when it is `FALSE` (no caller uses the stored
number after a `FALSE` status).  The constant `0.01` of the source is the
double next above `1 / 100`, and no double lies between the two, so that a
double is below the one exactly when it is below the other. -/
def get_sysattr_double (file : Option sysattr_read) : Option ℚ :=
  match file with
  | none => none
  | some r =>
    if r.errno ≠ 0 ∨ r.double_value < 1 / 100 then none else some r.double_value

/-- The glib test `g_str_has_prefix (str, pfx)`. -/
def str_starts_with (str pfx : String) : Bool :=
  pfx.toList.isPrefixOf str.toList

/-- The function `get_ac_online`; `file` is the content of the `online`
attribute, `none` when unreadable. -/
def get_ac_online (path : Option String) (file : Option String) : Option Bool :=
  match path with
  | none => none
  | some _ =>
    match file with
    | none => none
    | some sysattr_value => some (str_starts_with sysattr_value "1")

/-- The function `get_battery_present`; `file` is the content of the
`present` attribute. -/
def get_battery_present (path : Option String) (file : Option String) : Option Bool :=
  match path with
  | none => none
  | some _ =>
    match file with
    | none => none
    | some sysattr_value => some (str_starts_with sysattr_value "1")

/-- The function `get_battery_status`; `file` is the content of the `status`
attribute. -/
def get_battery_status (file : Option String) : Option Int :=
  match file with
  | none => none
  | some sysattr_value =>
    if str_starts_with sysattr_value "Charging" then some CHARGING
    else if str_starts_with sysattr_value "Discharging" then some DISCHARGING
    else if str_starts_with sysattr_value "Not charging" then some NOT_CHARGING
    else if str_starts_with sysattr_value "Full" then some CHARGED
    else some UNKNOWN

/-- Everything one call of `get_battery_charge` can read: the seven numeric
attributes of the battery and the clock at the two `filter_append` sites. -/
structure Readings where
  energy_full : Option sysattr_read
  charge_full : Option sysattr_read
  energy_now : Option sysattr_read
  charge_now : Option sysattr_read
  capacity : Option sysattr_read
  power_now : Option sysattr_read
  current_now : Option sysattr_read
  now_capacity : timespec
  now_rate : timespec

/-- The four static filters. -/
structure Filters where
  energy_filter : filter
  charge_filter : filter
  power_filter : filter
  current_filter : filter

/-- The function `get_battery_full_capacity`: `(use_charge, capacity)`. -/
def get_battery_full_capacity (r : Readings) : Option (Bool × ℚ) :=
  match get_sysattr_double r.energy_full with
  | some capacity => some (false, capacity)
  | none =>
    match get_sysattr_double r.charge_full with
    | some capacity => some (true, capacity)
    | none => none

/-- The function `get_battery_remaining_capacity`. -/
def get_battery_remaining_capacity (use_charge : Bool) (r : Readings) (fs : Filters) :
    Filters × Option ℚ :=
  if use_charge = false then
    match get_sysattr_double r.energy_now with
    | some capacity =>
      ({ fs with energy_filter := filter_append fs.energy_filter capacity r.now_capacity },
        some capacity)
    | none => (fs, none)
  else
    match get_sysattr_double r.charge_now with
    | some capacity =>
      ({ fs with charge_filter := filter_append fs.charge_filter capacity r.now_capacity },
        some capacity)
    | none => (fs, none)

/-- The function `get_battery_remaining_capacity_pct`. -/
def get_battery_remaining_capacity_pct (r : Readings) : Option ℚ :=
  get_sysattr_double r.capacity

/-- The function `get_battery_current_rate`. -/
def get_battery_current_rate (use_charge : Bool) (r : Readings) (fs : Filters) :
    Filters × Option gdouble :=
  if use_charge = false then
    match get_sysattr_double r.power_now with
    | some rate_now =>
      let f := filter_append fs.power_filter rate_now r.now_rate
      ({ fs with power_filter := f }, some (filter_get_mean f))
    | none =>
      let rate := double_fabs (filter_get_rate fs.energy_filter)
      if double_lt rate (round_double (1 / 100)) = true then (fs, none) else (fs, some rate)
  else
    match get_sysattr_double r.current_now with
    | some rate_now =>
      let f := filter_append fs.current_filter rate_now r.now_rate
      ({ fs with current_filter := f }, some (filter_get_mean f))
    | none =>
      let rate := double_fabs (filter_get_rate fs.charge_filter)
      if double_lt rate (round_double (1 / 100)) = true then (fs, none) else (fs, some rate)

/-- The function `reset_battery_current_rate`. -/
def reset_battery_current_rate (fs : Filters) : Filters :=
  { energy_filter := { fs.energy_filter with num_samples := 0, next_sample := 0 }
    charge_filter := { fs.charge_filter with num_samples := 0, next_sample := 0 }
    power_filter := { fs.power_filter with num_samples := 0, next_sample := 0 }
    current_filter := { fs.current_filter with num_samples := 0, next_sample := 0 } }

/-! ## computation functions -/

/-- Lines 755-774 of `get_battery_charge`: the unit flag, the full capacity
and the remaining capacity, or `none` where the function returns `FALSE`. -/
def battery_capacities (r : Readings) (fs : Filters) :
    Filters × Option (Bool × gdouble × gdouble) :=
  match get_battery_full_capacity r with
  | none => (fs, none)
  | some (use_charge, full_capacity) =>
    match get_battery_remaining_capacity use_charge r fs with
    | (fs1, some remaining_capacity) =>
      (fs1, some (use_charge, gdouble.finite full_capacity, gdouble.finite remaining_capacity))
    | (fs1, none) =>
      match get_battery_remaining_capacity_pct r with
      | none => (fs1, none)
      | some remaining_capacity =>
        (fs1, some (use_charge, gdouble.finite full_capacity,
          double_mul (gdouble.finite remaining_capacity)
            (double_div (gdouble.finite full_capacity) (gdouble.finite 100))))

/-- Line 776 of `get_battery_charge`:
`(gint)fmin (floor (remaining_capacity / full_capacity * 100.0), 100.0)`. -/
def charge_percentage (remaining_capacity full_capacity : gdouble) : Int :=
  gint_of_double
    (double_fmin
      (double_floor
        (double_mul (double_div remaining_capacity full_capacity) (gdouble.finite 100)))
      (gdouble.finite 100))

/-- The call `get_battery_charge (remaining, &percentage, NULL)`. -/
def get_battery_charge_no_time (r : Readings) (fs : Filters) : Filters × Option Int :=
  match battery_capacities r fs with
  | (fs1, none) => (fs1, none)
  | (fs1, some (_, full_capacity, remaining_capacity)) =>
    (fs1, some (charge_percentage remaining_capacity full_capacity))

/-- The call `get_battery_charge (remaining, &percentage, &time)`: the result
is `(percentage, time)`, or `none` where the function returns `FALSE`. -/
def get_battery_charge (remaining : Bool) (r : Readings) (fs : Filters) :
    Filters × Option (Int × Int) :=
  match battery_capacities r fs with
  | (fs1, none) => (fs1, none)
  | (fs1, some (use_charge, full_capacity, remaining_capacity)) =>
    let percentage := charge_percentage remaining_capacity full_capacity
    match get_battery_current_rate use_charge r fs1 with
    | (fs2, none) => (fs2, some (percentage, -1))
    | (fs2, some current_rate) =>
      if remaining = true then
        (fs2, some (percentage,
          gint_of_double
            (double_mul (double_div remaining_capacity current_rate) (gdouble.finite 60))))
      else
        (fs2, some (percentage,
          gint_of_double
            (double_mul
              (double_div (double_sub full_capacity remaining_capacity) current_rate)
              (gdouble.finite 60))))

/-! ## tray icon functions -/

/-- What the tick hands to the notification daemon, the tray icon, the
scheduler and the process spawner, in the order of the calls.
`notify state percentage time` is the call `NOTIFY_MESSAGE` with the summary
`get_battery_string (state, percentage)` and the body `get_time_string (time)`;
`tray label icon percentage time` is the pair
`TRAY_ICON_SET_TEXT` / `TRAY_ICON_SET_ICON`, where `label` is the state whose
string `battery_string` holds and `icon` the state given to `get_icon_name`. -/
inductive Event where
  | notify_ac_only : Event
  | tray_ac_only : Event
  | notify (state percentage time : Int) : Event
  | tray (label icon percentage time : Int) : Event
  | usleep (seconds : Nat) : Event
  | spawn_low (command : String) : Event
  | spawn_critical (command : String) : Event
  | notify_spawn_low_failed : Event
  | notify_spawn_critical_failed : Event
deriving DecidableEq, Repr

/-- The static variables of `update_tray_icon_status` and the four filters. -/
structure State where
  old_battery_status : Int
  ac_only : Bool
  battery_low : Bool
  battery_critical : Bool
  spawn_command_low : Bool
  spawn_command_critical : Bool
  filters : Filters

/-- The state at process start. -/
def State.initial : State :=
  { old_battery_status := -1
    ac_only := false
    battery_low := false
    battery_critical := false
    spawn_command_low := false
    spawn_command_critical := false
    filters := ⟨filter_zero, filter_zero, filter_zero, filter_zero⟩ }

/-- Everything one tick reads from outside.  `battery_path` and `ac_path` are
the globals as `changed_power_supplies` leaves them; `probe` serves the call
of `get_battery_charge` in the unknown-status workaround and `main` the call
in the `switch`; `status_low` and `status_critical` are the `status`
attribute as re-read after the 5 and 30 second waits. -/
structure TickInput where
  changed_power_supplies : Bool
  battery_path : Option String
  ac_path : Option String
  present : Option String
  status : Option String
  online : Option String
  probe : Readings
  main : Readings
  status_low : Option String
  status_critical : Option String
  spawn_low_ok : Bool
  spawn_critical_ok : Bool

/-- Lines 862-871: the reset made when `changed_power_supplies ()` is `TRUE`. -/
def power_supplies_reset (s : State) : State :=
  { s with
    old_battery_status := -1
    ac_only := false
    battery_low := false
    battery_critical := false
    spawn_command_low := false
    spawn_command_critical := false }

/-- Lines 890-915: the battery status the `switch` is entered with, `none`
where the function returns. -/
def read_battery_status (inp : TickInput) (fs : Filters) : Filters × Option Int :=
  match get_battery_present inp.battery_path inp.present with
  | none => (fs, none)
  | some battery_present =>
    if battery_present = false then (fs, some MISSING)
    else
      match get_battery_status inp.status with
      | none => (fs, none)
      | some battery_status =>
        if battery_status = UNKNOWN then
          match get_ac_online inp.ac_path inp.online with
          | some ac_online =>
            if ac_online = true then
              match get_battery_charge_no_time inp.probe fs with
              | (fs1, some percentage) =>
                if percentage ≥ 99 then (fs1, some CHARGED) else (fs1, some CHARGING)
              | (fs1, none) => (fs1, some CHARGING)
            else (fs, some DISCHARGING)
          | none => (fs, some battery_status)
        else (fs, some battery_status)

/-- The macro `HANDLE_BATTERY_STATUS (PCT, TIM, EXP, URG)`. -/
def HANDLE_BATTERY_STATUS (battery_status PCT TIM : Int) (s : State) : State × List Event :=
  let percentage := PCT
  if s.old_battery_status ≠ battery_status then
    ({ s with old_battery_status := battery_status },
      [Event.notify battery_status percentage TIM,
       Event.tray battery_status battery_status percentage TIM])
  else
    (s, [Event.tray battery_status battery_status percentage TIM])

/-- Where a tick stands when it reaches line 1001, or its result when it has
returned or left the `switch` before: `at_spawn` tells which. -/
structure Progress where
  s : State
  events : List Event
  at_spawn : Bool

/-- Lines 967-999: the status-change notification on entering the
discharging family, the low and the critical check, and the tray update. -/
def discharging_checks (cfg : configuration) (battery_status percentage time : Int)
    (s : State) : State × List Event :=
  let entered := decide (s.old_battery_status ≠ DISCHARGING)
  let s1 : State :=
    if entered then
      { s with
        old_battery_status := DISCHARGING
        battery_low := false
        battery_critical := false
        spawn_command_low := false
        spawn_command_critical := false }
    else s
  let e1 : List Event :=
    if entered then [Event.notify battery_status percentage time] else []
  let low := decide (s1.battery_low = false ∧ percentage ≤ cfg.low_level)
  let s2 : State :=
    if low then { s1 with battery_low := true, spawn_command_low := true } else s1
  let e2 : List Event := if low then [Event.notify LOW_LEVEL percentage time] else []
  let critical := decide (s2.battery_critical = false ∧ percentage ≤ cfg.critical_level)
  let s3 : State :=
    if critical then { s2 with battery_critical := true, spawn_command_critical := true }
    else s2
  let e3 : List Event :=
    if critical then [Event.notify CRITICAL_LEVEL percentage time] else []
  let battery_string : Int :=
    if critical then CRITICAL_LEVEL else if low then LOW_LEVEL else battery_status
  (s3, e1 ++ e2 ++ e3 ++ [Event.tray battery_string battery_status percentage time])

/-- Whether a re-read status makes the spawn code return: the attribute is
readable and is neither `DISCHARGING` nor `NOT_CHARGING`. -/
def no_longer_discharging (file : Option String) : Bool :=
  match get_battery_status file with
  | some battery_status =>
    decide (battery_status ≠ DISCHARGING ∧ battery_status ≠ NOT_CHARGING)
  | none => false

/-- Lines 1029-1055: the critical-level command. -/
def spawn_critical_command (cfg : configuration) (inp : TickInput) (s : State) :
    State × List Event :=
  if s.spawn_command_critical = true then
    let s1 := { s with spawn_command_critical := false }
    match cfg.command_critical_level with
    | none => (s1, [])
    | some command =>
      if no_longer_discharging inp.status_critical then (s1, [Event.usleep 30])
      else if inp.spawn_critical_ok then
        (s1, [Event.usleep 30, Event.spawn_critical command])
      else
        (s1, [Event.usleep 30, Event.spawn_critical command,
              Event.notify_spawn_critical_failed])
  else (s, [])

/-- Lines 1001-1055: the low-level command, then, unless the function has
returned, the critical-level command. -/
def spawn_commands (cfg : configuration) (inp : TickInput) (s : State) :
    State × List Event :=
  if s.spawn_command_low = true then
    let s1 := { s with spawn_command_low := false }
    match cfg.command_low_level with
    | none => spawn_critical_command cfg inp s1
    | some command =>
      if no_longer_discharging inp.status_low then (s1, [Event.usleep 5])
      else
        let e : List Event :=
          if inp.spawn_low_ok then [Event.usleep 5, Event.spawn_low command]
          else [Event.usleep 5, Event.spawn_low command, Event.notify_spawn_low_failed]
        let next := spawn_critical_command cfg inp s1
        (next.1, e ++ next.2)
  else spawn_critical_command cfg inp s

/-- The function `update_tray_icon_status` up to line 999. -/
def update_tray_icon_status_checks (cfg : configuration) (inp : TickInput) (s0 : State) :
    Progress :=
  let s : State := if inp.changed_power_supplies = true then power_supplies_reset s0 else s0
  match inp.battery_path with
  | none =>
    if s.ac_only = false then
      ⟨{ s with ac_only := true }, [Event.notify_ac_only, Event.tray_ac_only], false⟩
    else ⟨s, [], false⟩
  | some _ =>
    match read_battery_status inp s.filters with
    | (fs, none) => ⟨{ s with filters := fs }, [], false⟩
    | (fs, some battery_status) =>
      let s1 : State := { s with filters := fs }
      if battery_status = MISSING then
        let r := HANDLE_BATTERY_STATUS battery_status 0 (-1) s1
        ⟨r.1, r.2, false⟩
      else if battery_status = UNKNOWN then
        let r := HANDLE_BATTERY_STATUS battery_status 0 (-1) s1
        ⟨r.1, r.2, false⟩
      else if battery_status = CHARGED then
        let r := HANDLE_BATTERY_STATUS battery_status 100 (-1) s1
        ⟨r.1, r.2, false⟩
      else if battery_status = CHARGING then
        let s2 : State :=
          if s1.old_battery_status ≠ CHARGING then
            { s1 with filters := reset_battery_current_rate s1.filters }
          else s1
        match get_battery_charge false inp.main s2.filters with
        | (fs2, none) => ⟨{ s2 with filters := fs2 }, [], false⟩
        | (fs2, some (percentage, time)) =>
          let r := HANDLE_BATTERY_STATUS battery_status percentage time { s2 with filters := fs2 }
          ⟨r.1, r.2, false⟩
      else if battery_status = DISCHARGING ∨ battery_status = NOT_CHARGING then
        let s2 : State :=
          if s1.old_battery_status ≠ DISCHARGING then
            { s1 with filters := reset_battery_current_rate s1.filters }
          else s1
        match get_battery_charge true inp.main s2.filters with
        | (fs2, none) => ⟨{ s2 with filters := fs2 }, [], false⟩
        | (fs2, some (percentage, time)) =>
          let r := discharging_checks cfg battery_status percentage time { s2 with filters := fs2 }
          ⟨r.1, r.2, true⟩
      else ⟨s1, [], false⟩

/-- The function `update_tray_icon_status`: one tick. -/
def update_tray_icon_status (cfg : configuration) (inp : TickInput) (s0 : State) :
    State × List Event :=
  let p := update_tray_icon_status_checks cfg inp s0
  if p.at_spawn = true then
    let r := spawn_commands cfg inp p.s
    (r.1, p.events ++ r.2)
  else (p.s, p.events)

/-- Consecutive ticks, oldest first: the final state and all events. -/
def run_ticks (cfg : configuration) : List TickInput → State → State × List Event
  | [], s => (s, [])
  | inp :: rest, s =>
    let r := update_tray_icon_status cfg inp s
    let r2 := run_ticks cfg rest r.1
    (r2.1, r.2 ++ r2.2)

/-! ## concrete inputs -/

/-- Sixty appends five seconds apart: fifty-nine times the value 1, then the
value 61. -/
def sixty_appends : List (ℚ × timespec) :=
  (List.range 59).map (fun i => ((1 : ℚ), (⟨5 * i, 0⟩ : timespec))) ++ [((61 : ℚ), ⟨295, 0⟩)]

/-- Sixty-one appends: `sixty_appends`, then the value 1 once more. -/
def sixty_one_appends : List (ℚ × timespec) :=
  sixty_appends ++ [((1 : ℚ), ⟨300, 0⟩)]

/-- Sixty appends five seconds apart: the value 296, then fifty-nine times the
value 1. -/
def falling_appends : List (ℚ × timespec) :=
  ((296 : ℚ), (⟨0, 0⟩ : timespec)) ::
    (List.range 59).map (fun i => ((1 : ℚ), (⟨5 * (i + 1), 0⟩ : timespec)))

/-- An attribute file holding the number `v`, parsed without error. -/
def attr (v : ℚ) : Option sysattr_read := some ⟨0, v⟩

/-- An energy-denominated battery: `energy_full`, `energy_now` and
`power_now` readable, nothing else. -/
def energy_readings (full now power : ℚ) (t : Int) : Readings :=
  { energy_full := attr full
    charge_full := none
    energy_now := attr now
    charge_now := none
    capacity := none
    power_now := attr power
    current_now := none
    now_capacity := ⟨t, 0⟩
    now_rate := ⟨t, 0⟩ }

/-- A tick whose battery is present, whose `status` attribute reads `status`
and whose numeric attributes are those of `r`; no device change, the status
re-read after a wait reads `recheck`, spawning succeeds. -/
def battery_tick (status : String) (r : Readings) (recheck : String) : TickInput :=
  { changed_power_supplies := false
    battery_path := some "/sys/class/power_supply/BAT0"
    ac_path := some "/sys/class/power_supply/AC"
    present := some "1\n"
    status := some status
    online := some "0\n"
    probe := r
    main := r
    status_low := some recheck
    status_critical := some recheck
    spawn_low_ok := true
    spawn_critical_ok := true }

/-- The default thresholds with both commands configured. -/
def default_configuration : configuration :=
  { update_interval := DEFAULT_UPDATE_INTERVAL
    low_level := DEFAULT_LOW_LEVEL
    critical_level := DEFAULT_CRITICAL_LEVEL
    command_low_level := some "low-command"
    command_critical_level := some "critical-command" }

/-- A charging battery: 10000 of 50000 units, drawing 10000 units per hour. -/
def charging_tick : TickInput :=
  battery_tick "Charging\n" (energy_readings 50000 10000 10000 0) "Charging\n"

/-- The same readings on a discharging battery. -/
def discharging_tick : TickInput :=
  battery_tick "Discharging\n" (energy_readings 50000 10000 10000 0) "Discharging\n"

/-! ## observations on ticks and events -/

/-- The status with which a tick enters the `switch`, `none` when the tick
returns before it. -/
def tick_status (inp : TickInput) : Option Int :=
  match inp.battery_path with
  | none => none
  | some _ => (read_battery_status inp State.initial.filters).2

/-- The percentage `get_battery_charge` computes from the readings `main` of
a tick, `none` when it returns `FALSE`. -/
def tick_percentage (inp : TickInput) : Option Int :=
  (get_battery_charge true inp.main State.initial.filters).2.map Prod.fst

/-- The low-level notification of line 984. -/
def is_low_notification : Event → Bool
  | Event.notify state _ _ => decide (state = LOW_LEVEL)
  | _ => false

/-- The critical-level notification of line 993. -/
def is_critical_notification : Event → Bool
  | Event.notify state _ _ => decide (state = CRITICAL_LEVEL)
  | _ => false

/-- A status-change notification: `NOTIFY_MESSAGE` with the string of a
battery status. -/
def is_status_notification : Event → Bool
  | Event.notify state _ _ => decide (state ≠ LOW_LEVEL ∧ state ≠ CRITICAL_LEVEL)
  | _ => false

/-- A request to run a configured command. -/
def is_spawn_request : Event → Bool
  | Event.spawn_low _ => true
  | Event.spawn_critical _ => true
  | _ => false

/-- A discharging battery at 4 percent: 2000 of 50000 units. -/
def deep_tick : TickInput :=
  battery_tick "Discharging\n" (energy_readings 50000 2000 10000 0) "Discharging\n"

/-- The device set changes and the battery path is gone. -/
def battery_gone_tick : TickInput :=
  { discharging_tick with changed_power_supplies := true, battery_path := none }

/-- The device set changes again and the battery of `discharging_tick` is back. -/
def battery_back_tick : TickInput :=
  { discharging_tick with changed_power_supplies := true }

/-- The state after one tick of `discharging_tick` from the initial state: the
low level has been notified at 20 percent. -/
def low_notified_state : State :=
  (update_tray_icon_status default_configuration discharging_tick State.initial).1

/-- The battery of `deep_tick`, at 4 percent, when the charger is plugged in
during the waits: both re-reads of the status give `Charging`. -/
def plugged_in_tick : TickInput :=
  battery_tick "Discharging\n" (energy_readings 50000 2000 10000 0) "Charging\n"

/-- The battery of `deep_tick` when the charger is plugged in after the first
wait: the re-read after 5 seconds gives `Discharging`, the one after 30
seconds `Charging`. -/
def plugged_in_late_tick : TickInput :=
  { deep_tick with status_critical := some "Charging\n" }

/-! ## command line options function -/

/-- Lines 336-359 of `get_options`: the validation of the update interval and
of the two levels. -/
def get_options_validation (c : configuration) : configuration :=
  let c1 : configuration :=
    if c.update_interval ≤ 0 then { c with update_interval := DEFAULT_UPDATE_INTERVAL } else c
  let c2 : configuration :=
    if c1.low_level < 0 ∨ c1.low_level > 100 then { c1 with low_level := DEFAULT_LOW_LEVEL }
    else c1
  let c3 : configuration :=
    if c2.critical_level < 0 ∨ c2.critical_level > 100 then
      { c2 with critical_level := DEFAULT_CRITICAL_LEVEL }
    else c2
  if c3.critical_level > c3.low_level then
    { c3 with critical_level := DEFAULT_CRITICAL_LEVEL, low_level := DEFAULT_LOW_LEVEL }
  else c3

/-- What `get_options` meets before the validation: whether
`g_option_context_parse` succeeds and the three options that make it return 0. -/
structure options_outcome where
  parse_ok : Bool
  display_version : Bool
  list_power_supplies : Bool
  list_icon_types : Bool

/-- The function `get_options`: its return value and the configuration it
leaves; `c` holds the values as parsed from the command line (the icon type
is not modelled).  `main` returns at once unless the value is positive. -/
def get_options (o : options_outcome) (c : configuration) : Int × configuration :=
  if o.parse_ok = false then (-1, c)
  else if o.display_version = true then (0, c)
  else if o.list_power_supplies = true then (0, c)
  else if o.list_icon_types = true then (0, c)
  else (1, get_options_validation c)

/-! ## sequences of filter operations -/

/-- What `reset_battery_current_rate` does to each of the four filters. -/
def filter_reset (f : filter) : filter :=
  { f with num_samples := 0, next_sample := 0 }

/-- The two operations the program performs on a filter. -/
inductive FilterOp where
  | append (value : ℚ) (now : timespec) : FilterOp
  | reset : FilterOp

/-- One operation on a filter. -/
def filter_step (f : filter) : FilterOp → filter
  | FilterOp.append value now => filter_append f value now
  | FilterOp.reset => filter_reset f

/-- A sequence of operations, oldest first. -/
def filter_run (f : filter) (ops : List FilterOp) : filter :=
  ops.foldl filter_step f

/-- A battery whose `status` attribute reads `Unknown`, at 99.8 percent, with
the AC adapter online. -/
def unknown_status_tick : TickInput :=
  { battery_tick "Unknown\n" (energy_readings 50000 49900 10000 0) "Unknown\n" with
    online := some "1\n" }

/-- The capacity filter `get_battery_current_rate` differentiates. -/
def capacity_filter (use_charge : Bool) (fs : Filters) : filter :=
  if use_charge = false then fs.energy_filter else fs.charge_filter

/-- The rate attribute `get_battery_current_rate` reads: `power_now` or
`current_now`. -/
def rate_attribute (use_charge : Bool) (r : Readings) : Option sysattr_read :=
  if use_charge = false then r.power_now else r.current_now

/-- The `time_diff` that `filter_get_rate` computes between its slots `a` and
`b`. -/
def filter_span (f : filter) : gdouble :=
  time_diff f ((f.next_sample + MAX_SAMPLES - f.num_samples) % MAX_SAMPLES)
    ((f.next_sample + MAX_SAMPLES - 1) % MAX_SAMPLES)

/-- Energy readings without a rate attribute, taken at second 30. -/
def no_rate_readings : Readings :=
  { energy_readings 50000 10000 10000 30 with power_now := none }

/-- Filters whose energy filter holds one sample, taken at second 0. -/
def one_sample_filters : Filters :=
  ⟨filter_append filter_zero 10100 ⟨0, 0⟩, filter_zero, filter_zero, filter_zero⟩

/-- Readings in which no attribute file can be read. -/
def unreadable_readings : Readings :=
  { energy_full := none
    charge_full := none
    energy_now := none
    charge_now := none
    capacity := none
    power_now := none
    current_now := none
    now_capacity := ⟨0, 0⟩
    now_rate := ⟨0, 0⟩ }

/-- A charging battery whose capacity attributes cannot be read. -/
def charging_unreadable_tick : TickInput :=
  battery_tick "Charging\n" unreadable_readings "Charging\n"

/-- A tick without battery path and without device change. -/
def ac_only_tick : TickInput :=
  { discharging_tick with battery_path := none }

/-- A request to run the low-level command. -/
def is_spawn_low : Event → Bool
  | Event.spawn_low _ => true
  | _ => false

/-- A request to run the critical-level command. -/
def is_spawn_critical : Event → Bool
  | Event.spawn_critical _ => true
  | _ => false

/-- The state with the two notified flags and the two pending flags cleared. -/
def clear_hysteresis (s : State) : State :=
  { s with
    battery_low := false
    battery_critical := false
    spawn_command_low := false
    spawn_command_critical := false }

/-- What holds of the static variables between ticks: no low-level spawn is
pending, a pending critical-level spawn comes with `battery_critical`, and a
notified flag is set only after some status has been recorded. -/
def State.coherent (s : State) : Prop :=
  s.spawn_command_low = false ∧
  (s.spawn_command_critical = true → s.battery_critical = true) ∧
  ((s.battery_low = true ∨ s.battery_critical = true) → s.old_battery_status ≠ -1)

instance (s : State) : Decidable s.coherent := by
  unfold State.coherent
  infer_instance

/-- A battery at 4 percent for three ticks, `Discharging` throughout. -/
def deep_run : List TickInput :=
  [deep_tick, deep_tick, deep_tick]

/-! ## invariants of the filters -/

/-- The shape of a filter reached from the zero-initialised one: the write
index is inside the ring, and the count equals the write index until the
first wrap and is 59 from then on. -/
def filter_shape (f : filter) : Prop :=
  f.next_sample < MAX_SAMPLES ∧
  (f.next_sample = f.num_samples ∨ f.num_samples = MAX_SAMPLES - 1)

/-- A filter of that shape whose counted slots all hold values the attribute
reader accepts. -/
def filter_good (f : filter) : Prop :=
  filter_shape f ∧ ∀ i, i < f.num_samples → 1 / 100 ≤ f.samples i

/-- The four filters are all good. -/
def Filters.good (fs : Filters) : Prop :=
  filter_good fs.energy_filter ∧ filter_good fs.charge_filter ∧
  filter_good fs.power_filter ∧ filter_good fs.current_filter

/-- The slots that two filters with the same history since their last reset
have in common: those below the count before the first wrap, all sixty
afterwards. -/
def filter_same_since_reset (f g : filter) : Prop :=
  f.num_samples = g.num_samples ∧ f.next_sample = g.next_sample ∧
  f.next_sample < MAX_SAMPLES ∧
  ((f.next_sample = f.num_samples ∧
      ∀ i, i < f.num_samples →
        f.samples i = g.samples i ∧ f.sample_times i = g.sample_times i) ∨
    (f.num_samples = MAX_SAMPLES - 1 ∧
      ∀ i, i < MAX_SAMPLES →
        f.samples i = g.samples i ∧ f.sample_times i = g.sample_times i))

/-- A reset filter whose slots still hold the sixty samples of
`sixty_appends`. -/
def stale_filter : filter :=
  filter_reset (filter_append_all filter_zero sixty_appends)

/-- The run of one tick of `discharging_tick`. -/
def one_tick_run : List TickInput :=
  [discharging_tick]

/-- The state after `one_tick_run` from the initial state. -/
def second_tick_state : State :=
  (run_ticks default_configuration one_tick_run State.initial).1

/-- The constant `0.01` of the source: the double nearest to `1 / 100`. -/
def double_0_01 : ℚ := 5764607523034235 / 576460752303423488

/-- A discharging battery at 20 percent whose `power_now` reads 0.01. -/
def threshold_rate_tick : TickInput :=
  battery_tick "Discharging\n" (energy_readings 50000 10000 double_0_01 0) "Discharging\n"

/-- Nine ticks of `threshold_rate_tick`. -/
def threshold_rate_run : List TickInput :=
  List.replicate 9 threshold_rate_tick

/-- The state after the device-change tick `battery_gone_tick` from the initial
state: the battery path is gone and the AC-only notification has been given. -/
def battery_gone_state : State :=
  (update_tray_icon_status default_configuration battery_gone_tick State.initial).1

/-- Two further ticks without battery path and without device change. -/
def ac_only_run : List TickInput :=
  [ac_only_tick, ac_only_tick]

/-! ## binary64 rounding -/

theorem two_pow_eq (k : Int) : two_pow k = (2 : ℚ) ^ k := by
  unfold two_pow
  split_ifs with h
  · obtain ⟨n, rfl⟩ := Int.eq_ofNat_of_zero_le h
    simp
  · obtain ⟨n, hn⟩ := Int.eq_ofNat_of_zero_le (show (0 : Int) ≤ -k by omega)
    have hk : k = -(n : Int) := by omega
    subst hk
    simp

theorem two_pow_pos (k : Int) : 0 < two_pow k := by
  rw [two_pow_eq]
  positivity

theorem two_pow_add (j k : Int) : two_pow (j + k) = two_pow j * two_pow k := by
  simp only [two_pow_eq]
  exact zpow_add₀ (by norm_num) j k

theorem two_pow_le (j k : Int) (h : j ≤ k) : two_pow j ≤ two_pow k := by
  simp only [two_pow_eq]
  exact zpow_le_zpow_right₀ (by norm_num) h

theorem log2_loop_spec (fuel : Nat) : ∀ n, 1 ≤ n → n ≤ fuel →
    2 ^ log2_loop fuel n ≤ n ∧ n < 2 ^ (log2_loop fuel n + 1) := by
  induction fuel with
  | zero =>
    intro n h1 h2
    omega
  | succ fuel ih =>
    intro n h1 h2
    unfold log2_loop
    split_ifs with h
    · obtain ⟨a, b⟩ := ih (n / 2) (by omega) (by omega)
      constructor
      · rw [pow_succ]
        omega
      · rw [pow_succ]
        omega
    · have : n = 1 := by omega
      subst this
      simp

theorem nat_log2_spec (n : Nat) (h : 1 ≤ n) :
    2 ^ nat_log2 n ≤ n ∧ n < 2 ^ (nat_log2 n + 1) :=
  log2_loop_spec n n h (le_refl n)

theorem rat_eq_natAbs_div (x : ℚ) (hx : 0 < x) :
    x = (x.num.natAbs : ℚ) / (x.den : ℚ) := by
  have hn : 0 < x.num := Rat.num_pos.mpr hx
  have h : ((x.num.natAbs : Nat) : ℚ) = (x.num : ℚ) := by
    have : ((x.num.natAbs : Int) : ℚ) = (x.num : ℚ) := by
      rw [Int.natAbs_of_nonneg hn.le]
    rw [← this, Int.cast_natCast]
  rw [h]
  exact (Rat.num_div_den x).symm

theorem exponent_bounds (x : ℚ) (hx : 0 < x) :
    two_pow ((nat_log2 x.num.natAbs : Int) - (nat_log2 x.den : Int) - 1) < x ∧
    x < two_pow ((nat_log2 x.num.natAbs : Int) - (nat_log2 x.den : Int) + 1) := by
  have hn : 0 < x.num := Rat.num_pos.mpr hx
  have hN : 1 ≤ x.num.natAbs := by omega
  have hD : 1 ≤ x.den := x.den_pos
  obtain ⟨a1, a2⟩ := nat_log2_spec x.num.natAbs hN
  obtain ⟨b1, b2⟩ := nat_log2_spec x.den hD
  have a1q : (2 : ℚ) ^ nat_log2 x.num.natAbs ≤ (x.num.natAbs : ℚ) := by exact_mod_cast a1
  have a2q : (x.num.natAbs : ℚ) < (2 : ℚ) ^ (nat_log2 x.num.natAbs + 1) := by exact_mod_cast a2
  have b1q : (2 : ℚ) ^ nat_log2 x.den ≤ (x.den : ℚ) := by exact_mod_cast b1
  have b2q : (x.den : ℚ) < (2 : ℚ) ^ (nat_log2 x.den + 1) := by exact_mod_cast b2
  have hDq : (0 : ℚ) < (x.den : ℚ) := by exact_mod_cast hD
  have hpa : (0 : ℚ) < (2 : ℚ) ^ nat_log2 x.num.natAbs := by positivity
  have hpb : (0 : ℚ) < (2 : ℚ) ^ nat_log2 x.den := by positivity
  have e1 : two_pow ((nat_log2 x.num.natAbs : Int) - (nat_log2 x.den : Int) - 1)
      = (2 : ℚ) ^ nat_log2 x.num.natAbs / (2 : ℚ) ^ (nat_log2 x.den + 1) := by
    rw [two_pow_eq, show ((nat_log2 x.num.natAbs : Int) - (nat_log2 x.den : Int) - 1)
      = (nat_log2 x.num.natAbs : Int) - ((nat_log2 x.den + 1 : Nat) : Int) by push_cast; ring,
      zpow_sub₀ (by norm_num), zpow_natCast, zpow_natCast]
  have e2 : two_pow ((nat_log2 x.num.natAbs : Int) - (nat_log2 x.den : Int) + 1)
      = (2 : ℚ) ^ (nat_log2 x.num.natAbs + 1) / (2 : ℚ) ^ nat_log2 x.den := by
    rw [two_pow_eq, show ((nat_log2 x.num.natAbs : Int) - (nat_log2 x.den : Int) + 1)
      = ((nat_log2 x.num.natAbs + 1 : Nat) : Int) - (nat_log2 x.den : Int) by push_cast; ring,
      zpow_sub₀ (by norm_num), zpow_natCast, zpow_natCast]
  have hx' := rat_eq_natAbs_div x hx
  constructor
  · rw [e1]
    nth_rewrite 3 [hx']
    rw [div_lt_div_iff₀ (by positivity) hDq]
    calc (2 : ℚ) ^ nat_log2 x.num.natAbs * (x.den : ℚ)
        < (2 : ℚ) ^ nat_log2 x.num.natAbs * (2 : ℚ) ^ (nat_log2 x.den + 1) :=
          mul_lt_mul_of_pos_left b2q hpa
      _ ≤ (x.num.natAbs : ℚ) * (2 : ℚ) ^ (nat_log2 x.den + 1) :=
          mul_le_mul_of_nonneg_right a1q (by positivity)
  · rw [e2]
    nth_rewrite 1 [hx']
    rw [div_lt_div_iff₀ hDq hpb]
    calc (x.num.natAbs : ℚ) * (2 : ℚ) ^ nat_log2 x.den
        ≤ (x.num.natAbs : ℚ) * (x.den : ℚ) :=
          mul_le_mul_of_nonneg_left b1q (by positivity)
      _ < (2 : ℚ) ^ (nat_log2 x.num.natAbs + 1) * (x.den : ℚ) :=
          mul_lt_mul_of_pos_right a2q hDq

theorem double_exponent_ge (x : ℚ) : -1022 ≤ double_exponent x := by
  unfold double_exponent
  exact le_max_right _ _

theorem double_exponent_lt (x : ℚ) (hx : 0 < x) : x < two_pow (double_exponent x + 1) := by
  obtain ⟨h1, h2⟩ := exponent_bounds x hx
  unfold double_exponent
  simp only
  split_ifs with h
  · refine lt_of_lt_of_le h2 (two_pow_le _ _ ?_)
    have hm := le_max_left ((nat_log2 x.num.natAbs : Int) - (nat_log2 x.den : Int)) (-1022)
    omega
  · push_neg at h
    refine lt_of_lt_of_le h (two_pow_le _ _ ?_)
    have hm := le_max_left ((nat_log2 x.num.natAbs : Int) - (nat_log2 x.den : Int) - 1) (-1022)
    omega

theorem double_exponent_le (x : ℚ) (hx : 0 < x) (hn : -1022 < double_exponent x) :
    two_pow (double_exponent x) ≤ x := by
  obtain ⟨h1, h2⟩ := exponent_bounds x hx
  unfold double_exponent at hn ⊢
  simp only at hn ⊢
  split_ifs at hn ⊢ with h
  · rw [max_eq_left (by
      rcases le_total ((nat_log2 x.num.natAbs : Int) - (nat_log2 x.den : Int)) (-1022) with c | c
      · rw [max_eq_right c] at hn
        omega
      · exact c)]
    exact h
  · rw [max_eq_left (by
      rcases le_total ((nat_log2 x.num.natAbs : Int) - (nat_log2 x.den : Int) - 1) (-1022)
        with c | c
      · rw [max_eq_right c] at hn
        omega
      · exact c)]
    exact h1.le

theorem double_exponent_mono (x y : ℚ) (hx : 0 < x) (hxy : x ≤ y) :
    double_exponent x ≤ double_exponent y := by
  by_contra hc
  push_neg at hc
  have hy : 0 < y := lt_of_lt_of_le hx hxy
  have h1 : -1022 < double_exponent x := lt_of_le_of_lt (double_exponent_ge y) hc
  have h2 := double_exponent_le x hx h1
  have h3 := double_exponent_lt y hy
  have h4 : two_pow (double_exponent y + 1) ≤ two_pow (double_exponent x) :=
    two_pow_le _ _ (by omega)
  linarith

theorem round_nearest_even_ge (m : ℚ) : ⌊m⌋ ≤ round_nearest_even m := by
  unfold round_nearest_even
  split_ifs <;> omega

theorem round_nearest_even_le (m : ℚ) : round_nearest_even m ≤ ⌊m⌋ + 1 := by
  unfold round_nearest_even
  split_ifs <;> omega

theorem round_nearest_even_error (m : ℚ) : |(round_nearest_even m : ℚ) - m| ≤ 1 / 2 := by
  have h1 : ((⌊m⌋ : Int) : ℚ) ≤ m := Int.floor_le m
  have h2 : m < ((⌊m⌋ : Int) : ℚ) + 1 := Int.lt_floor_add_one m
  unfold round_nearest_even
  rw [abs_le]
  split_ifs with a b c
  · constructor <;> linarith
  · push_cast
    constructor <;> linarith
  · push_neg at a b
    constructor <;> linarith
  · push_neg at a b
    push_cast
    constructor <;> linarith

theorem round_nearest_even_intCast (n : Int) : round_nearest_even (n : ℚ) = n := by
  unfold round_nearest_even
  rw [Int.floor_intCast]
  simp

theorem round_nearest_even_mono (m m' : ℚ) (h : m ≤ m') :
    round_nearest_even m ≤ round_nearest_even m' := by
  have hf : ⌊m⌋ ≤ ⌊m'⌋ := Int.floor_mono h
  rcases lt_or_eq_of_le hf with hlt | heq
  · have a := round_nearest_even_le m
    have b := round_nearest_even_ge m'
    omega
  · unfold round_nearest_even
    rw [heq]
    split_ifs <;> first | omega | (exfalso; linarith)

theorem le_round_nearest_even (n : Int) (m : ℚ) (h : (n : ℚ) ≤ m) :
    n ≤ round_nearest_even m := by
  have := round_nearest_even_mono _ _ h
  rwa [round_nearest_even_intCast] at this

theorem round_nearest_even_le_of_le (n : Int) (m : ℚ) (h : m ≤ (n : ℚ)) :
    round_nearest_even m ≤ n := by
  have := round_nearest_even_mono _ _ h
  rwa [round_nearest_even_intCast] at this

/-! ### rounding of a positive number -/

theorem round_magnitude_error (a : ℚ) :
    |round_magnitude a - a| ≤ two_pow (double_exponent a - 53) := by
  have hq : 0 < two_pow (double_exponent a - 52) := two_pow_pos _
  have h := round_nearest_even_error (a / two_pow (double_exponent a - 52))
  have e : round_magnitude a - a
      = ((round_nearest_even (a / two_pow (double_exponent a - 52)) : ℚ)
          - a / two_pow (double_exponent a - 52)) * two_pow (double_exponent a - 52) := by
    unfold round_magnitude
    field_simp
  rw [e, abs_mul, abs_of_pos hq]
  have h2 : two_pow (double_exponent a - 53)
      = 1 / 2 * two_pow (double_exponent a - 52) := by
    rw [show double_exponent a - 53 = -1 + (double_exponent a - 52) by ring, two_pow_add]
    congr 1
  rw [h2]
  exact mul_le_mul_of_nonneg_right h hq.le

theorem round_magnitude_le_pow (a : ℚ) (ha : 0 < a) :
    round_magnitude a ≤ two_pow (double_exponent a + 1) := by
  have hq : 0 < two_pow (double_exponent a - 52) := two_pow_pos _
  have h1 : a / two_pow (double_exponent a - 52) ≤ ((9007199254740992 : Int) : ℚ) := by
    rw [div_le_iff₀ hq]
    have e : ((9007199254740992 : Int) : ℚ) * two_pow (double_exponent a - 52)
        = two_pow (double_exponent a + 1) := by
      rw [show double_exponent a + 1 = 53 + (double_exponent a - 52) by ring, two_pow_add]
      congr 1
    rw [e]
    exact (double_exponent_lt a ha).le
  have h2 := round_nearest_even_le_of_le _ _ h1
  have h3 : (round_nearest_even (a / two_pow (double_exponent a - 52)) : ℚ)
      ≤ ((9007199254740992 : Int) : ℚ) := by exact_mod_cast h2
  have e : two_pow (double_exponent a + 1)
      = ((9007199254740992 : Int) : ℚ) * two_pow (double_exponent a - 52) := by
    rw [show double_exponent a + 1 = 53 + (double_exponent a - 52) by ring, two_pow_add]
    congr 1
  unfold round_magnitude
  rw [e]
  exact mul_le_mul_of_nonneg_right h3 hq.le

theorem round_magnitude_ge_pow (a : ℚ) (ha : 0 < a) (hn : -1022 < double_exponent a) :
    two_pow (double_exponent a) ≤ round_magnitude a := by
  have hq : 0 < two_pow (double_exponent a - 52) := two_pow_pos _
  have e : two_pow (double_exponent a)
      = ((4503599627370496 : Int) : ℚ) * two_pow (double_exponent a - 52) := by
    rw [show double_exponent a = 52 + (double_exponent a - 52) by ring, two_pow_add]
    congr 1
    · ring_nf
  have h1 : ((4503599627370496 : Int) : ℚ) ≤ a / two_pow (double_exponent a - 52) := by
    rw [le_div_iff₀ hq, ← e]
    exact double_exponent_le a ha hn
  have h2 := le_round_nearest_even _ _ h1
  have h3 : ((4503599627370496 : Int) : ℚ)
      ≤ (round_nearest_even (a / two_pow (double_exponent a - 52)) : ℚ) := by exact_mod_cast h2
  unfold round_magnitude
  rw [e]
  exact mul_le_mul_of_nonneg_right h3 hq.le

theorem round_magnitude_nonneg (a : ℚ) (ha : 0 ≤ a) : 0 ≤ round_magnitude a := by
  have hq : 0 < two_pow (double_exponent a - 52) := two_pow_pos _
  have h1 : ((0 : Int) : ℚ) ≤ a / two_pow (double_exponent a - 52) := by
    simp only [Int.cast_zero]
    positivity
  have h2 := le_round_nearest_even _ _ h1
  have h3 : (0 : ℚ) ≤ (round_nearest_even (a / two_pow (double_exponent a - 52)) : ℚ) := by
    exact_mod_cast h2
  unfold round_magnitude
  positivity

theorem round_magnitude_mono (a b : ℚ) (ha : 0 < a) (hab : a ≤ b) :
    round_magnitude a ≤ round_magnitude b := by
  have hb : 0 < b := lt_of_lt_of_le ha hab
  rcases lt_or_eq_of_le (double_exponent_mono a b ha hab) with hlt | heq
  · have h1 := round_magnitude_le_pow a ha
    have h2 := round_magnitude_ge_pow b hb (lt_of_le_of_lt (double_exponent_ge a) hlt)
    have h3 : two_pow (double_exponent a + 1) ≤ two_pow (double_exponent b) :=
      two_pow_le _ _ (by omega)
    linarith
  · have hq : 0 < two_pow (double_exponent b - 52) := two_pow_pos _
    unfold round_magnitude
    rw [heq]
    apply mul_le_mul_of_nonneg_right _ hq.le
    have := round_nearest_even_mono (a / two_pow (double_exponent b - 52))
      (b / two_pow (double_exponent b - 52)) (div_le_div_of_nonneg_right hab hq.le)
    exact_mod_cast this

/-! ### rounding to a double -/

theorem round_double_zero : round_double 0 = gdouble.finite 0 := by
  unfold round_double
  simp

theorem round_double_pos (x : ℚ) (hx : 0 < x) :
    round_double x = if two_pow 1024 ≤ round_magnitude x then gdouble.infinite false
      else gdouble.finite (round_magnitude x) := by
  unfold round_double
  rw [if_neg hx.ne', if_neg (not_lt.mpr hx.le)]

theorem round_double_neg (x : ℚ) : round_double (-x) = double_neg (round_double x) := by
  rcases lt_trichotomy x 0 with h | h | h
  · have h' : 0 < -x := by linarith
    rw [round_double_pos _ h']
    unfold round_double
    rw [if_neg h.ne, if_pos h]
    split_ifs <;> simp [double_neg]
  · subst h
    simp [round_double_zero, double_neg]
  · have h' : -x < 0 := by linarith
    rw [round_double_pos _ h]
    unfold round_double
    rw [if_neg h'.ne, if_pos h', neg_neg]
    split_ifs <;> simp [double_neg]

/-- A rounded non-negative number is a non-negative finite value or the
positive infinity. -/
theorem round_double_nonneg (x : ℚ) (hx : 0 ≤ x) :
    double_le (gdouble.finite 0) (round_double x) = true := by
  rcases eq_or_lt_of_le hx with h | h
  · rw [← h, round_double_zero]
    simp [double_le]
  · rw [round_double_pos x h]
    split_ifs
    · simp [double_le]
    · simp only [double_le, decide_eq_true_eq]
      exact round_magnitude_nonneg x hx

/-- Rounding is monotone on the non-negative numbers. -/
theorem round_double_mono_nonneg (x y : ℚ) (hx : 0 ≤ x) (hxy : x ≤ y) :
    double_le (round_double x) (round_double y) = true := by
  rcases eq_or_lt_of_le hx with h | h
  · rw [← h, round_double_zero]
    exact round_double_nonneg y (le_trans hx hxy)
  · have hy : 0 < y := lt_of_lt_of_le h hxy
    have hm := round_magnitude_mono x y h hxy
    rw [round_double_pos x h, round_double_pos y hy]
    split_ifs with a b b
    · simp [double_le]
    · exfalso
      exact b (le_trans a hm)
    · simp [double_le]
    · simp only [double_le, decide_eq_true_eq]
      exact hm

theorem double_le_neg (a b : gdouble) (h : double_le a b = true) :
    double_le (double_neg b) (double_neg a) = true := by
  cases a <;> cases b <;> simp_all [double_le, double_neg, or_comm]

/-- Rounding is monotone. -/
theorem round_double_mono (x y : ℚ) (hxy : x ≤ y) :
    double_le (round_double x) (round_double y) = true := by
  rcases le_total 0 x with hx | hx
  · exact round_double_mono_nonneg x y hx hxy
  · rcases le_total 0 y with hy | hy
    · have h1 := round_double_nonneg (-x) (by linarith)
      have h2 := round_double_nonneg y hy
      rw [round_double_neg] at h1
      revert h1 h2
      cases round_double x <;> cases round_double y <;> simp [double_le, double_neg]
      · intro a b
        linarith
      · intro a _
        exact a
      · intro a b
        exact Or.inl a
    · have h := round_double_mono_nonneg (-y) (-x) (by linarith) (by linarith)
      rw [round_double_neg, round_double_neg] at h
      have h2 := double_le_neg _ _ h
      revert h2
      cases round_double x <;> cases round_double y <;> simp [double_le, double_neg]

theorem double_exponent_le_of_lt (x : ℚ) (hx : 0 < x) (k : Int) (hk : -1022 ≤ k)
    (h : x < two_pow (k + 1)) : double_exponent x ≤ k := by
  by_contra hc
  push_neg at hc
  have h1 := double_exponent_le x hx (by omega)
  have h2 : two_pow (k + 1) ≤ two_pow (double_exponent x) := two_pow_le _ _ (by omega)
  linarith

theorem two_pow_neg_53 : two_pow (-53) = 1 / 9007199254740992 := by
  decide!

theorem round_magnitude_error_le (x : ℚ) (hx : 0 < x) :
    |round_magnitude x - x| ≤ x / 9007199254740992 + two_pow (-1075) := by
  have h := round_magnitude_error x
  have hp : 0 < two_pow (-1075) := two_pow_pos _
  have hx2 : 0 ≤ x / 9007199254740992 := by positivity
  by_cases hn : -1022 < double_exponent x
  · have h1 := double_exponent_le x hx hn
    have e : two_pow (double_exponent x - 53)
        = two_pow (double_exponent x) / 9007199254740992 := by
      rw [show double_exponent x - 53 = double_exponent x + -53 by ring, two_pow_add,
        two_pow_neg_53]
      ring
    have h2 : two_pow (double_exponent x) / 9007199254740992 ≤ x / 9007199254740992 :=
      div_le_div_of_nonneg_right h1 (by norm_num)
    linarith
  · have e : double_exponent x = -1022 := by
      have := double_exponent_ge x
      omega
    rw [e] at h
    have e2 : two_pow (-1022 - 53) = two_pow (-1075) := by norm_num
    rw [e2] at h
    linarith

/-- A non-negative number below `2 ^ 1023` rounds to a finite value, off by at
most half a unit in the last place. -/
theorem round_double_finite_nonneg (x : ℚ) (hx : 0 ≤ x) (h : x < two_pow 1023) :
    ∃ y, round_double x = gdouble.finite y ∧ 0 ≤ y ∧
      |y - x| ≤ x / 9007199254740992 + two_pow (-1075) := by
  rcases eq_or_lt_of_le hx with h0 | h0
  · refine ⟨0, by rw [← h0, round_double_zero], le_refl 0, ?_⟩
    rw [← h0]
    simp only [sub_self, abs_zero, zero_div, zero_add]
    exact (two_pow_pos _).le
  · have he : double_exponent x ≤ 1022 :=
      double_exponent_le_of_lt x h0 1022 (by norm_num) (by simpa using h)
    have h1 := round_magnitude_le_pow x h0
    have h2 : two_pow (double_exponent x + 1) ≤ two_pow 1023 := two_pow_le _ _ (by omega)
    have h3 : two_pow 1023 < two_pow 1024 := by
      rw [two_pow_eq, two_pow_eq]
      exact zpow_lt_zpow_right₀ (by norm_num) (by norm_num)
    refine ⟨round_magnitude x, ?_, round_magnitude_nonneg x hx, round_magnitude_error_le x h0⟩
    rw [round_double_pos x h0, if_neg]
    push_neg
    linarith

/-- A number of magnitude below `2 ^ 1023` rounds to a finite value, off by at
most half a unit in the last place. -/
theorem round_double_finite (x : ℚ) (h : |x| < two_pow 1023) :
    ∃ y, round_double x = gdouble.finite y ∧
      |y - x| ≤ |x| / 9007199254740992 + two_pow (-1075) := by
  rcases le_total 0 x with hx | hx
  · rw [abs_of_nonneg hx] at h ⊢
    obtain ⟨y, e, _, b⟩ := round_double_finite_nonneg x hx h
    exact ⟨y, e, b⟩
  · rw [abs_of_nonpos hx] at h ⊢
    obtain ⟨y, e, _, b⟩ := round_double_finite_nonneg (-x) (by linarith) h
    refine ⟨-y, ?_, ?_⟩
    · have := round_double_neg (-x)
      rw [neg_neg, e] at this
      rw [this]
      rfl
    · have : -y - x = -(y - -x) := by ring
      rw [this, abs_neg]
      exact b

/-- A number at least `2 ^ (-1022)` loses at most the fraction `2 ^ (-53)` of
its value in rounding. -/
theorem round_double_ge (q x : ℚ) (hq : q ≤ x) (hx : two_pow (-1022) ≤ x) :
    double_le (gdouble.finite (q * (1 - 1 / 9007199254740992))) (round_double x) = true := by
  have h0 : 0 < x := lt_of_lt_of_le (two_pow_pos _) hx
  rw [round_double_pos x h0]
  split_ifs
  · simp [double_le]
  · simp only [double_le, decide_eq_true_eq]
    have h := round_magnitude_error x
    have h1 : two_pow (double_exponent x) ≤ x := by
      by_cases hn : -1022 < double_exponent x
      · exact double_exponent_le x h0 hn
      · have e : double_exponent x = -1022 := by
          have := double_exponent_ge x
          omega
        rw [e]
        exact hx
    have e : two_pow (double_exponent x - 53)
        = two_pow (double_exponent x) / 9007199254740992 := by
      rw [show double_exponent x - 53 = double_exponent x + -53 by ring, two_pow_add,
        two_pow_neg_53]
      ring
    rw [e, abs_le] at h
    have h2 : two_pow (double_exponent x) / 9007199254740992 ≤ x / 9007199254740992 :=
      div_le_div_of_nonneg_right h1 (by norm_num)
    have h3 : q / 9007199254740992 ≤ x / 9007199254740992 :=
      div_le_div_of_nonneg_right hq (by norm_num)
    have h4 : q * (1 - 1 / 9007199254740992) ≤ x * (1 - 1 / 9007199254740992) :=
      mul_le_mul_of_nonneg_right hq (by norm_num)
    linarith

theorem double_exponent_nonneg (x : ℚ) (hx : 1 ≤ x) : 0 ≤ double_exponent x := by
  by_contra hc
  push_neg at hc
  have h := double_exponent_lt x (by linarith)
  have h2 : two_pow (double_exponent x + 1) ≤ two_pow 0 := two_pow_le _ _ (by omega)
  have h3 : two_pow 0 = 1 := by decide!
  linarith

/-- An integer from 0 to `2 ^ 53 - 1` is a double. -/
theorem round_double_natCast (n : Nat) (h : n < 9007199254740992) :
    round_double (n : ℚ) = gdouble.finite (n : ℚ) := by
  rcases Nat.eq_zero_or_pos n with h0 | h0
  · subst h0
    simp [round_double_zero]
  · have hx : (0 : ℚ) < (n : ℚ) := by exact_mod_cast h0
    have hx1 : (1 : ℚ) ≤ (n : ℚ) := by exact_mod_cast h0
    have he0 := double_exponent_nonneg (n : ℚ) hx1
    have he1 : double_exponent (n : ℚ) ≤ 52 := by
      apply double_exponent_le_of_lt _ hx 52 (by norm_num)
      have e : two_pow (52 + 1) = ((9007199254740992 : Nat) : ℚ) := by decide!
      rw [e]
      exact_mod_cast h
    have hm : round_magnitude (n : ℚ) = (n : ℚ) := by
      obtain ⟨j, hj⟩ : ∃ j : Nat, double_exponent (n : ℚ) - 52 = -(j : Int) :=
        ⟨(52 - double_exponent (n : ℚ)).toNat, by omega⟩
      unfold round_magnitude
      rw [hj, two_pow_eq, zpow_neg, zpow_natCast]
      have e : (n : ℚ) / ((2 : ℚ) ^ j)⁻¹ = (((n * 2 ^ j : Nat) : Int) : ℚ) := by
        push_cast
        field_simp
      rw [e, round_nearest_even_intCast]
      push_cast
      field_simp
    have hlt : (n : ℚ) < two_pow 1024 := by
      have h1 : (n : ℚ) < ((9007199254740992 : Nat) : ℚ) := by exact_mod_cast h
      have h2 : ((9007199254740992 : Nat) : ℚ) < two_pow 1024 := by decide!
      linarith
    rw [round_double_pos _ hx, hm, if_neg (not_le.mpr hlt)]

/-! ### operations on doubles -/

theorem round_double_ne_nan (x : ℚ) : round_double x ≠ gdouble.nan := by
  unfold round_double
  split_ifs <;> simp

theorem double_le_infinite (d : gdouble) (h : d ≠ gdouble.nan) :
    double_le d (gdouble.infinite false) = true := by
  cases d <;> simp_all [double_le]

/-- A double that is at least 0 is a non-negative finite value or the positive
infinity. -/
theorem double_nonneg_cases (d : gdouble) (h : double_le (gdouble.finite 0) d = true) :
    (∃ v, d = gdouble.finite v ∧ 0 ≤ v) ∨ d = gdouble.infinite false := by
  cases d with
  | finite v =>
    left
    exact ⟨v, rfl, by simpa [double_le] using h⟩
  | infinite s =>
    right
    simp only [double_le, Bool.not_eq_true'] at h
    rw [h]
  | nan => simp [double_le] at h

theorem double_le_trans (a b c : gdouble) (h1 : double_le a b = true)
    (h2 : double_le b c = true) : double_le a c = true := by
  cases a <;> cases b <;> cases c <;> simp_all [double_le]
  · exact le_trans h1 h2
  · rcases h1 with h | h <;> simp_all

theorem double_mul_nonneg (d : gdouble) (c : ℚ) (hc : 0 < c)
    (h : double_le (gdouble.finite 0) d = true) :
    double_le (gdouble.finite 0) (double_mul d (gdouble.finite c)) = true := by
  rcases double_nonneg_cases d h with ⟨v, rfl, hv⟩ | rfl
  · exact round_double_nonneg _ (by positivity)
  · simp [double_mul, hc.ne', double_le, not_lt.mpr hc.le]

theorem double_mul_mono (d d' : gdouble) (c : ℚ) (hc : 0 < c)
    (h0 : double_le (gdouble.finite 0) d = true) (h : double_le d d' = true) :
    double_le (double_mul d (gdouble.finite c)) (double_mul d' (gdouble.finite c)) = true := by
  have h0' := double_le_trans _ _ _ h0 h
  rcases double_nonneg_cases d h0 with ⟨v, rfl, hv⟩ | rfl
  · rcases double_nonneg_cases d' h0' with ⟨v', rfl, hv'⟩ | rfl
    · have hle : v ≤ v' := by simpa [double_le] using h
      exact round_double_mono_nonneg _ _ (by positivity)
        (mul_le_mul_of_nonneg_right hle hc.le)
    · have e : double_mul (gdouble.infinite false) (gdouble.finite c)
          = gdouble.infinite false := by
        simp [double_mul, hc.ne', not_lt.mpr hc.le]
      rw [e]
      exact double_le_infinite _ (round_double_ne_nan _)
  · rcases double_nonneg_cases d' h0' with ⟨v', rfl, hv'⟩ | rfl
    · simp [double_le] at h
    · simp [double_mul, hc.ne', not_lt.mpr hc.le, double_le]

/-! ### the percentage -/

theorem percentage_of_finite (v : ℚ) (hv : 0 ≤ v) :
    gint_of_double (double_fmin (double_floor (gdouble.finite v)) (gdouble.finite 100))
      = min ⌊v⌋ 100 := by
  have hf : 0 ≤ ⌊v⌋ := Int.floor_nonneg.mpr hv
  by_cases h : (100 : ℚ) < ((⌊v⌋ : Int) : ℚ)
  · have h' : (100 : Int) < ⌊v⌋ := by exact_mod_cast h
    have e : ⌊(100 : ℚ)⌋ = 100 := by
      have : ((100 : Int) : ℚ) = 100 := by norm_num
      rw [← this, Int.floor_intCast]
    simp only [double_floor, double_fmin, double_lt, h, decide_True, if_true, gint_of_double]
    norm_num [e]
    omega
  · have h' : ⌊v⌋ ≤ 100 := by
      have : ((⌊v⌋ : Int) : ℚ) ≤ ((100 : Int) : ℚ) := by
        push_neg at h
        simpa using h
      exact_mod_cast this
    have hq : (0 : ℚ) ≤ ((⌊v⌋ : Int) : ℚ) := by exact_mod_cast hf
    simp only [double_floor, double_fmin, double_lt, h, decide_False, Bool.false_eq_true,
      if_false, gint_of_double, hq, if_true, Int.floor_intCast]
    rw [if_pos (by omega), min_eq_left h']

theorem percentage_of_infinite :
    gint_of_double
      (double_fmin (double_floor (gdouble.infinite false)) (gdouble.finite 100)) = 100 := by
  decide!

theorem percentage_bounds (d : gdouble) (h : double_le (gdouble.finite 0) d = true) :
    0 ≤ gint_of_double (double_fmin (double_floor d) (gdouble.finite 100)) ∧
    gint_of_double (double_fmin (double_floor d) (gdouble.finite 100)) ≤ 100 := by
  rcases double_nonneg_cases d h with ⟨v, rfl, hv⟩ | rfl
  · rw [percentage_of_finite v hv]
    have hf : 0 ≤ ⌊v⌋ := Int.floor_nonneg.mpr hv
    exact ⟨le_min hf (by norm_num), min_le_right _ _⟩
  · rw [percentage_of_infinite]
    exact ⟨by norm_num, le_refl _⟩

theorem percentage_mono (d d' : gdouble) (h0 : double_le (gdouble.finite 0) d = true)
    (h : double_le d d' = true) :
    gint_of_double (double_fmin (double_floor d) (gdouble.finite 100))
      ≤ gint_of_double (double_fmin (double_floor d') (gdouble.finite 100)) := by
  have h0' := double_le_trans _ _ _ h0 h
  rcases double_nonneg_cases d h0 with ⟨v, rfl, hv⟩ | rfl
  · rcases double_nonneg_cases d' h0' with ⟨v', rfl, hv'⟩ | rfl
    · have hle : v ≤ v' := by simpa [double_le] using h
      rw [percentage_of_finite v hv, percentage_of_finite v' hv']
      exact min_le_min_right _ (Int.floor_mono hle)
    · rw [percentage_of_infinite]
      exact (percentage_bounds _ h0).2
  · rcases double_nonneg_cases d' h0' with ⟨v', rfl, hv'⟩ | rfl
    · simp [double_le] at h
    · exact le_refl _

theorem percentage_full (d : gdouble) (h : double_le (gdouble.finite 100) d = true) :
    gint_of_double (double_fmin (double_floor d) (gdouble.finite 100)) = 100 := by
  have h0 : double_le (gdouble.finite 0) d = true :=
    double_le_trans _ _ _ (by simp [double_le]) h
  have := percentage_mono _ _ (by simp [double_le]) h
  rw [percentage_of_finite 100 (by norm_num)] at this
  have e : ⌊(100 : ℚ)⌋ = 100 := by
    have : ((100 : Int) : ℚ) = 100 := by norm_num
    rw [← this, Int.floor_intCast]
  rw [e] at this
  have := (percentage_bounds d h0).2
  omega

/-- The quotient of two positive readings, times 100, in doubles: not
negative, monotone in the dividend, at least 100 when the dividend is not
smaller than the divisor. -/
theorem scaled_quotient_props (rem rem' full : ℚ) (hfull : 0 < full) (hrem : 0 ≤ rem)
    (hle : rem ≤ rem') :
    double_le (gdouble.finite 0)
      (double_mul (double_div (gdouble.finite rem) (gdouble.finite full)) (gdouble.finite 100))
      = true ∧
    double_le
      (double_mul (double_div (gdouble.finite rem) (gdouble.finite full)) (gdouble.finite 100))
      (double_mul (double_div (gdouble.finite rem') (gdouble.finite full)) (gdouble.finite 100))
      = true ∧
    (full ≤ rem →
      double_le (gdouble.finite 100)
        (double_mul (double_div (gdouble.finite rem) (gdouble.finite full))
          (gdouble.finite 100)) = true) := by
  have e : ∀ x : ℚ, double_div (gdouble.finite x) (gdouble.finite full)
      = round_double (x / full) := by
    intro x
    simp [double_div, hfull.ne']
  have hq : 0 ≤ rem / full := by positivity
  have h1 := round_double_nonneg (rem / full) hq
  refine ⟨?_, ?_, ?_⟩
  · rw [e]
    exact double_mul_nonneg _ 100 (by norm_num) h1
  · rw [e, e]
    exact double_mul_mono _ _ 100 (by norm_num) h1
      (round_double_mono_nonneg _ _ hq (div_le_div_of_nonneg_right hle hfull.le))
  · intro hge
    rw [e]
    have h2 : (1 : ℚ) ≤ rem / full := by
      rw [le_div_iff₀ hfull]
      linarith
    have h3 := round_double_mono_nonneg 1 (rem / full) (by norm_num) h2
    have e1 : round_double 1 = gdouble.finite 1 := by decide!
    rw [e1] at h3
    have h4 := double_mul_mono _ _ 100 (by norm_num) (by simp [double_le]) h3
    have e2 : double_mul (gdouble.finite 1) (gdouble.finite 100) = gdouble.finite 100 := by
      decide!
    rw [e2] at h4
    exact h4

/-- Below the full capacity the quotient times 100, in doubles, is a finite
value within `2 ^ (-45)` of the exact one. -/
theorem scaled_quotient_error (rem full : ℚ) (hfull : 0 < full) (hrem : 0 ≤ rem)
    (hlt : rem < full) :
    ∃ v, double_mul (double_div (gdouble.finite rem) (gdouble.finite full)) (gdouble.finite 100)
        = gdouble.finite v ∧ 0 ≤ v ∧ |v - rem / full * 100| ≤ 1 / 2 ^ 45 := by
  have e : double_div (gdouble.finite rem) (gdouble.finite full)
      = round_double (rem / full) := by
    simp [double_div, hfull.ne']
  have hq0 : 0 ≤ rem / full := by positivity
  have hq1 : rem / full < 1 := by
    rw [div_lt_one hfull]
    exact hlt
  have hbig : (200 : ℚ) < two_pow 1023 := by decide!
  have htiny : two_pow (-1075) ≤ 1 / 2 ^ 60 := by
    have := two_pow_le (-1075) (-60) (by norm_num)
    have e60 : two_pow (-60) = 1 / 2 ^ 60 := by decide!
    rw [e60] at this
    exact this
  obtain ⟨v1, e1, hv1, b1⟩ := round_double_finite_nonneg (rem / full) hq0 (by linarith)
  rw [abs_le] at b1
  have hv1u : v1 ≤ 101 / 100 := by
    have : rem / full / 9007199254740992 ≤ 1 / 9007199254740992 :=
      div_le_div_of_nonneg_right hq1.le (by norm_num)
    norm_num at htiny this ⊢
    linarith
  obtain ⟨v2, e2, hv2, b2⟩ := round_double_finite_nonneg (v1 * 100) (by positivity)
    (by linarith)
  rw [abs_le] at b2
  refine ⟨v2, ?_, hv2, ?_⟩
  · rw [e, e1]
    exact e2
  · rw [abs_le]
    have h1 : rem / full / 9007199254740992 ≤ 1 / 9007199254740992 :=
      div_le_div_of_nonneg_right hq1.le (by norm_num)
    have h2 : v1 * 100 / 9007199254740992 ≤ 101 / 9007199254740992 := by
      apply div_le_div_of_nonneg_right _ (by norm_num)
      linarith
    norm_num at htiny h1 h2 b1 b2 ⊢
    constructor <;> linarith

/-- The conversion `(gint) x` of a finite double whose truncation fits a `gint`
is that truncation. -/
theorem gint_of_double_in_range (v : ℚ) (h1 : -2147483649 < v) (h2 : v < 2147483648) :
    gint_of_double (gdouble.finite v) = if 0 ≤ v then ⌊v⌋ else ⌈v⌉ := by
  unfold gint_of_double
  simp only
  split_ifs with a b b
  · rfl
  · exfalso
    apply b
    constructor
    · have : (0 : Int) ≤ ⌊v⌋ := Int.floor_nonneg.mpr a
      omega
    · have : ⌊v⌋ < 2147483648 := Int.floor_lt.mpr (by exact_mod_cast h2)
      omega
  · rfl
  · exfalso
    apply b
    push_neg at a
    constructor
    · have : -2147483649 < ⌈v⌉ := Int.lt_ceil.mpr (by exact_mod_cast h1)
      omega
    · have : ⌈v⌉ ≤ 0 := Int.ceil_le.mpr (by exact_mod_cast a.le)
      omega

/-! ## the rate filter -/

/-- C1, at the failing input.  After the sixty appends of `sixty_appends` to a
zero-initialised filter the sample count is 59, not 60, and `filter_get_mean`
returns 1, the mean of the first fifty-nine values, while the arithmetic mean
of the sixty appended values is 2. -/
theorem C1_mean_of_sixty_appends_drops_the_newest :
    sixty_appends.length = 60 ∧
    (filter_append_all filter_zero sixty_appends).num_samples = 59 ∧
    filter_get_mean (filter_append_all filter_zero sixty_appends) = gdouble.finite 1 ∧
    arithmetic_mean (sixty_appends.map Prod.fst) = 2 := by
  decide!

/-- C2, at the failing input.  After the sixty-one appends of
`sixty_one_appends` the arithmetic mean of the most recent sixty values is 2,
while `filter_get_mean` returns 1: it averages slots 0 to 58 and leaves out
slot 59, which holds the sixtieth value. -/
theorem C2_mean_of_sixty_one_appends_skips_slot_59 :
    sixty_one_appends.length = 61 ∧
    (filter_append_all filter_zero sixty_one_appends).num_samples = 59 ∧
    (filter_append_all filter_zero sixty_one_appends).samples 59 = 61 ∧
    filter_get_mean (filter_append_all filter_zero sixty_one_appends) = gdouble.finite 1 ∧
    arithmetic_mean ((sixty_one_appends.drop 1).map Prod.fst) = 2 := by
  decide!

/-- C3, at the failing input.  After the sixty appends of `falling_appends`
the oldest retained sample, in slot 0, holds 296 at second 0 and the newest, in
slot 59, holds 1 at second 295, so the claimed rate is
`(1 - 296) / 295 * 3600 = -3600`; `filter_get_rate` takes slot 1 as the oldest
sample and returns `(1 - 1) / 290 * 3600 = 0`. -/
theorem C3_rate_of_sixty_appends_skips_the_oldest :
    falling_appends.length = 60 ∧
    (filter_append_all filter_zero falling_appends).next_sample = 0 ∧
    (filter_append_all filter_zero falling_appends).num_samples = 59 ∧
    (filter_append_all filter_zero falling_appends).samples 0 = 296 ∧
    (filter_append_all filter_zero falling_appends).samples 59 = 1 ∧
    time_diff (filter_append_all filter_zero falling_appends) 0 59 = gdouble.finite 295 ∧
    ((1 : ℚ) - 296) / 295 * 3600 = -3600 ∧
    time_diff (filter_append_all filter_zero falling_appends) 1 59 = gdouble.finite 290 ∧
    filter_get_rate (filter_append_all filter_zero falling_appends) = gdouble.finite 0 := by
  decide!

theorem filter_append_all_snoc (f : filter) (xs : List (ℚ × timespec)) (x : ℚ × timespec) :
    filter_append_all f (xs ++ [x]) = filter_append (filter_append_all f xs) x.1 x.2 := by
  unfold filter_append_all
  rw [List.foldl_append]
  rfl

theorem filter_sum_succ (a : Nat → ℚ) (n : Nat) :
    filter_sum a (n + 1) = double_add (filter_sum a n) (gdouble.finite (a n)) := by
  unfold filter_sum
  rw [List.range_succ, List.foldl_append]
  rfl

theorem double_sum_snoc (xs : List ℚ) (x : ℚ) :
    double_sum (xs ++ [x]) = double_add (double_sum xs) (gdouble.finite x) := by
  unfold double_sum
  rw [List.foldl_append]
  rfl

theorem foldl_range_congr (a b : Nat → ℚ) (n : Nat) (h : ∀ i, i < n → a i = b i) :
    filter_sum a n = filter_sum b n := by
  unfold filter_sum
  induction n with
  | zero => rfl
  | succ n ih =>
    rw [List.range_succ, List.foldl_append, List.foldl_append,
      ih (fun i hi => h i (Nat.lt_succ_of_lt hi))]
    simp only [List.foldl_cons, List.foldl_nil]
    rw [h n (Nat.lt_succ_self n)]

/-- Fewer than sixty appends to a filter whose count and index are zero: the
count and the index are the number of appends, slot `i` holds the `i`-th
appended sample, and the loop of `filter_get_mean` adds up all of them. -/
theorem filter_append_all_below_capacity (f : filter) (h0 : f.num_samples = 0)
    (h1 : f.next_sample = 0) (xs : List (ℚ × timespec)) :
    xs.length < 60 →
    (filter_append_all f xs).num_samples = xs.length ∧
    (filter_append_all f xs).next_sample = xs.length ∧
    (∀ i v, xs[i]? = some v →
      (filter_append_all f xs).samples i = v.1 ∧
      (filter_append_all f xs).sample_times i = v.2) ∧
    filter_sum (filter_append_all f xs).samples xs.length
      = double_sum (xs.map Prod.fst) := by
  induction xs using List.reverseRecOn with
  | nil =>
    intro _
    refine ⟨h0, h1, ?_, rfl⟩
    intro i v h
    simp at h
  | append_singleton ys x ih =>
    intro hlen
    rw [List.length_append, List.length_singleton] at hlen
    obtain ⟨n1, n2, n3, n4⟩ := ih (by omega)
    rw [filter_append_all_snoc]
    have hnext : (filter_append (filter_append_all f ys) x.1 x.2).next_sample
        = ys.length + 1 := by
      simp only [filter_append, n2, MAX_SAMPLES]
      omega
    refine ⟨?_, ?_, ?_, ?_⟩
    · simp only [filter_append, n1, n2, MAX_SAMPLES, List.length_append, List.length_singleton]
      omega
    · rw [hnext, List.length_append, List.length_singleton]
    · intro i v h
      rw [List.getElem?_append] at h
      by_cases hi : i < ys.length
      · rw [if_pos hi] at h
        obtain ⟨a, b⟩ := n3 i v h
        have hne : i ≠ ys.length := by omega
        simp only [filter_append, array_set, n2, hne, if_false]
        exact ⟨a, b⟩
      · rw [if_neg hi] at h
        have hi2 : i = ys.length := by
          by_contra hc
          have : 1 ≤ i - ys.length := by omega
          rw [List.getElem?_eq_none (by simp; omega)] at h
          simp at h
        subst hi2
        simp only [Nat.sub_self, List.getElem?_cons_zero, Option.some.injEq] at h
        subst h
        simp [filter_append, array_set, n2]
    · rw [List.length_append, List.length_singleton, filter_sum_succ, List.map_append,
        List.map_cons, List.map_nil, double_sum_snoc]
      have hc : filter_sum (filter_append (filter_append_all f ys) x.1 x.2).samples ys.length
          = filter_sum (filter_append_all f ys).samples ys.length := by
        apply foldl_range_congr
        intro i hi
        have hne : i ≠ ys.length := by omega
        simp [filter_append, array_set, n2, hne]
      rw [hc, n4]
      simp [filter_append, array_set, n2]

/-- For up to 59 appends to a fresh or reset filter `filter_get_mean` is the
sum of the appended values, added up in order, divided by their number. -/
theorem filter_get_mean_below_capacity (f : filter) (h0 : f.num_samples = 0)
    (h1 : f.next_sample = 0) (xs : List (ℚ × timespec)) (hlen : xs.length < 60) :
    filter_get_mean (filter_append_all f xs)
      = double_div (double_sum (xs.map Prod.fst)) (gdouble.finite (xs.length : ℚ)) := by
  obtain ⟨n1, _, _, n4⟩ := filter_append_all_below_capacity f h0 h1 xs hlen
  unfold filter_get_mean
  rw [n1, n4, round_double_natCast _ (by omega)]

/-- For 2 to 59 appends to a fresh or reset filter `filter_get_rate` compares
the first and the last appended sample. -/
theorem filter_get_rate_below_capacity (f : filter) (h0 : f.num_samples = 0)
    (h1 : f.next_sample = 0) (xs : List (ℚ × timespec)) (hlen : xs.length < 60)
    (h2 : 2 ≤ xs.length) (first last : ℚ × timespec) (hfirst : xs[0]? = some first)
    (hlast : xs[xs.length - 1]? = some last) :
    filter_get_rate (filter_append_all f xs)
      = if double_lt (seconds_between first.2 last.2) (gdouble.finite 60) = true then
          gdouble.finite 0
        else
          double_mul
            (double_div (double_sub (gdouble.finite last.1) (gdouble.finite first.1))
              (seconds_between first.2 last.2))
            (gdouble.finite 3600) := by
  obtain ⟨n1, n2, n3, _⟩ := filter_append_all_below_capacity f h0 h1 xs hlen
  obtain ⟨a1, a2⟩ := n3 0 first hfirst
  obtain ⟨b1, b2⟩ := n3 (xs.length - 1) last hlast
  unfold filter_get_rate
  have hn : ¬ (filter_append_all f xs).num_samples < 2 := by omega
  have ha : ((filter_append_all f xs).next_sample + MAX_SAMPLES
      - (filter_append_all f xs).num_samples) % MAX_SAMPLES = 0 := by
    rw [n1, n2, MAX_SAMPLES]
    omega
  have hb : ((filter_append_all f xs).next_sample + MAX_SAMPLES - 1) % MAX_SAMPLES
      = xs.length - 1 := by
    rw [n2, MAX_SAMPLES]
    omega
  simp only [hn, if_false, ha, hb, time_diff, a1, a2, b1, b2]

/-- With fewer than two samples `filter_get_rate` is 0. -/
theorem filter_get_rate_few_samples (f : filter) (h : f.num_samples < 2) :
    filter_get_rate f = gdouble.finite 0 := by
  unfold filter_get_rate
  simp [h]

/-! ## the battery reading computer -/

theorem get_sysattr_double_ge (file : Option sysattr_read) (v : ℚ)
    (h : get_sysattr_double file = some v) : 1 / 100 ≤ v := by
  unfold get_sysattr_double at h
  cases file with
  | none => simp at h
  | some r =>
    simp only at h
    split at h
    · simp at h
    · rename_i hn
      simp only [Option.some.injEq] at h
      rw [← h]
      push_neg at hn
      exact hn.2

theorem get_battery_full_capacity_ge (r : Readings) (use_charge : Bool) (full : ℚ)
    (h : get_battery_full_capacity r = some (use_charge, full)) : 1 / 100 ≤ full := by
  unfold get_battery_full_capacity at h
  cases h1 : get_sysattr_double r.energy_full with
  | some c =>
    rw [h1] at h
    simp only [Option.some.injEq, Prod.mk.injEq] at h
    rw [← h.2]
    exact get_sysattr_double_ge _ _ h1
  | none =>
    rw [h1] at h
    cases h2 : get_sysattr_double r.charge_full with
    | some c =>
      rw [h2] at h
      simp only [Option.some.injEq, Prod.mk.injEq] at h
      rw [← h.2]
      exact get_sysattr_double_ge _ _ h2
    | none =>
      rw [h2] at h
      simp at h

theorem get_battery_remaining_capacity_ge (use_charge : Bool) (r : Readings) (fs fs1 : Filters)
    (rem : ℚ) (h : get_battery_remaining_capacity use_charge r fs = (fs1, some rem)) :
    1 / 100 ≤ rem := by
  unfold get_battery_remaining_capacity at h
  split at h
  · cases h1 : get_sysattr_double r.energy_now with
    | some c =>
      rw [h1] at h
      simp only [Prod.mk.injEq, Option.some.injEq] at h
      rw [← h.2]
      exact get_sysattr_double_ge _ _ h1
    | none =>
      rw [h1] at h
      simp at h
  · cases h1 : get_sysattr_double r.charge_now with
    | some c =>
      rw [h1] at h
      simp only [Prod.mk.injEq, Option.some.injEq] at h
      rw [← h.2]
      exact get_sysattr_double_ge _ _ h1
    | none =>
      rw [h1] at h
      simp at h

/-- The percentage of a remaining capacity `rem` against a full capacity
`full`, both positive doubles: between 0 and 100, 100 when `rem ≥ full`,
monotone in `rem`, and the floor of a number within `2 ^ (-45)` of
`rem / full * 100`, capped at 100. -/
theorem charge_percentage_props (rem rem' full : ℚ) (hfull : 0 < full) (hrem : 0 ≤ rem)
    (hle : rem ≤ rem') :
    0 ≤ charge_percentage (gdouble.finite rem) (gdouble.finite full) ∧
    charge_percentage (gdouble.finite rem) (gdouble.finite full) ≤ 100 ∧
    (full ≤ rem → charge_percentage (gdouble.finite rem) (gdouble.finite full) = 100) ∧
    charge_percentage (gdouble.finite rem) (gdouble.finite full)
      ≤ charge_percentage (gdouble.finite rem') (gdouble.finite full) ∧
    ∃ y : ℚ, |y - rem / full * 100| ≤ 1 / 2 ^ 45 ∧
      charge_percentage (gdouble.finite rem) (gdouble.finite full) = ⌊min y 100⌋ := by
  obtain ⟨s0, smono, sfull⟩ := scaled_quotient_props rem rem' full hfull hrem hle
  have e100 : ⌊(100 : ℚ)⌋ = 100 := by
    have : ((100 : Int) : ℚ) = 100 := by norm_num
    rw [← this, Int.floor_intCast]
  unfold charge_percentage
  refine ⟨(percentage_bounds _ s0).1, (percentage_bounds _ s0).2,
    fun hge => percentage_full _ (sfull hge), percentage_mono _ _ s0 smono, ?_⟩
  rcases lt_or_le rem full with hlt | hge
  · obtain ⟨v, ev, hv, bv⟩ := scaled_quotient_error rem full hfull hrem hlt
    refine ⟨v, bv, ?_⟩
    rw [ev, percentage_of_finite v hv]
    have h : ⌊min v 100⌋ = min ⌊v⌋ ⌊(100 : ℚ)⌋ := Int.floor_mono.map_min
    rw [h, e100]
  · refine ⟨rem / full * 100, ?_, ?_⟩
    · simp
    · rw [percentage_full _ (sfull hge)]
      have h1 : 1 ≤ rem / full := by
        rw [le_div_iff₀ hfull]
        linarith
      rw [min_eq_right (by linarith), e100]

theorem battery_capacities_direct (r : Readings) (fs fs1 : Filters) (use_charge : Bool)
    (full rem : ℚ) (hfull : get_battery_full_capacity r = some (use_charge, full))
    (hrem : get_battery_remaining_capacity use_charge r fs = (fs1, some rem)) :
    battery_capacities r fs
      = (fs1, some (use_charge, gdouble.finite full, gdouble.finite rem)) := by
  unfold battery_capacities
  rw [hfull]
  simp only [hrem]

theorem get_battery_charge_percentage (remaining : Bool) (r : Readings) (fs fs1 : Filters)
    (use_charge : Bool) (full rem : gdouble)
    (h : battery_capacities r fs = (fs1, some (use_charge, full, rem))) :
    ∃ fs2 time, get_battery_charge remaining r fs
      = (fs2, some (charge_percentage rem full, time)) := by
  unfold get_battery_charge
  simp only [h]
  rcases hr : get_battery_current_rate use_charge r fs1 with ⟨fs2, _ | rate⟩
  · exact ⟨fs2, -1, rfl⟩
  · by_cases hb : remaining = true
    · simp only [hb, if_true]
      exact ⟨fs2, _, rfl⟩
    · simp only [hb, if_false]
      exact ⟨fs2, _, rfl⟩

/-- C4 as stated fails.  With `energy_full` reading 100 and `energy_now`
reading 29, both accepted by the attribute reader, the quotient `29.0 / 100.0`
rounds to a double below 0.29, the product with `100.0` is the double next
below 29, and `get_battery_charge` reports 28 percent, while
`floor (min (29 / 100 * 100, 100))` is 29. -/
theorem C4_percentage_of_29_in_100_is_28 :
    get_battery_full_capacity (energy_readings 100 29 10000 0) = some (false, 100) ∧
    (get_battery_remaining_capacity false (energy_readings 100 29 10000 0)
      State.initial.filters).2 = some 29 ∧
    double_mul (double_div (gdouble.finite 29) (gdouble.finite 100)) (gdouble.finite 100)
      = gdouble.finite (29 - 1 / 2 ^ 48) ∧
    (get_battery_charge true (energy_readings 100 29 10000 0) State.initial.filters).2
      = some (28, 0) ∧
    ⌊min ((29 : ℚ) / 100 * 100) 100⌋ = 29 := by
  decide!

/-- C4, amended.  When the attribute reader accepts the full capacity `full`
and the remaining capacity `rem` (so both are at least 0.01),
`get_battery_charge` succeeds and its percentage is an integer between 0 and
100, is the value of the C expression
`(gint)fmin (floor (rem / full * 100.0), 100.0)` with every operation rounded
to a double, which is the floor of a number within `2 ^ (-45)` of
`rem / full * 100`, capped at 100; it is 100 whenever `rem ≥ full`, and is not
larger than the percentage computed from any accepted remaining capacity
`rem' ≥ rem` against the same full capacity. -/
theorem C4_percentage_bounded_monotone_rounded (remaining : Bool) (r r' : Readings)
    (fs fs1 fs' fs1' : Filters) (use_charge use_charge' : Bool) (full rem rem' : ℚ)
    (hfull : get_battery_full_capacity r = some (use_charge, full))
    (hrem : get_battery_remaining_capacity use_charge r fs = (fs1, some rem))
    (hfull' : get_battery_full_capacity r' = some (use_charge', full))
    (hrem' : get_battery_remaining_capacity use_charge' r' fs' = (fs1', some rem'))
    (hle : rem ≤ rem') :
    1 / 100 ≤ full ∧ 1 / 100 ≤ rem ∧
    ∃ fs2 fs2' percentage percentage' time time',
      get_battery_charge remaining r fs = (fs2, some (percentage, time)) ∧
      get_battery_charge remaining r' fs' = (fs2', some (percentage', time')) ∧
      0 ≤ percentage ∧ percentage ≤ 100 ∧
      percentage = gint_of_double
        (double_fmin
          (double_floor
            (double_mul (double_div (gdouble.finite rem) (gdouble.finite full))
              (gdouble.finite 100)))
          (gdouble.finite 100)) ∧
      (∃ y : ℚ, |y - rem / full * 100| ≤ 1 / 2 ^ 45 ∧ percentage = ⌊min y 100⌋) ∧
      (full ≤ rem → percentage = 100) ∧
      percentage ≤ percentage' := by
  have h1 : 1 / 100 ≤ full := get_battery_full_capacity_ge r use_charge full hfull
  have h2 : 1 / 100 ≤ rem := get_battery_remaining_capacity_ge use_charge r fs fs1 rem hrem
  have hf : 0 < full := by linarith
  have hr : 0 ≤ rem := by linarith
  obtain ⟨fs2, time, hc⟩ := get_battery_charge_percentage remaining r fs fs1 use_charge
    (gdouble.finite full) (gdouble.finite rem)
    (battery_capacities_direct r fs fs1 use_charge full rem hfull hrem)
  obtain ⟨fs2', time', hc'⟩ := get_battery_charge_percentage remaining r' fs' fs1' use_charge'
    (gdouble.finite full) (gdouble.finite rem')
    (battery_capacities_direct r' fs' fs1' use_charge' full rem' hfull' hrem')
  obtain ⟨p0, p100, pfull, pmono, pfloor⟩ := charge_percentage_props rem rem' full hf hr hle
  exact ⟨h1, h2, fs2, fs2', _, _, time, time', hc, hc', p0, p100, rfl, pfloor, pfull, pmono⟩

/-- C4, amended, at `full = 100`, `rem = 29` and `rem' = 30`: the percentages
are 28 and 30. -/
theorem C4_percentage_bounded_monotone_rounded_witness :
    get_battery_full_capacity (energy_readings 100 29 10000 0) = some (false, 100) ∧
    (get_battery_remaining_capacity false (energy_readings 100 29 10000 0)
      State.initial.filters).2 = some 29 ∧
    (get_battery_charge true (energy_readings 100 29 10000 0) State.initial.filters).2
      = some (28, 0) ∧
    (get_battery_charge true (energy_readings 100 30 10000 0) State.initial.filters).2
      = some (30, 0) ∧
    (1 : ℚ) / 100 ≤ 100 ∧ (1 : ℚ) / 100 ≤ 29 ∧
    ∃ fs2 fs2' percentage percentage' time time',
      get_battery_charge true (energy_readings 100 29 10000 0) State.initial.filters
        = (fs2, some (percentage, time)) ∧
      get_battery_charge true (energy_readings 100 30 10000 0) State.initial.filters
        = (fs2', some (percentage', time')) ∧
      0 ≤ percentage ∧ percentage ≤ 100 ∧
      percentage = gint_of_double
        (double_fmin
          (double_floor
            (double_mul (double_div (gdouble.finite 29) (gdouble.finite 100))
              (gdouble.finite 100)))
          (gdouble.finite 100)) ∧
      (∃ y : ℚ, |y - (29 : ℚ) / 100 * 100| ≤ 1 / 2 ^ 45 ∧ percentage = ⌊min y 100⌋) ∧
      ((100 : ℚ) ≤ 29 → percentage = 100) ∧
      percentage ≤ percentage' :=
  ⟨by decide!, by decide!, by decide!, by decide!,
    C4_percentage_bounded_monotone_rounded true (energy_readings 100 29 10000 0)
      (energy_readings 100 30 10000 0) State.initial.filters
      (get_battery_remaining_capacity false (energy_readings 100 29 10000 0)
        State.initial.filters).1
      State.initial.filters
      (get_battery_remaining_capacity false (energy_readings 100 30 10000 0)
        State.initial.filters).1
      false false 100 29 30 (by decide!) (Prod.ext rfl (by decide!)) (by decide!)
      (Prod.ext rfl (by decide!)) (by norm_num)⟩

theorem get_battery_charge_time (remaining : Bool) (r : Readings) (fs fs1 fs2 : Filters)
    (use_charge : Bool) (full rem rate : gdouble)
    (hcap : battery_capacities r fs = (fs1, some (use_charge, full, rem)))
    (hrate : get_battery_current_rate use_charge r fs1 = (fs2, some rate)) :
    get_battery_charge remaining r fs
      = (fs2, some (charge_percentage rem full,
          if remaining = true then
            gint_of_double (double_mul (double_div rem rate) (gdouble.finite 60))
          else
            gint_of_double
              (double_mul (double_div (double_sub full rem) rate) (gdouble.finite 60)))) := by
  unfold get_battery_charge
  simp only [hcap, hrate]
  cases remaining <;> simp

theorem tray_mem_discharging_checks (cfg : configuration) (battery_status percentage time : Int)
    (s : State) :
    ∃ label, Event.tray label battery_status percentage time
      ∈ (discharging_checks cfg battery_status percentage time s).2 := by
  unfold discharging_checks
  simp

theorem tray_mem_HANDLE_BATTERY_STATUS (battery_status PCT TIM : Int) (s : State) :
    Event.tray battery_status battery_status PCT TIM
      ∈ (HANDLE_BATTERY_STATUS battery_status PCT TIM s).2 := by
  unfold HANDLE_BATTERY_STATUS
  split <;> simp

/-- The time estimates of the model on three inputs: `49.0 / 3.0 * 60.0` is
the double next below 980 and converts to 979; `10000.0 / 10000.0 * 60.0`
converts to 60; `40000000.0 / 1.0 * 60.0` is 2400000000, beyond the range of a
`gint`, and converts to `INT_MIN`. -/
theorem time_estimate_examples :
    gint_of_double
      (double_mul (double_div (gdouble.finite 49) (gdouble.finite 3)) (gdouble.finite 60))
      = 979 ∧
    gint_of_double
      (double_mul (double_div (gdouble.finite 10000) (gdouble.finite 10000))
        (gdouble.finite 60)) = 60 ∧
    gint_of_double
      (double_mul (double_div (gdouble.finite 40000000) (gdouble.finite 1))
        (gdouble.finite 60)) = -2147483648 := by
  decide!

/-- C5, amended.  In a tick whose battery status is `CHARGING`, `DISCHARGING`
or `NOT_CHARGING`, when `get_battery_charge` has the capacities `full` and
`rem` and the current rate `rate`, the time shown by the tray update of that
tick is `(full - rem) / rate * 60.0` while charging and `rem / rate * 60.0` in
the discharging family, every operation rounded to a double and the result
converted to `gint`; when that result is finite and within the range of a
`gint` the conversion is the truncation toward zero. -/
theorem C5_time_estimate_by_status (cfg : configuration) (inp : TickInput) (s0 s : State)
    (bp : String) (battery_status : Int) (fs fs1 fs2 : Filters) (use_charge : Bool)
    (full rem rate : gdouble)
    (hs : s = if inp.changed_power_supplies = true then power_supplies_reset s0 else s0)
    (hpath : inp.battery_path = some bp)
    (hstatus : read_battery_status inp s.filters = (fs, some battery_status))
    (hfam : battery_status = CHARGING ∨ battery_status = DISCHARGING
      ∨ battery_status = NOT_CHARGING)
    (hcap : battery_capacities inp.main
        (if s.old_battery_status ≠ (if battery_status = CHARGING then CHARGING else DISCHARGING)
          then reset_battery_current_rate fs else fs)
      = (fs1, some (use_charge, full, rem)))
    (hrate : get_battery_current_rate use_charge inp.main fs1 = (fs2, some rate)) :
    (∃ label, Event.tray label battery_status (charge_percentage rem full)
        (if battery_status = CHARGING then
          gint_of_double (double_mul (double_div (double_sub full rem) rate) (gdouble.finite 60))
        else gint_of_double (double_mul (double_div rem rate) (gdouble.finite 60)))
      ∈ (update_tray_icon_status cfg inp s0).2) ∧
    (∀ v : ℚ,
      (if battery_status = CHARGING then
        double_mul (double_div (double_sub full rem) rate) (gdouble.finite 60)
      else double_mul (double_div rem rate) (gdouble.finite 60)) = gdouble.finite v →
      -2147483649 < v → v < 2147483648 →
      (if battery_status = CHARGING then
        gint_of_double (double_mul (double_div (double_sub full rem) rate) (gdouble.finite 60))
      else gint_of_double (double_mul (double_div rem rate) (gdouble.finite 60)))
        = if 0 ≤ v then ⌊v⌋ else ⌈v⌉) := by
  refine ⟨?_, ?_⟩
  swap
  · intro v hv h1 h2
    rw [← gint_of_double_in_range v h1 h2, ← hv]
    split_ifs <;> rfl
  unfold update_tray_icon_status update_tray_icon_status_checks
  simp only [← hs, hpath, hstatus]
  rcases hfam with h | h | h
  · subst h
    simp only [if_true] at hcap
    have hc := get_battery_charge_time false inp.main _ fs1 fs2 use_charge full rem rate hcap hrate
    simp only [CHARGING, MISSING, UNKNOWN, CHARGED] at hc ⊢
    norm_num
    split_ifs <;> simp_all [HANDLE_BATTERY_STATUS]
  · subst h
    have hne : ¬ (DISCHARGING = CHARGING) := by decide
    simp only [hne, if_false] at hcap ⊢
    have hc := get_battery_charge_time true inp.main _ fs1 fs2 use_charge full rem rate hcap hrate
    obtain ⟨label, hl⟩ := tray_mem_discharging_checks cfg DISCHARGING (charge_percentage rem full)
      (gint_of_double (double_mul (double_div rem rate) (gdouble.finite 60)))
      { (if inp.changed_power_supplies = true then power_supplies_reset s0 else s0) with
        filters := fs2 }
    refine ⟨label, ?_⟩
    simp only [DISCHARGING, CHARGING, MISSING, UNKNOWN, CHARGED] at hc hl ⊢
    norm_num
    split_ifs <;> simp_all
  · subst h
    have hne : ¬ (NOT_CHARGING = CHARGING) := by decide
    simp only [hne, if_false] at hcap ⊢
    have hc := get_battery_charge_time true inp.main _ fs1 fs2 use_charge full rem rate hcap hrate
    obtain ⟨label, hl⟩ := tray_mem_discharging_checks cfg NOT_CHARGING
      (charge_percentage rem full)
      (gint_of_double (double_mul (double_div rem rate) (gdouble.finite 60)))
      { (if inp.changed_power_supplies = true then power_supplies_reset s0 else s0) with
        filters := fs2 }
    refine ⟨label, ?_⟩
    simp only [DISCHARGING, NOT_CHARGING, CHARGING, MISSING, UNKNOWN, CHARGED] at hc hl ⊢
    norm_num
    split_ifs <;> simp_all

/-- C5 as stated fails.  On a charging battery with `full = 50000`,
`remaining = 10000` and `rate = 10000` the tick reports 240 minutes, which is
`(full - remaining) / rate * 60`; the claimed `remaining / rate * 60` is 60.
All the values involved are exact in doubles. -/
theorem C5_charging_time_is_time_to_full :
    (read_battery_status charging_tick State.initial.filters).2 = some CHARGING ∧
    (battery_capacities charging_tick.main
      (reset_battery_current_rate State.initial.filters)).2
      = some (false, gdouble.finite 50000, gdouble.finite 10000) ∧
    (get_battery_current_rate false charging_tick.main
      (battery_capacities charging_tick.main
        (reset_battery_current_rate State.initial.filters)).1).2
      = some (gdouble.finite 10000) ∧
    (update_tray_icon_status default_configuration charging_tick State.initial).2
      = [Event.notify CHARGING 20 240, Event.tray CHARGING CHARGING 20 240] ∧
    (10000 : ℚ) / 10000 * 60 = 60 ∧
    ((50000 : ℚ) - 10000) / 10000 * 60 = 240 ∧
    gint_of_double
      (double_mul (double_div (gdouble.finite 10000) (gdouble.finite 10000))
        (gdouble.finite 60)) = 60 ∧
    gint_of_double
      (double_mul
        (double_div (double_sub (gdouble.finite 50000) (gdouble.finite 10000))
          (gdouble.finite 10000))
        (gdouble.finite 60)) = 240 := by
  decide!

/-- C5, amended, on the discharging battery of `discharging_tick`: the tray
update shows `10000 / 10000 * 60 = 60` minutes. -/
theorem C5_time_estimate_by_status_witness :
    (∃ label, Event.tray label DISCHARGING
        (charge_percentage (gdouble.finite 10000) (gdouble.finite 50000))
        (if DISCHARGING = CHARGING then
          gint_of_double
            (double_mul
              (double_div (double_sub (gdouble.finite 50000) (gdouble.finite 10000))
                (gdouble.finite 10000))
              (gdouble.finite 60))
        else
          gint_of_double
            (double_mul (double_div (gdouble.finite 10000) (gdouble.finite 10000))
              (gdouble.finite 60)))
      ∈ (update_tray_icon_status default_configuration discharging_tick State.initial).2) ∧
    (∀ v : ℚ,
      (if DISCHARGING = CHARGING then
        double_mul
          (double_div (double_sub (gdouble.finite 50000) (gdouble.finite 10000))
            (gdouble.finite 10000))
          (gdouble.finite 60)
      else
        double_mul (double_div (gdouble.finite 10000) (gdouble.finite 10000))
          (gdouble.finite 60)) = gdouble.finite v →
      -2147483649 < v → v < 2147483648 →
      (if DISCHARGING = CHARGING then
        gint_of_double
          (double_mul
            (double_div (double_sub (gdouble.finite 50000) (gdouble.finite 10000))
              (gdouble.finite 10000))
            (gdouble.finite 60))
      else
        gint_of_double
          (double_mul (double_div (gdouble.finite 10000) (gdouble.finite 10000))
            (gdouble.finite 60)))
        = if 0 ≤ v then ⌊v⌋ else ⌈v⌉) :=
  C5_time_estimate_by_status default_configuration discharging_tick State.initial State.initial
    "/sys/class/power_supply/BAT0" DISCHARGING State.initial.filters
    (battery_capacities discharging_tick.main
      (reset_battery_current_rate State.initial.filters)).1
    (get_battery_current_rate false discharging_tick.main
      (battery_capacities discharging_tick.main
        (reset_battery_current_rate State.initial.filters)).1).1
    false (gdouble.finite 50000) (gdouble.finite 10000) (gdouble.finite 10000) rfl rfl
    (Prod.ext rfl (by decide!)) (by decide)
    (Prod.ext rfl (by decide!)) (Prod.ext rfl (by decide!))

/-! ## the status state machine -/

theorem get_battery_remaining_capacity_snd (use_charge : Bool) (r : Readings) (fs fs' : Filters) :
    (get_battery_remaining_capacity use_charge r fs).2
      = (get_battery_remaining_capacity use_charge r fs').2 := by
  unfold get_battery_remaining_capacity
  split
  · cases get_sysattr_double r.energy_now <;> rfl
  · cases get_sysattr_double r.charge_now <;> rfl

theorem battery_capacities_snd (r : Readings) (fs fs' : Filters) :
    (battery_capacities r fs).2 = (battery_capacities r fs').2 := by
  unfold battery_capacities
  cases get_battery_full_capacity r with
  | none => rfl
  | some c =>
    obtain ⟨use_charge, full⟩ := c
    have h := get_battery_remaining_capacity_snd use_charge r fs fs'
    rcases h1 : get_battery_remaining_capacity use_charge r fs with ⟨g, o⟩
    rcases h2 : get_battery_remaining_capacity use_charge r fs' with ⟨g', o'⟩
    rw [h1, h2] at h
    simp only at h
    subst h
    simp only [h1, h2]
    cases o with
    | some c => rfl
    | none =>
      simp only
      cases get_battery_remaining_capacity_pct r <;> rfl

theorem get_battery_charge_no_time_snd (r : Readings) (fs fs' : Filters) :
    (get_battery_charge_no_time r fs).2 = (get_battery_charge_no_time r fs').2 := by
  unfold get_battery_charge_no_time
  have h := battery_capacities_snd r fs fs'
  rcases h1 : battery_capacities r fs with ⟨g, o⟩
  rcases h2 : battery_capacities r fs' with ⟨g', o'⟩
  rw [h1, h2] at h
  simp only at h
  subst h
  cases o with
  | none => rfl
  | some c => rfl

theorem get_battery_charge_percentage_snd (remaining remaining' : Bool) (r : Readings)
    (fs fs' : Filters) :
    (get_battery_charge remaining r fs).2.map Prod.fst
      = (get_battery_charge remaining' r fs').2.map Prod.fst := by
  have h := battery_capacities_snd r fs fs'
  rcases h1 : battery_capacities r fs with ⟨g, o⟩
  rcases h2 : battery_capacities r fs' with ⟨g', o'⟩
  rw [h1, h2] at h
  simp only at h
  subst h
  cases o with
  | none =>
    unfold get_battery_charge
    simp only [h1, h2]
  | some c =>
    obtain ⟨use_charge, full, rem⟩ := c
    obtain ⟨f2, t, e⟩ := get_battery_charge_percentage remaining r fs g use_charge full rem h1
    obtain ⟨f2', t', e'⟩ :=
      get_battery_charge_percentage remaining' r fs' g' use_charge full rem h2
    rw [e, e']
    rfl

theorem read_battery_status_snd (inp : TickInput) (fs fs' : Filters) :
    (read_battery_status inp fs).2 = (read_battery_status inp fs').2 := by
  unfold read_battery_status
  cases get_battery_present inp.battery_path inp.present with
  | none => rfl
  | some present =>
    simp only
    split
    · rfl
    · cases get_battery_status inp.status with
      | none => rfl
      | some battery_status =>
        simp only
        split
        · cases get_ac_online inp.ac_path inp.online with
          | none => rfl
          | some ac_online =>
            simp only
            split
            · have h := get_battery_charge_no_time_snd inp.probe fs fs'
              rcases h1 : get_battery_charge_no_time inp.probe fs with ⟨g, o⟩
              rcases h2 : get_battery_charge_no_time inp.probe fs' with ⟨g', o'⟩
              rw [h1, h2] at h
              simp only at h
              subst h
              cases o with
              | none => rfl
              | some percentage =>
                simp only
                split <;> rfl
            · rfl
        · rfl

theorem discharging_checks_old (cfg : configuration) (st p t : Int) (s : State) :
    (discharging_checks cfg st p t s).1.old_battery_status = DISCHARGING := by
  unfold discharging_checks
  by_cases h1 : s.old_battery_status = DISCHARGING <;>
    by_cases h2 : p ≤ cfg.low_level <;>
    by_cases h3 : p ≤ cfg.critical_level <;>
    cases hb : s.battery_low <;> cases hc : s.battery_critical <;> simp [h1, h2, h3, hb, hc]

theorem discharging_checks_battery_low (cfg : configuration) (st p t : Int) (s : State) :
    (discharging_checks cfg st p t s).1.battery_low
      = ((decide (s.old_battery_status = DISCHARGING) && s.battery_low)
          || decide (p ≤ cfg.low_level)) := by
  unfold discharging_checks
  by_cases h1 : s.old_battery_status = DISCHARGING <;>
    by_cases h2 : p ≤ cfg.low_level <;>
    by_cases h3 : p ≤ cfg.critical_level <;>
    cases hb : s.battery_low <;> cases hc : s.battery_critical <;> simp [h1, h2, h3, hb, hc]

theorem discharging_checks_battery_critical (cfg : configuration) (st p t : Int) (s : State) :
    (discharging_checks cfg st p t s).1.battery_critical
      = ((decide (s.old_battery_status = DISCHARGING) && s.battery_critical)
          || decide (p ≤ cfg.critical_level)) := by
  unfold discharging_checks
  by_cases h1 : s.old_battery_status = DISCHARGING <;>
    by_cases h2 : p ≤ cfg.low_level <;>
    by_cases h3 : p ≤ cfg.critical_level <;>
    cases hb : s.battery_low <;> cases hc : s.battery_critical <;> simp [h1, h2, h3, hb, hc]

theorem discharging_checks_spawn_command_low (cfg : configuration) (st p t : Int) (s : State) :
    (discharging_checks cfg st p t s).1.spawn_command_low
      = ((decide (s.old_battery_status = DISCHARGING) && s.spawn_command_low)
          || (!(decide (s.old_battery_status = DISCHARGING) && s.battery_low)
              && decide (p ≤ cfg.low_level))) := by
  unfold discharging_checks
  by_cases h1 : s.old_battery_status = DISCHARGING <;>
    by_cases h2 : p ≤ cfg.low_level <;>
    by_cases h3 : p ≤ cfg.critical_level <;>
    cases hb : s.battery_low <;> cases hc : s.battery_critical <;> simp [h1, h2, h3, hb, hc]

/-- The events of lines 967-999 in closed form. -/
theorem discharging_checks_events (cfg : configuration) (st p t : Int) (s : State) :
    (discharging_checks cfg st p t s).2
      = (if s.old_battery_status ≠ DISCHARGING then [Event.notify st p t] else [])
        ++ (if (s.old_battery_status ≠ DISCHARGING ∨ s.battery_low = false) ∧ p ≤ cfg.low_level
            then [Event.notify LOW_LEVEL p t] else [])
        ++ (if (s.old_battery_status ≠ DISCHARGING ∨ s.battery_critical = false)
              ∧ p ≤ cfg.critical_level
            then [Event.notify CRITICAL_LEVEL p t] else [])
        ++ [Event.tray
            (if (s.old_battery_status ≠ DISCHARGING ∨ s.battery_critical = false)
                ∧ p ≤ cfg.critical_level then CRITICAL_LEVEL
              else if (s.old_battery_status ≠ DISCHARGING ∨ s.battery_low = false)
                ∧ p ≤ cfg.low_level then LOW_LEVEL
              else st) st p t] := by
  unfold discharging_checks
  by_cases h1 : s.old_battery_status = DISCHARGING <;>
    by_cases h2 : p ≤ cfg.low_level <;>
    by_cases h3 : p ≤ cfg.critical_level <;>
    cases hb : s.battery_low <;> cases hc : s.battery_critical <;> simp [h1, h2, h3, hb, hc]

theorem spawn_critical_command_flags (cfg : configuration) (inp : TickInput) (s : State) :
    (spawn_critical_command cfg inp s).1.old_battery_status = s.old_battery_status ∧
    (spawn_critical_command cfg inp s).1.battery_low = s.battery_low ∧
    (spawn_critical_command cfg inp s).1.battery_critical = s.battery_critical := by
  unfold spawn_critical_command
  split
  · cases cfg.command_critical_level with
    | none => simp
    | some command =>
      simp only
      split_ifs <;> simp
  · simp

theorem spawn_commands_flags (cfg : configuration) (inp : TickInput) (s : State) :
    (spawn_commands cfg inp s).1.old_battery_status = s.old_battery_status ∧
    (spawn_commands cfg inp s).1.battery_low = s.battery_low ∧
    (spawn_commands cfg inp s).1.battery_critical = s.battery_critical := by
  unfold spawn_commands
  split
  · cases cfg.command_low_level with
    | none =>
      simp only
      exact spawn_critical_command_flags cfg inp _
    | some command =>
      simp only
      split_ifs
      · simp
      · exact spawn_critical_command_flags cfg inp _
      · exact spawn_critical_command_flags cfg inp _
  · exact spawn_critical_command_flags cfg inp s

theorem spawn_critical_command_no_notify (cfg : configuration) (inp : TickInput) (s : State)
    (state p t : Int) : Event.notify state p t ∉ (spawn_critical_command cfg inp s).2 := by
  unfold spawn_critical_command
  split
  · cases cfg.command_critical_level with
    | none => simp
    | some command =>
      simp only
      split_ifs <;> simp
  · simp

theorem spawn_commands_no_notify (cfg : configuration) (inp : TickInput) (s : State)
    (state p t : Int) : Event.notify state p t ∉ (spawn_commands cfg inp s).2 := by
  unfold spawn_commands
  split
  · cases cfg.command_low_level with
    | none => exact spawn_critical_command_no_notify cfg inp _ state p t
    | some command =>
      simp only
      have h := spawn_critical_command_no_notify cfg inp
        { s with spawn_command_low := false } state p t
      split_ifs <;> simp [h]
  · exact spawn_critical_command_no_notify cfg inp s state p t

theorem tick_status_some (inp : TickInput) (st : Int) (h : tick_status inp = some st) :
    (∃ bp, inp.battery_path = some bp) ∧
    ∀ fs, ∃ fs1, read_battery_status inp fs = (fs1, some st) := by
  unfold tick_status at h
  cases hb : inp.battery_path with
  | none =>
    rw [hb] at h
    simp at h
  | some bp =>
    rw [hb] at h
    simp only at h
    refine ⟨⟨bp, rfl⟩, fun fs => ?_⟩
    have h2 := read_battery_status_snd inp fs State.initial.filters
    rw [h] at h2
    exact ⟨(read_battery_status inp fs).1, Prod.ext rfl h2⟩

theorem tick_percentage_some (inp : TickInput) (p : Int) (h : tick_percentage inp = some p)
    (fs : Filters) : ∃ fs1 t, get_battery_charge true inp.main fs = (fs1, some (p, t)) := by
  unfold tick_percentage at h
  have h2 := get_battery_charge_percentage_snd true true inp.main fs State.initial.filters
  rw [h] at h2
  rcases hg : get_battery_charge true inp.main fs with ⟨fs1, o⟩
  rw [hg] at h2
  cases o with
  | none => simp at h2
  | some c =>
    obtain ⟨p', t⟩ := c
    simp at h2
    subst h2
    exact ⟨fs1, t, rfl⟩

theorem tick_percentage_none (inp : TickInput) (h : tick_percentage inp = none)
    (fs : Filters) : ∃ fs1, get_battery_charge true inp.main fs = (fs1, none) := by
  unfold tick_percentage at h
  have h2 := get_battery_charge_percentage_snd true true inp.main fs State.initial.filters
  rw [h] at h2
  rcases hg : get_battery_charge true inp.main fs with ⟨fs1, o⟩
  rw [hg] at h2
  cases o with
  | none => exact ⟨fs1, rfl⟩
  | some c => simp at h2

/-- A tick of the discharging family whose capacities are readable: it runs
the checks of lines 967-999 on the state left by the device-change reset and
the filter updates, then the spawn code. -/
theorem tick_discharging_ok (cfg : configuration) (inp : TickInput) (s0 : State) (st p : Int)
    (hst : tick_status inp = some st) (hfam : st = DISCHARGING ∨ st = NOT_CHARGING)
    (hp : tick_percentage inp = some p) :
    ∃ t fs,
      update_tray_icon_status_checks cfg inp s0
        = ⟨(discharging_checks cfg st p t
              { (if inp.changed_power_supplies = true then power_supplies_reset s0 else s0) with
                filters := fs }).1,
            (discharging_checks cfg st p t
              { (if inp.changed_power_supplies = true then power_supplies_reset s0 else s0) with
                filters := fs }).2, true⟩ := by
  obtain ⟨⟨bp, hbp⟩, hrs⟩ := tick_status_some inp st hst
  obtain ⟨s, hs⟩ : ∃ s, s = if inp.changed_power_supplies = true then power_supplies_reset s0
      else s0 := ⟨_, rfl⟩
  obtain ⟨fs1, h1⟩ := hrs s.filters
  unfold update_tray_icon_status_checks
  simp only [← hs, hbp, h1]
  have hne : st ≠ MISSING ∧ st ≠ UNKNOWN ∧ st ≠ CHARGED ∧ st ≠ CHARGING := by
    rcases hfam with h | h <;> subst h <;> decide
  simp only [hne.1, hne.2.1, hne.2.2.1, hne.2.2.2, hfam, if_false, if_true]
  by_cases hold : s.old_battery_status = DISCHARGING
  · obtain ⟨fs2, t, h2⟩ := tick_percentage_some inp p hp fs1
    simp only [hold, ne_eq, not_true_eq_false, if_false, h2]
    exact ⟨t, fs2, rfl⟩
  · obtain ⟨fs2, t, h2⟩ := tick_percentage_some inp p hp (reset_battery_current_rate fs1)
    simp only [hold, ne_eq, not_false_eq_true, if_true, h2]
    exact ⟨t, fs2, rfl⟩

/-- A tick of the discharging family whose capacities are unreadable returns
with no event and leaves every static variable as the device-change reset
left it. -/
theorem tick_discharging_fail (cfg : configuration) (inp : TickInput) (s0 : State) (st : Int)
    (hst : tick_status inp = some st) (hfam : st = DISCHARGING ∨ st = NOT_CHARGING)
    (hp : tick_percentage inp = none) :
    ∃ fs,
      update_tray_icon_status cfg inp s0
        = ({ (if inp.changed_power_supplies = true then power_supplies_reset s0 else s0) with
              filters := fs }, []) := by
  obtain ⟨⟨bp, hbp⟩, hrs⟩ := tick_status_some inp st hst
  obtain ⟨s, hs⟩ : ∃ s, s = if inp.changed_power_supplies = true then power_supplies_reset s0
      else s0 := ⟨_, rfl⟩
  obtain ⟨fs1, h1⟩ := hrs s.filters
  unfold update_tray_icon_status update_tray_icon_status_checks
  simp only [← hs, hbp, h1]
  have hne : st ≠ MISSING ∧ st ≠ UNKNOWN ∧ st ≠ CHARGED ∧ st ≠ CHARGING := by
    rcases hfam with h | h <;> subst h <;> decide
  simp only [hne.1, hne.2.1, hne.2.2.1, hne.2.2.2, hfam, if_false, if_true]
  by_cases hold : s.old_battery_status = DISCHARGING
  · obtain ⟨fs2, h2⟩ := tick_percentage_none inp hp fs1
    simp only [hold, ne_eq, not_true_eq_false, if_false, h2]
    exact ⟨fs2, by simp⟩
  · obtain ⟨fs2, h2⟩ := tick_percentage_none inp hp (reset_battery_current_rate fs1)
    simp only [hold, ne_eq, not_false_eq_true, if_true, h2]
    exact ⟨fs2, by simp⟩

theorem countP_low_spawn_commands (cfg : configuration) (inp : TickInput) (s : State) :
    (spawn_commands cfg inp s).2.countP is_low_notification = 0 := by
  rw [List.countP_eq_zero]
  intro e he hl
  cases e with
  | notify state p t => exact spawn_commands_no_notify cfg inp s state p t he
  | _ => simp [is_low_notification] at hl

theorem run_ticks_cons (cfg : configuration) (inp : TickInput) (rest : List TickInput)
    (s : State) :
    run_ticks cfg (inp :: rest) s
      = ((run_ticks cfg rest (update_tray_icon_status cfg inp s).1).1,
          (update_tray_icon_status cfg inp s).2
            ++ (run_ticks cfg rest (update_tray_icon_status cfg inp s).1).2) := rfl

theorem tick_discharging_result (cfg : configuration) (inp : TickInput) (s0 : State)
    (st p : Int) (hst : tick_status inp = some st)
    (hfam : st = DISCHARGING ∨ st = NOT_CHARGING) (hp : tick_percentage inp = some p) :
    ∃ t fs,
      update_tray_icon_status_checks cfg inp s0
        = ⟨(discharging_checks cfg st p t
              { (if inp.changed_power_supplies = true then power_supplies_reset s0 else s0) with
                filters := fs }).1,
            (discharging_checks cfg st p t
              { (if inp.changed_power_supplies = true then power_supplies_reset s0 else s0) with
                filters := fs }).2, true⟩ ∧
      update_tray_icon_status cfg inp s0
        = ((spawn_commands cfg inp (discharging_checks cfg st p t
              { (if inp.changed_power_supplies = true then power_supplies_reset s0 else s0) with
                filters := fs }).1).1,
            (discharging_checks cfg st p t
              { (if inp.changed_power_supplies = true then power_supplies_reset s0 else s0) with
                filters := fs }).2
            ++ (spawn_commands cfg inp (discharging_checks cfg st p t
              { (if inp.changed_power_supplies = true then power_supplies_reset s0 else s0) with
                filters := fs }).1).2) := by
  obtain ⟨t, fs, h⟩ := tick_discharging_ok cfg inp s0 st p hst hfam hp
  refine ⟨t, fs, h, ?_⟩
  unfold update_tray_icon_status
  rw [h]
  simp

theorem entry_old_ne (inp : TickInput) (s0 : State) (fs : Filters)
    (henter : inp.changed_power_supplies = true ∨ s0.old_battery_status ≠ DISCHARGING) :
    ({ (if inp.changed_power_supplies = true then power_supplies_reset s0 else s0) with
        filters := fs } : State).old_battery_status ≠ DISCHARGING := by
  by_cases hc : inp.changed_power_supplies = true
  · simp only [hc, if_true, power_supplies_reset]
    decide
  · rcases henter with h | h
    · exact absurd h hc
    · simp only [hc, if_false]
      exact h

theorem mem_notify_low_discharging_checks (cfg : configuration) (st p t q u : Int) (s : State)
    (hfam : st = DISCHARGING ∨ st = NOT_CHARGING) :
    Event.notify LOW_LEVEL q u ∈ (discharging_checks cfg st p t s).2
      ↔ ((s.old_battery_status ≠ DISCHARGING ∨ s.battery_low = false) ∧ p ≤ cfg.low_level)
          ∧ q = p ∧ u = t := by
  rw [discharging_checks_events]
  have h1 : LOW_LEVEL ≠ st := by rcases hfam with h | h <;> subst h <;> decide
  have h2 : LOW_LEVEL ≠ CRITICAL_LEVEL := by decide
  simp only [List.mem_append]
  split_ifs <;> simp [h1, h2] <;> tauto

theorem mem_notify_critical_discharging_checks (cfg : configuration) (st p t q u : Int)
    (s : State) (hfam : st = DISCHARGING ∨ st = NOT_CHARGING) :
    Event.notify CRITICAL_LEVEL q u ∈ (discharging_checks cfg st p t s).2
      ↔ ((s.old_battery_status ≠ DISCHARGING ∨ s.battery_critical = false)
            ∧ p ≤ cfg.critical_level) ∧ q = p ∧ u = t := by
  rw [discharging_checks_events]
  have h1 : CRITICAL_LEVEL ≠ st := by rcases hfam with h | h <;> subst h <;> decide
  have h2 : CRITICAL_LEVEL ≠ LOW_LEVEL := by decide
  simp only [List.mem_append]
  split_ifs <;> simp [h1, h2] <;> tauto

/-- C7 as stated fails.  From the initial state a tick entering `DISCHARGING`
at 4 percent, with `low_level = 20` and `critical_level = 5`, ends with
`battery_low` and `battery_critical` both set and has emitted the low and the
critical notification itself. -/
theorem C7_entering_tick_fires_both_thresholds :
    State.initial.old_battery_status ≠ DISCHARGING ∧
    tick_status deep_tick = some DISCHARGING ∧
    tick_percentage deep_tick = some 4 ∧
    (update_tray_icon_status default_configuration deep_tick State.initial).1.battery_low
      = true ∧
    (update_tray_icon_status default_configuration deep_tick State.initial).1.battery_critical
      = true ∧
    Event.notify LOW_LEVEL 4 12
      ∈ (update_tray_icon_status default_configuration deep_tick State.initial).2 ∧
    Event.notify CRITICAL_LEVEL 4 12
      ∈ (update_tray_icon_status default_configuration deep_tick State.initial).2 := by
  decide!

/-- C7, amended.  A tick that enters the discharging family (after a device
change or from a previous status other than `DISCHARGING`) and computes the
percentage `p` emits the status-change notification and ends with
`old_battery_status = DISCHARGING`; the flags are cleared before the threshold
checks of the same tick, so at its end `battery_low` is set exactly when
`p ≤ low_level` and `battery_critical` exactly when `p ≤ critical_level`, and
the low and critical notifications are emitted by this tick exactly under the
same conditions. -/
theorem C7_entering_tick_rearms_then_checks (cfg : configuration) (inp : TickInput)
    (s0 : State) (st p : Int) (hst : tick_status inp = some st)
    (hfam : st = DISCHARGING ∨ st = NOT_CHARGING) (hp : tick_percentage inp = some p)
    (henter : inp.changed_power_supplies = true ∨ s0.old_battery_status ≠ DISCHARGING) :
    (update_tray_icon_status cfg inp s0).1.old_battery_status = DISCHARGING ∧
    (∃ t, Event.notify st p t ∈ (update_tray_icon_status cfg inp s0).2) ∧
    ((update_tray_icon_status cfg inp s0).1.battery_low = true ↔ p ≤ cfg.low_level) ∧
    ((update_tray_icon_status cfg inp s0).1.battery_critical = true
      ↔ p ≤ cfg.critical_level) ∧
    ((∃ q t, Event.notify LOW_LEVEL q t ∈ (update_tray_icon_status cfg inp s0).2)
      ↔ p ≤ cfg.low_level) ∧
    ((∃ q t, Event.notify CRITICAL_LEVEL q t ∈ (update_tray_icon_status cfg inp s0).2)
      ↔ p ≤ cfg.critical_level) := by
  obtain ⟨t, fs, _, h⟩ := tick_discharging_result cfg inp s0 st p hst hfam hp
  have hold := entry_old_ne inp s0 fs henter
  obtain ⟨f1, f2, f3⟩ := spawn_commands_flags cfg inp (discharging_checks cfg st p t
    { (if inp.changed_power_supplies = true then power_supplies_reset s0 else s0) with
      filters := fs }).1
  rw [h]
  simp only
  refine ⟨?_, ?_, ?_, ?_, ?_, ?_⟩
  · rw [f1, discharging_checks_old]
  · refine ⟨t, List.mem_append_left _ ?_⟩
    rw [discharging_checks_events]
    simp [hold]
  · rw [f2, discharging_checks_battery_low]
    simp [hold]
  · rw [f3, discharging_checks_battery_critical]
    simp [hold]
  · constructor
    · rintro ⟨q, u, hm⟩
      rcases List.mem_append.mp hm with hm | hm
      · exact ((mem_notify_low_discharging_checks cfg st p t q u _ hfam).mp hm).1.2
      · exact absurd hm (spawn_commands_no_notify cfg inp _ _ _ _)
    · intro hle
      exact ⟨p, t, List.mem_append_left _
        ((mem_notify_low_discharging_checks cfg st p t p t _ hfam).mpr
          ⟨⟨Or.inl hold, hle⟩, rfl, rfl⟩)⟩
  · constructor
    · rintro ⟨q, u, hm⟩
      rcases List.mem_append.mp hm with hm | hm
      · exact ((mem_notify_critical_discharging_checks cfg st p t q u _ hfam).mp hm).1.2
      · exact absurd hm (spawn_commands_no_notify cfg inp _ _ _ _)
    · intro hle
      exact ⟨p, t, List.mem_append_left _
        ((mem_notify_critical_discharging_checks cfg st p t p t _ hfam).mpr
          ⟨⟨Or.inl hold, hle⟩, rfl, rfl⟩)⟩

/-- C7, amended, on `deep_tick` from the initial state. -/
theorem C7_entering_tick_rearms_then_checks_witness :
    tick_status deep_tick = some DISCHARGING ∧
    tick_percentage deep_tick = some 4 ∧
    State.initial.old_battery_status ≠ DISCHARGING ∧
    (update_tray_icon_status default_configuration deep_tick State.initial).1.old_battery_status
      = DISCHARGING ∧
    (∃ t, Event.notify DISCHARGING 4 t
      ∈ (update_tray_icon_status default_configuration deep_tick State.initial).2) ∧
    ((update_tray_icon_status default_configuration deep_tick State.initial).1.battery_low = true
      ↔ (4 : Int) ≤ default_configuration.low_level) ∧
    ((update_tray_icon_status default_configuration deep_tick State.initial).1.battery_critical
      = true ↔ (4 : Int) ≤ default_configuration.critical_level) ∧
    ((∃ q t, Event.notify LOW_LEVEL q t
        ∈ (update_tray_icon_status default_configuration deep_tick State.initial).2)
      ↔ (4 : Int) ≤ default_configuration.low_level) ∧
    ((∃ q t, Event.notify CRITICAL_LEVEL q t
        ∈ (update_tray_icon_status default_configuration deep_tick State.initial).2)
      ↔ (4 : Int) ≤ default_configuration.critical_level) :=
  ⟨by decide!, by decide!, by decide,
    C7_entering_tick_rearms_then_checks default_configuration deep_tick State.initial
      DISCHARGING 4 (by decide!) (Or.inl rfl) (by decide!) (Or.inr (by decide))⟩

theorem countP_spawn_commands (cfg : configuration) (inp : TickInput) (s : State)
    (f : Event → Bool) (hf : ∀ e, f e = true → ∃ a b c, e = Event.notify a b c) :
    (spawn_commands cfg inp s).2.countP f = 0 := by
  rw [List.countP_eq_zero]
  intro e he hl
  obtain ⟨a, b, c, rfl⟩ := hf e hl
  exact spawn_commands_no_notify cfg inp s a b c he

theorem is_status_notification_notify (e : Event) (h : is_status_notification e = true) :
    ∃ a b c, e = Event.notify a b c := by
  cases e with
  | notify a b c => exact ⟨a, b, c, rfl⟩
  | _ => simp [is_status_notification] at h

theorem is_critical_notification_notify (e : Event) (h : is_critical_notification e = true) :
    ∃ a b c, e = Event.notify a b c := by
  cases e with
  | notify a b c => exact ⟨a, b, c, rfl⟩
  | _ => simp [is_critical_notification] at h

/-- C8.  A tick that enters `DISCHARGING` with a percentage `p` such that
`critical_level < p ≤ low_level` emits exactly one status-change notification
and exactly one low-level notification and no critical notification; when it
reaches the spawn code, after the threshold checks, `battery_low` and
`spawn_command_low` are both set. -/
theorem C8_entering_at_low_level (cfg : configuration) (inp : TickInput) (s0 : State) (p : Int)
    (hst : tick_status inp = some DISCHARGING) (hp : tick_percentage inp = some p)
    (henter : inp.changed_power_supplies = true ∨ s0.old_battery_status ≠ DISCHARGING)
    (hlow : p ≤ cfg.low_level) (hcrit : cfg.critical_level < p) :
    (update_tray_icon_status cfg inp s0).2.countP is_status_notification = 1 ∧
    (update_tray_icon_status cfg inp s0).2.countP is_low_notification = 1 ∧
    (update_tray_icon_status cfg inp s0).2.countP is_critical_notification = 0 ∧
    (update_tray_icon_status_checks cfg inp s0).at_spawn = true ∧
    (update_tray_icon_status_checks cfg inp s0).s.battery_low = true ∧
    (update_tray_icon_status_checks cfg inp s0).s.spawn_command_low = true := by
  obtain ⟨t, fs, hc, h⟩ := tick_discharging_result cfg inp s0 DISCHARGING p hst (Or.inl rfl) hp
  have hold := entry_old_ne inp s0 fs henter
  have hnc : ¬ p ≤ cfg.critical_level := not_le.mpr hcrit
  rw [h, hc]
  simp only [List.countP_append]
  rw [countP_spawn_commands cfg inp _ _ is_status_notification_notify,
    countP_spawn_commands cfg inp _ _ is_critical_notification_notify,
    countP_low_spawn_commands, discharging_checks_events, discharging_checks_battery_low,
    discharging_checks_spawn_command_low]
  have e1 : is_status_notification (Event.notify DISCHARGING p t) = true := by
    simp only [is_status_notification]
    decide
  have e2 : is_status_notification (Event.notify LOW_LEVEL p t) = false := by
    simp [is_status_notification]
  have e3 : ∀ a, is_status_notification (Event.tray a DISCHARGING p t) = false :=
    fun _ => rfl
  have e4 : is_low_notification (Event.notify DISCHARGING p t) = false := by
    simp only [is_low_notification]
    decide
  have e5 : is_low_notification (Event.notify LOW_LEVEL p t) = true := by
    simp [is_low_notification]
  have e6 : ∀ a, is_low_notification (Event.tray a DISCHARGING p t) = false :=
    fun _ => rfl
  have e7 : is_critical_notification (Event.notify DISCHARGING p t) = false := by
    simp only [is_critical_notification]
    decide
  have e8 : is_critical_notification (Event.notify LOW_LEVEL p t) = false := by
    simp only [is_critical_notification]
    decide
  have e9 : ∀ a, is_critical_notification (Event.tray a DISCHARGING p t) = false :=
    fun _ => rfl
  simp [hold, hlow, hnc, List.countP_cons, e1, e2, e3, e4, e5, e6, e7, e8, e9]

/-- C8 on the scenario of the specification: `energy_full = 50000` and
`energy_now = 10000`, so 20 percent, with `low_level = 20` and
`critical_level = 5`, entering `DISCHARGING` from the initial state. -/
theorem C8_entering_at_low_level_witness :
    tick_status discharging_tick = some DISCHARGING ∧
    tick_percentage discharging_tick = some 20 ∧
    State.initial.old_battery_status ≠ DISCHARGING ∧
    (20 : Int) ≤ default_configuration.low_level ∧
    default_configuration.critical_level < (20 : Int) ∧
    (update_tray_icon_status default_configuration discharging_tick State.initial).2.countP
      is_status_notification = 1 ∧
    (update_tray_icon_status default_configuration discharging_tick State.initial).2.countP
      is_low_notification = 1 ∧
    (update_tray_icon_status default_configuration discharging_tick State.initial).2.countP
      is_critical_notification = 0 ∧
    (update_tray_icon_status_checks default_configuration discharging_tick State.initial).at_spawn
      = true ∧
    (update_tray_icon_status_checks default_configuration discharging_tick State.initial).s.battery_low
      = true ∧
    (update_tray_icon_status_checks default_configuration discharging_tick
      State.initial).s.spawn_command_low = true :=
  ⟨by decide!, by decide!, by decide, by decide, by decide,
    C8_entering_at_low_level default_configuration discharging_tick State.initial 20
      (by decide!) (by decide!) (Or.inr (by decide)) (by decide) (by decide)⟩

theorem tick_changed_eq_reset (cfg : configuration) (inp : TickInput) (s : State)
    (h : inp.changed_power_supplies = true) :
    update_tray_icon_status cfg inp s
      = update_tray_icon_status cfg { inp with changed_power_supplies := false }
          (power_supplies_reset s) := by
  obtain ⟨c, bp, ap, pr, st, onl, pb, mn, sl, sc, ol, oc⟩ := inp
  simp only at h
  subst h
  rfl

theorem HANDLE_BATTERY_STATUS_old (battery_status PCT TIM : Int) (s : State) :
    (HANDLE_BATTERY_STATUS battery_status PCT TIM s).1.old_battery_status = battery_status := by
  unfold HANDLE_BATTERY_STATUS
  by_cases h : s.old_battery_status = battery_status
  · simp [h]
  · simp [h]

theorem checks_other_old_ne (cfg : configuration) (inp : TickInput) (s0 : State)
    (hnd : tick_status inp ≠ some DISCHARGING ∧ tick_status inp ≠ some NOT_CHARGING)
    (henter : inp.changed_power_supplies = true ∨ s0.old_battery_status ≠ DISCHARGING) :
    (update_tray_icon_status_checks cfg inp s0).at_spawn = false ∧
    (update_tray_icon_status_checks cfg inp s0).s.old_battery_status ≠ DISCHARGING := by
  obtain ⟨s, hs⟩ : ∃ s, s = if inp.changed_power_supplies = true then power_supplies_reset s0
      else s0 := ⟨_, rfl⟩
  have hold : s.old_battery_status ≠ DISCHARGING := by
    rw [hs]
    exact entry_old_ne inp s0 _ henter
  unfold update_tray_icon_status_checks
  simp only [← hs]
  cases hb : inp.battery_path with
  | none =>
    simp only
    split_ifs
    · exact ⟨rfl, hold⟩
    · exact ⟨rfl, hold⟩
  | some bp =>
    simp only
    have hts : tick_status inp = (read_battery_status inp s.filters).2 := by
      unfold tick_status
      rw [hb]
      exact read_battery_status_snd inp _ _
    rcases hr : read_battery_status inp s.filters with ⟨fs, o⟩
    rw [hr] at hts
    simp only at hts
    rw [hts] at hnd
    cases o with
    | none => exact ⟨rfl, hold⟩
    | some st =>
      have h1 : st ≠ DISCHARGING := fun h => hnd.1 (by rw [h])
      have h2 : st ≠ NOT_CHARGING := fun h => hnd.2 (by rw [h])
      simp only [h1, h2, or_self, if_false]
      by_cases m1 : st = MISSING
      · subst m1
        simp [MISSING, DISCHARGING, HANDLE_BATTERY_STATUS_old]
      · by_cases m2 : st = UNKNOWN
        · subst m2
          simp [MISSING, UNKNOWN, DISCHARGING, HANDLE_BATTERY_STATUS_old]
        · by_cases m3 : st = CHARGED
          · subst m3
            simp [MISSING, UNKNOWN, CHARGED, DISCHARGING, HANDLE_BATTERY_STATUS_old]
          · by_cases m4 : st = CHARGING
            · subst m4
              have e1 : ¬ (CHARGING = MISSING) := by decide
              have e2 : ¬ (CHARGING = UNKNOWN) := by decide
              have e3 : ¬ (CHARGING = CHARGED) := by decide
              have e4 : CHARGING ≠ DISCHARGING := by decide
              simp only [e1, e2, e3, if_true, if_false]
              split
              · refine ⟨rfl, ?_⟩
                simp only
                split_ifs <;> exact hold
              · simp only [HANDLE_BATTERY_STATUS_old]
                exact ⟨trivial, e4⟩
            · simp only [m1, m2, m3, m4, if_false]
              exact ⟨trivial, hold⟩

/-- A tick outside the discharging family leaves `old_battery_status` different
from `DISCHARGING` when it starts so or with a device change. -/
theorem tick_other_old_ne (cfg : configuration) (inp : TickInput) (s0 : State)
    (hnd : tick_status inp ≠ some DISCHARGING ∧ tick_status inp ≠ some NOT_CHARGING)
    (henter : inp.changed_power_supplies = true ∨ s0.old_battery_status ≠ DISCHARGING) :
    (update_tray_icon_status cfg inp s0).1.old_battery_status ≠ DISCHARGING := by
  obtain ⟨h1, h2⟩ := checks_other_old_ne cfg inp s0 hnd henter
  unfold update_tray_icon_status
  simp only [h1, Bool.false_eq_true, if_false]
  exact h2

theorem run_other_old_ne (cfg : configuration) (run : List TickInput) :
    ∀ s : State,
    (∀ i ∈ run, tick_status i ≠ some DISCHARGING ∧ tick_status i ≠ some NOT_CHARGING) →
    s.old_battery_status ≠ DISCHARGING →
    (run_ticks cfg run s).1.old_battery_status ≠ DISCHARGING := by
  induction run with
  | nil =>
    intro s _ h
    exact h
  | cons inp rest ih =>
    intro s hrun h
    rw [run_ticks_cons]
    exact ih _ (fun i hi => hrun i (List.mem_cons_of_mem _ hi))
      (tick_other_old_ne cfg inp s (hrun inp (List.mem_cons_self _ _)) (Or.inr h))

/-- C9.  A tick in which `changed_power_supplies ()` is `TRUE` behaves as the
same tick without device change run from the state in which
`old_battery_status` is -1 and `ac_only`, `battery_low`, `battery_critical`,
`spawn_command_low` and `spawn_command_critical` are all false.  So in any run
that starts with a device change, the first tick of the discharging family, if
its percentage `p` is at or below `low_level`, emits the low-level
notification, whatever was notified before the change. -/
theorem C9_device_change_resets_hysteresis (cfg : configuration) (s0 : State)
    (pre : List TickInput) (d : TickInput) (st p : Int)
    (hchg : ∀ c ∈ (pre ++ [d]).head?, c.changed_power_supplies = true)
    (hpre : ∀ i ∈ pre, tick_status i ≠ some DISCHARGING ∧ tick_status i ≠ some NOT_CHARGING)
    (hst : tick_status d = some st) (hfam : st = DISCHARGING ∨ st = NOT_CHARGING)
    (hp : tick_percentage d = some p) (hle : p ≤ cfg.low_level) :
    (∀ (inp : TickInput) (s : State), inp.changed_power_supplies = true →
      update_tray_icon_status cfg inp s
        = update_tray_icon_status cfg { inp with changed_power_supplies := false }
            (power_supplies_reset s)) ∧
    (∀ s : State, (power_supplies_reset s).old_battery_status = -1 ∧
      (power_supplies_reset s).ac_only = false ∧
      (power_supplies_reset s).battery_low = false ∧
      (power_supplies_reset s).battery_critical = false ∧
      (power_supplies_reset s).spawn_command_low = false ∧
      (power_supplies_reset s).spawn_command_critical = false) ∧
    ∃ t, Event.notify LOW_LEVEL p t
      ∈ (update_tray_icon_status cfg d (run_ticks cfg pre s0).1).2 := by
  refine ⟨fun inp s h => tick_changed_eq_reset cfg inp s h,
    fun s => ⟨rfl, rfl, rfl, rfl, rfl, rfl⟩, ?_⟩
  have henter : d.changed_power_supplies = true
      ∨ (run_ticks cfg pre s0).1.old_battery_status ≠ DISCHARGING := by
    cases pre with
    | nil =>
      left
      exact hchg d (by simp)
    | cons c rest =>
      right
      have hc : c.changed_power_supplies = true := hchg c (by simp)
      rw [run_ticks_cons]
      exact run_other_old_ne cfg rest _ (fun i hi => hpre i (List.mem_cons_of_mem _ hi))
        (tick_other_old_ne cfg c s0 (hpre c (List.mem_cons_self _ _)) (Or.inl hc))
  obtain ⟨t, fs, _, h⟩ :=
    tick_discharging_result cfg d (run_ticks cfg pre s0).1 st p hst hfam hp
  have hold := entry_old_ne d (run_ticks cfg pre s0).1 fs henter
  refine ⟨t, ?_⟩
  rw [h]
  exact List.mem_append_left _
    ((mem_notify_low_discharging_checks cfg st p t p t _ hfam).mpr
      ⟨⟨Or.inl hold, hle⟩, rfl, rfl⟩)

/-- C9 on a battery that disappears and reappears.  In `low_notified_state`
the low level has been notified at 20 percent and a further tick at 20 percent
does not notify it again; after the device changes of `battery_gone_tick` and
`battery_back_tick` it is notified again at 20 percent. -/
theorem C9_device_change_resets_hysteresis_witness :
    low_notified_state.battery_low = true ∧
    (update_tray_icon_status default_configuration discharging_tick low_notified_state).2.countP
      is_low_notification = 0 ∧
    (∀ c ∈ ([battery_gone_tick] ++ [battery_back_tick]).head?,
      c.changed_power_supplies = true) ∧
    (∀ i ∈ [battery_gone_tick],
      tick_status i ≠ some DISCHARGING ∧ tick_status i ≠ some NOT_CHARGING) ∧
    tick_status battery_back_tick = some DISCHARGING ∧
    tick_percentage battery_back_tick = some 20 ∧
    ((∀ (inp : TickInput) (s : State), inp.changed_power_supplies = true →
      update_tray_icon_status default_configuration inp s
        = update_tray_icon_status default_configuration
            { inp with changed_power_supplies := false } (power_supplies_reset s)) ∧
    (∀ s : State, (power_supplies_reset s).old_battery_status = -1 ∧
      (power_supplies_reset s).ac_only = false ∧
      (power_supplies_reset s).battery_low = false ∧
      (power_supplies_reset s).battery_critical = false ∧
      (power_supplies_reset s).spawn_command_low = false ∧
      (power_supplies_reset s).spawn_command_critical = false) ∧
    ∃ t, Event.notify LOW_LEVEL 20 t
      ∈ (update_tray_icon_status default_configuration battery_back_tick
          (run_ticks default_configuration [battery_gone_tick] low_notified_state).1).2) :=
  ⟨by decide!, by decide!, by decide!, by decide!, by decide!, by decide!,
    C9_device_change_resets_hysteresis default_configuration low_notified_state
      [battery_gone_tick] battery_back_tick DISCHARGING 20 (by decide!) (by decide!)
      (by decide!) (Or.inl rfl) (by decide!) (by decide)⟩

theorem HANDLE_BATTERY_STATUS_events (st PCT TIM : Int) (s : State) (e : Event)
    (hst : st ≠ LOW_LEVEL ∧ st ≠ CRITICAL_LEVEL)
    (he : e ∈ (HANDLE_BATTERY_STATUS st PCT TIM s).2) :
    is_spawn_request e = false ∧ is_low_notification e = false
      ∧ is_critical_notification e = false := by
  unfold HANDLE_BATTERY_STATUS at he
  split_ifs at he
  · simp only [List.mem_cons, List.mem_singleton, List.not_mem_nil, or_false] at he
    rcases he with h | h <;> subst h <;>
      simp [is_spawn_request, is_low_notification, is_critical_notification, hst.1, hst.2]
  · simp only [List.mem_singleton] at he
    subst he
    simp [is_spawn_request, is_low_notification, is_critical_notification]

/-- Every tick either stops before the spawn code, having emitted no low or
critical notification and no spawn request, or reaches it from the checks of
lines 967-999. -/
theorem checks_shape (cfg : configuration) (inp : TickInput) (s0 : State) :
    ((update_tray_icon_status_checks cfg inp s0).at_spawn = false ∧
      ∀ e ∈ (update_tray_icon_status_checks cfg inp s0).events,
        is_spawn_request e = false ∧ is_low_notification e = false
          ∧ is_critical_notification e = false) ∨
    ∃ st p t s, (st = DISCHARGING ∨ st = NOT_CHARGING) ∧
      update_tray_icon_status_checks cfg inp s0
        = ⟨(discharging_checks cfg st p t s).1, (discharging_checks cfg st p t s).2, true⟩ := by
  obtain ⟨s, hs⟩ : ∃ s, s = if inp.changed_power_supplies = true then power_supplies_reset s0
      else s0 := ⟨_, rfl⟩
  unfold update_tray_icon_status_checks
  simp only [← hs]
  cases hb : inp.battery_path with
  | none =>
    left
    simp only
    split_ifs
    · refine ⟨rfl, ?_⟩
      intro e he
      simp only [List.mem_cons, List.mem_singleton, List.not_mem_nil, or_false] at he
      rcases he with h | h <;> subst h <;>
        simp [is_spawn_request, is_low_notification, is_critical_notification]
    · exact ⟨rfl, by simp⟩
  | some bp =>
    simp only
    rcases hr : read_battery_status inp s.filters with ⟨fs, o⟩
    cases o with
    | none =>
      left
      exact ⟨rfl, by simp⟩
    | some st =>
      simp only
      by_cases m1 : st = MISSING
      · subst m1
        left
        simp only [if_true]
        exact ⟨trivial, fun e he => HANDLE_BATTERY_STATUS_events MISSING _ _ _ e (by decide) he⟩
      · by_cases m2 : st = UNKNOWN
        · subst m2
          left
          simp only [m1, if_true, if_false]
          exact ⟨trivial, fun e he => HANDLE_BATTERY_STATUS_events UNKNOWN _ _ _ e (by decide) he⟩
        · by_cases m3 : st = CHARGED
          · subst m3
            left
            simp only [m1, m2, if_true, if_false]
            exact ⟨trivial, fun e he =>
              HANDLE_BATTERY_STATUS_events CHARGED _ _ _ e (by decide) he⟩
          · by_cases m4 : st = CHARGING
            · subst m4
              left
              simp only [m1, m2, m3, if_true, if_false]
              split
              · exact ⟨rfl, by simp⟩
              · exact ⟨rfl, fun e he =>
                  HANDLE_BATTERY_STATUS_events CHARGING _ _ _ e (by decide) he⟩
            · simp only [m1, m2, m3, m4, if_false]
              by_cases hfam : st = DISCHARGING ∨ st = NOT_CHARGING
              · simp only [hfam, if_true]
                split
                · left
                  exact ⟨rfl, by simp⟩
                · right
                  exact ⟨st, _, _, _, hfam, rfl⟩
              · left
                simp only [hfam, if_false]
                exact ⟨trivial, by simp⟩

theorem discharging_checks_no_spawn (cfg : configuration) (st p t : Int) (s : State)
    (e : Event) (he : e ∈ (discharging_checks cfg st p t s).2) : is_spawn_request e = false := by
  rw [discharging_checks_events] at he
  simp only [List.mem_append] at he
  rcases he with ((he | he) | he) | he
  · split_ifs at he
    · simp only [List.mem_singleton] at he
      subst he
      rfl
    · simp at he
  · split_ifs at he
    · simp only [List.mem_singleton] at he
      subst he
      rfl
    · simp at he
  · split_ifs at he
    · simp only [List.mem_singleton] at he
      subst he
      rfl
    · simp at he
  · simp only [List.mem_singleton] at he
    subst he
    rfl

theorem checks_no_spawn (cfg : configuration) (inp : TickInput) (s0 : State) (e : Event)
    (he : e ∈ (update_tray_icon_status_checks cfg inp s0).events) :
    is_spawn_request e = false := by
  rcases checks_shape cfg inp s0 with ⟨_, h⟩ | ⟨st, p, t, s, _, h⟩
  · exact (h e he).1
  · rw [h] at he
    exact discharging_checks_no_spawn cfg st p t s e he

theorem no_longer_discharging_of_status (file : Option String) (st : Int)
    (h : get_battery_status file = some st) (h1 : st ≠ DISCHARGING) (h2 : st ≠ NOT_CHARGING) :
    no_longer_discharging file = true := by
  unfold no_longer_discharging
  rw [h]
  simp [h1, h2]

theorem spawn_critical_command_abandoned (cfg : configuration) (inp : TickInput) (s : State)
    (h : no_longer_discharging inp.status_critical = true) (command : String) :
    Event.spawn_critical command ∉ (spawn_critical_command cfg inp s).2 := by
  unfold spawn_critical_command
  split
  · cases cfg.command_critical_level with
    | none => simp
    | some c => simp [h]
  · simp

theorem spawn_commands_critical_abandoned (cfg : configuration) (inp : TickInput) (s : State)
    (h : no_longer_discharging inp.status_critical = true) (command : String) :
    Event.spawn_critical command ∉ (spawn_commands cfg inp s).2 := by
  unfold spawn_commands
  split
  · cases cfg.command_low_level with
    | none => exact spawn_critical_command_abandoned cfg inp _ h command
    | some c =>
      simp only
      have h2 := spawn_critical_command_abandoned cfg inp
        { s with spawn_command_low := false } h command
      split_ifs <;> simp [h2]
  · exact spawn_critical_command_abandoned cfg inp s h command

theorem spawn_commands_low_abandoned (cfg : configuration) (inp : TickInput) (s : State)
    (command : String) (hs : s.spawn_command_low = true)
    (hc : cfg.command_low_level = some command)
    (h : no_longer_discharging inp.status_low = true) :
    (spawn_commands cfg inp s).2 = [Event.usleep 5] := by
  unfold spawn_commands
  simp [hs, hc, h]

/-- C10 as stated fails for the critical threshold.  On `plugged_in_late_tick`
the low and the critical threshold both fire and both commands are configured;
the status re-read after the 30 second wait is `Charging`, so the critical
command is abandoned, yet the tick has already emitted the spawn request of
the low-level command. -/
theorem C10_critical_abandoned_after_low_spawned :
    Event.notify CRITICAL_LEVEL 4 12
      ∈ (update_tray_icon_status default_configuration plugged_in_late_tick State.initial).2 ∧
    default_configuration.command_critical_level = some "critical-command" ∧
    get_battery_status plugged_in_late_tick.status_critical = some CHARGING ∧
    (update_tray_icon_status default_configuration plugged_in_late_tick State.initial).2
      = [Event.notify DISCHARGING 4 12, Event.notify LOW_LEVEL 4 12,
         Event.notify CRITICAL_LEVEL 4 12, Event.tray CRITICAL_LEVEL DISCHARGING 4 12,
         Event.usleep 5, Event.spawn_low "low-command", Event.usleep 30] ∧
    is_spawn_request (Event.spawn_low "low-command") = true := by
  decide!

/-- C10, amended.  In a tick in which the low threshold fires and a low-level
command is configured, when the status re-read after the 5 second wait is
readable and is neither `DISCHARGING` nor `NOT_CHARGING`, the tick waits 5
seconds and emits no spawn request at all.  In any tick, when the status
re-read after the 30 second wait is readable and is neither `DISCHARGING` nor
`NOT_CHARGING`, no spawn request of the critical-level command is emitted. -/
theorem C10_spawn_abandoned_when_no_longer_discharging (cfg : configuration)
    (inp : TickInput) (s0 : State) :
    ((∃ q u, Event.notify LOW_LEVEL q u ∈ (update_tray_icon_status cfg inp s0).2) →
      cfg.command_low_level ≠ none →
      (∃ st, get_battery_status inp.status_low = some st
        ∧ st ≠ DISCHARGING ∧ st ≠ NOT_CHARGING) →
      Event.usleep 5 ∈ (update_tray_icon_status cfg inp s0).2 ∧
      ∀ e ∈ (update_tray_icon_status cfg inp s0).2, is_spawn_request e = false) ∧
    ((∃ st, get_battery_status inp.status_critical = some st
        ∧ st ≠ DISCHARGING ∧ st ≠ NOT_CHARGING) →
      ∀ command, Event.spawn_critical command ∉ (update_tray_icon_status cfg inp s0).2) := by
  constructor
  · rintro ⟨q, u, hm⟩ hcmd ⟨st', hst', h1, h2⟩
    have hnl := no_longer_discharging_of_status _ st' hst' h1 h2
    obtain ⟨command, hc⟩ := Option.ne_none_iff_exists'.mp hcmd
    unfold update_tray_icon_status at hm ⊢
    rcases checks_shape cfg inp s0 with ⟨ha, hall⟩ | ⟨st, p, t, s, hfam, h⟩
    · simp only [ha, Bool.false_eq_true, if_false] at hm
      have := (hall _ hm).2.1
      simp [is_low_notification] at this
    · rw [h] at hm ⊢
      simp only [if_true] at hm ⊢
      rcases List.mem_append.mp hm with hm | hm
      · have hfire := ((mem_notify_low_discharging_checks cfg st p t q u s hfam).mp hm).1
        have hsp : (discharging_checks cfg st p t s).1.spawn_command_low = true := by
          rw [discharging_checks_spawn_command_low]
          rcases hfire with ⟨h | h, hle⟩
          · simp [h, hle]
          · simp [h, hle]
        rw [spawn_commands_low_abandoned cfg inp _ command hsp hc hnl]
        refine ⟨by simp, ?_⟩
        intro e he
        rcases List.mem_append.mp he with he | he
        · exact discharging_checks_no_spawn cfg st p t s e he
        · simp only [List.mem_singleton] at he
          subst he
          rfl
      · exact absurd hm (spawn_commands_no_notify cfg inp _ _ _ _)
  · rintro ⟨st', hst', h1, h2⟩ command hm
    have hnl := no_longer_discharging_of_status _ st' hst' h1 h2
    unfold update_tray_icon_status at hm
    simp only at hm
    split_ifs at hm
    · rcases List.mem_append.mp hm with hm | hm
      · have := checks_no_spawn cfg inp s0 _ hm
        simp [is_spawn_request] at this
      · exact spawn_commands_critical_abandoned cfg inp _ hnl command hm
    · have := checks_no_spawn cfg inp s0 _ hm
      simp [is_spawn_request] at this

/-- C10, amended, on `plugged_in_tick`: both thresholds fire at 4 percent, both
re-reads give `Charging`, and the tick emits no spawn request. -/
theorem C10_spawn_abandoned_when_no_longer_discharging_witness :
    (∃ q u, Event.notify LOW_LEVEL q u
      ∈ (update_tray_icon_status default_configuration plugged_in_tick State.initial).2) ∧
    default_configuration.command_low_level ≠ none ∧
    get_battery_status plugged_in_tick.status_low = some CHARGING ∧
    get_battery_status plugged_in_tick.status_critical = some CHARGING ∧
    Event.usleep 5
      ∈ (update_tray_icon_status default_configuration plugged_in_tick State.initial).2 ∧
    (∀ e ∈ (update_tray_icon_status default_configuration plugged_in_tick State.initial).2,
      is_spawn_request e = false) ∧
    (∀ command, Event.spawn_critical command
      ∉ (update_tray_icon_status default_configuration plugged_in_tick State.initial).2) :=
  ⟨⟨4, 12, by decide!⟩, by decide, by decide!, by decide!,
    ((C10_spawn_abandoned_when_no_longer_discharging default_configuration plugged_in_tick
      State.initial).1 ⟨4, 12, by decide!⟩ (by decide)
      ⟨CHARGING, by decide!, by decide, by decide⟩).1,
    ((C10_spawn_abandoned_when_no_longer_discharging default_configuration plugged_in_tick
      State.initial).1 ⟨4, 12, by decide!⟩ (by decide)
      ⟨CHARGING, by decide!, by decide, by decide⟩).2,
    (C10_spawn_abandoned_when_no_longer_discharging default_configuration plugged_in_tick
      State.initial).2 ⟨CHARGING, by decide!, by decide, by decide⟩⟩

/-! ## options, attribute reader, status inference, ring bounds -/

/-- C12.  Whatever integers the command line leaves in `update_interval`,
`low_level` and `critical_level`, the validation at the end of `get_options`
yields `0 ≤ critical_level ≤ low_level ≤ 100` and `update_interval > 0`; and
whenever `get_options` returns a positive value, which is the only case in
which `main` goes on to the first tick, its configuration has been validated. -/
theorem C12_options_validated (o : options_outcome) (c : configuration) :
    (0 ≤ (get_options_validation c).critical_level ∧
      (get_options_validation c).critical_level ≤ (get_options_validation c).low_level ∧
      (get_options_validation c).low_level ≤ 100 ∧
      0 < (get_options_validation c).update_interval) ∧
    (0 < (get_options o c).1 → (get_options o c).2 = get_options_validation c) := by
  constructor
  · unfold get_options_validation
    simp only [DEFAULT_UPDATE_INTERVAL, DEFAULT_LOW_LEVEL, DEFAULT_CRITICAL_LEVEL]
    split_ifs <;> simp_all
  · unfold get_options
    split_ifs <;> simp

/-- C12 on the command line `-u 0 -l 10 -r 50`. -/
theorem C12_options_validated_witness :
    (0 : Int) < (get_options ⟨true, false, false, false⟩ ⟨0, 10, 50, none, none⟩).1 ∧
    (get_options ⟨true, false, false, false⟩ ⟨0, 10, 50, none, none⟩).2.update_interval = 5 ∧
    (get_options ⟨true, false, false, false⟩ ⟨0, 10, 50, none, none⟩).2.low_level = 20 ∧
    (get_options ⟨true, false, false, false⟩ ⟨0, 10, 50, none, none⟩).2.critical_level = 5 ∧
    (get_options ⟨true, false, false, false⟩ ⟨0, 10, 50, none, none⟩).2
      = get_options_validation ⟨0, 10, 50, none, none⟩ :=
  ⟨by decide, by decide, by decide, by decide,
    (C12_options_validated ⟨true, false, false, false⟩ ⟨0, 10, 50, none, none⟩).2 (by decide)⟩

/-- C13 as stated fails.  The number -5, parsed without error, has a magnitude
of at least 0.01 and `get_sysattr_double` reports failure. -/
theorem C13_negative_reading_is_failure :
    ¬ (|(-5 : ℚ)| < 1 / 100) ∧ (-5 : ℚ) ≤ -(1 / 100) ∧
    get_sysattr_double (some ⟨0, -5⟩) = none := by
  decide!

/-- C13, amended.  For an attribute file read and parsed without error to the
number `v`, `get_sysattr_double` reports failure exactly when `v < 0.01`, the
sign included: every `v ≤ -0.01` is a failure, and every `v ≥ 0.01` is
returned. -/
theorem C13_failure_iff_below_threshold (r : sysattr_read) (h : r.errno = 0) :
    (get_sysattr_double (some r) = none ↔ r.double_value < 1 / 100) ∧
    (r.double_value ≤ -(1 / 100) → get_sysattr_double (some r) = none) ∧
    (1 / 100 ≤ r.double_value → get_sysattr_double (some r) = some r.double_value) := by
  unfold get_sysattr_double
  simp only [h, ne_eq, not_true_eq_false, false_or]
  refine ⟨?_, ?_, ?_⟩
  · split_ifs with hv
    · exact ⟨fun _ => hv, fun _ => rfl⟩
    · exact ⟨fun hc => by simp at hc, fun hc => absurd hc hv⟩
  · intro hneg
    have hv : r.double_value < 1 / 100 := by linarith
    rw [if_pos hv]
  · intro hge
    have hv : ¬ r.double_value < 1 / 100 := not_lt.mpr hge
    rw [if_neg hv]

/-- C13, amended, on the readings 50000 and -5. -/
theorem C13_failure_iff_below_threshold_witness :
    ((get_sysattr_double (some ⟨0, 50000⟩) = none ↔ (50000 : ℚ) < 1 / 100) ∧
      ((50000 : ℚ) ≤ -(1 / 100) → get_sysattr_double (some ⟨0, 50000⟩) = none) ∧
      ((1 : ℚ) / 100 ≤ 50000 →
        get_sysattr_double (some ⟨0, 50000⟩) = some (50000 : ℚ))) ∧
    get_sysattr_double (some ⟨0, 50000⟩) = some (50000 : ℚ) :=
  ⟨C13_failure_iff_below_threshold ⟨0, 50000⟩ rfl,
    (C13_failure_iff_below_threshold ⟨0, 50000⟩ rfl).2.2 (by norm_num)⟩

/-- C17.  In a tick whose battery is present and whose `status` attribute
parses to `UNKNOWN`, whatever the filters hold: when `get_ac_online` succeeds
and reports online, the status used by the `switch` is `CHARGED` if the
percentage is computable and at least 99 and `CHARGING` if it is below 99 or
not computable; when it succeeds and reports offline the status is
`DISCHARGING`; when it fails the status stays `UNKNOWN`. -/
theorem C17_unknown_status_inferred_from_ac (inp : TickInput) (fs : Filters)
    (hpresent : get_battery_present inp.battery_path inp.present = some true)
    (hraw : get_battery_status inp.status = some UNKNOWN) :
    (get_ac_online inp.ac_path inp.online = some true →
      ((∃ p, (get_battery_charge_no_time inp.probe fs).2 = some p ∧ 99 ≤ p) →
        (read_battery_status inp fs).2 = some CHARGED) ∧
      ((∀ p, (get_battery_charge_no_time inp.probe fs).2 = some p → p < 99) →
        (read_battery_status inp fs).2 = some CHARGING)) ∧
    (get_ac_online inp.ac_path inp.online = some false →
      (read_battery_status inp fs).2 = some DISCHARGING) ∧
    (get_ac_online inp.ac_path inp.online = none →
      (read_battery_status inp fs).2 = some UNKNOWN) ∧
    tick_status inp = (read_battery_status inp fs).2 := by
  have hts : tick_status inp = (read_battery_status inp fs).2 := by
    unfold tick_status
    cases hb : inp.battery_path with
    | none =>
      rw [hb] at hpresent
      simp [get_battery_present] at hpresent
    | some bp => exact read_battery_status_snd inp _ _
  refine ⟨?_, ?_, ?_, hts⟩
  · intro hac
    unfold read_battery_status
    simp only [hpresent, hraw, hac, if_true, Bool.true_eq_false, if_false]
    rcases hp : get_battery_charge_no_time inp.probe fs with ⟨fs1, o⟩
    cases o with
    | none =>
      refine ⟨?_, fun _ => rfl⟩
      rintro ⟨p, h, _⟩
      simp at h
    | some q =>
      simp only
      constructor
      · rintro ⟨p, h, hge⟩
        simp only [Option.some.injEq] at h
        subst h
        simp [hge]
      · intro h
        have hlt := h q rfl
        have : ¬ q ≥ 99 := by omega
        simp [this]
  · intro hac
    unfold read_battery_status
    simp [hpresent, hraw, hac]
  · intro hac
    unfold read_battery_status
    simp [hpresent, hraw, hac]

/-- C17 on `unknown_status_tick`: AC online at 99 percent gives `CHARGED`. -/
theorem C17_unknown_status_inferred_from_ac_witness :
    get_battery_present unknown_status_tick.battery_path unknown_status_tick.present
      = some true ∧
    get_battery_status unknown_status_tick.status = some UNKNOWN ∧
    get_ac_online unknown_status_tick.ac_path unknown_status_tick.online = some true ∧
    (get_battery_charge_no_time unknown_status_tick.probe State.initial.filters).2 = some 99 ∧
    (read_battery_status unknown_status_tick State.initial.filters).2 = some CHARGED :=
  ⟨by decide, by decide, by decide, by decide!,
    ((C17_unknown_status_inferred_from_ac unknown_status_tick State.initial.filters
      (by decide) (by decide)).1 (by decide)).1 ⟨99, by decide!, by decide⟩⟩

theorem filter_step_bounds (f : filter) (op : FilterOp)
    (h : f.num_samples ≤ MAX_SAMPLES ∧ f.next_sample < MAX_SAMPLES) :
    (filter_step f op).num_samples ≤ MAX_SAMPLES ∧
    (filter_step f op).next_sample < MAX_SAMPLES := by
  cases op with
  | append value now =>
    simp only [filter_step, filter_append, MAX_SAMPLES] at h ⊢
    omega
  | reset =>
    simp only [filter_step, filter_reset, MAX_SAMPLES]
    omega

theorem filter_run_bounds (ops : List FilterOp) :
    ∀ f : filter, f.num_samples ≤ MAX_SAMPLES ∧ f.next_sample < MAX_SAMPLES →
    (filter_run f ops).num_samples ≤ MAX_SAMPLES ∧
    (filter_run f ops).next_sample < MAX_SAMPLES := by
  induction ops with
  | nil =>
    intro f h
    exact h
  | cons op rest ih =>
    intro f h
    exact ih _ (filter_step_bounds f op h)

/-- C20.  The bounds `num_samples ≤ MAX_SAMPLES` and `next_sample < MAX_SAMPLES`
hold for the zero-initialised filter and are preserved by `filter_append` and
by the reset `reset_battery_current_rate` makes of each of its four filters
(both fields are natural numbers, so neither is negative).  Hence after any
sequence of appends and resets the slot written by `filter_append`, every slot
read by `filter_get_mean` and the two slots read by `filter_get_rate` are below
`MAX_SAMPLES`, and the subtraction in `filter_get_rate` stays non-negative. -/
theorem C20_ring_indices_within_bounds :
    (∀ (f : filter) (value : ℚ) (now : timespec),
      f.num_samples ≤ MAX_SAMPLES ∧ f.next_sample < MAX_SAMPLES →
      (filter_append f value now).num_samples ≤ MAX_SAMPLES ∧
      (filter_append f value now).next_sample < MAX_SAMPLES) ∧
    (∀ fs : Filters,
      reset_battery_current_rate fs
        = ⟨filter_reset fs.energy_filter, filter_reset fs.charge_filter,
            filter_reset fs.power_filter, filter_reset fs.current_filter⟩ ∧
      ∀ f : filter, (filter_reset f).num_samples = 0 ∧ (filter_reset f).next_sample = 0) ∧
    (∀ ops : List FilterOp,
      (filter_run filter_zero ops).num_samples ≤ MAX_SAMPLES ∧
      (filter_run filter_zero ops).next_sample < MAX_SAMPLES ∧
      (∀ i, i < (filter_run filter_zero ops).num_samples → i < MAX_SAMPLES) ∧
      (filter_run filter_zero ops).num_samples
        ≤ (filter_run filter_zero ops).next_sample + MAX_SAMPLES ∧
      ((filter_run filter_zero ops).next_sample + MAX_SAMPLES
        - (filter_run filter_zero ops).num_samples) % MAX_SAMPLES < MAX_SAMPLES ∧
      ((filter_run filter_zero ops).next_sample + MAX_SAMPLES - 1) % MAX_SAMPLES
        < MAX_SAMPLES) := by
  refine ⟨?_, ?_, ?_⟩
  · intro f value now h
    exact filter_step_bounds f (FilterOp.append value now) h
  · intro fs
    exact ⟨rfl, fun f => ⟨rfl, rfl⟩⟩
  · intro ops
    obtain ⟨h1, h2⟩ := filter_run_bounds ops filter_zero
      (by simp [filter_zero, MAX_SAMPLES])
    simp only [MAX_SAMPLES] at h1 h2 ⊢
    refine ⟨h1, h2, ?_, ?_, ?_, ?_⟩
    · intro i hi
      omega
    · omega
    · omega
    · omega

/-! ## estimates, failed reads, AC only -/

theorem filter_get_rate_short_span (f : filter)
    (h : f.num_samples < 2 ∨ double_lt (filter_span f) (gdouble.finite 60) = true) :
    filter_get_rate f = gdouble.finite 0 := by
  unfold filter_get_rate
  unfold filter_span at h
  rcases h with h | h
  · simp [h]
  · simp only [h, if_true]
    split_ifs <;> rfl

theorem get_battery_current_rate_unavailable (use_charge : Bool) (r : Readings) (fs : Filters)
    (hattr : get_sysattr_double (rate_attribute use_charge r) = none)
    (hfilter : (capacity_filter use_charge fs).num_samples < 2
      ∨ double_lt (filter_span (capacity_filter use_charge fs)) (gdouble.finite 60) = true) :
    get_battery_current_rate use_charge r fs = (fs, none) := by
  have h0 := filter_get_rate_short_span _ hfilter
  have hz : double_lt (double_fabs (gdouble.finite 0)) (round_double (1 / 100)) = true := by
    decide!
  unfold get_battery_current_rate
  cases use_charge with
  | false =>
    simp only [rate_attribute, capacity_filter, if_true] at hattr h0
    simp only [hattr, h0, hz, if_true]
  | true =>
    simp only [rate_attribute, capacity_filter, Bool.true_eq_false, if_false] at hattr h0
    simp only [hattr, h0, hz, if_true, Bool.true_eq_false, if_false]

/-- C14.  When `get_battery_charge` has the full and the remaining capacity,
the rate attribute (`power_now` or `current_now`) is unavailable and the
matching capacity filter, as it stands after the append of this call, holds
fewer than 2 samples or spans under 60 seconds, then `get_battery_current_rate`
fails, `get_battery_charge` succeeds with the time -1, and its percentage is
the one it computes from the same capacities when a rate is available. -/
theorem C14_no_rate_gives_no_estimate (remaining : Bool) (r : Readings) (fs fs1 : Filters)
    (use_charge : Bool) (full rem : gdouble)
    (hcap : battery_capacities r fs = (fs1, some (use_charge, full, rem)))
    (hattr : get_sysattr_double (rate_attribute use_charge r) = none)
    (hfilter : (capacity_filter use_charge fs1).num_samples < 2
      ∨ double_lt (filter_span (capacity_filter use_charge fs1)) (gdouble.finite 60) = true) :
    get_battery_current_rate use_charge r fs1 = (fs1, none) ∧
    get_battery_charge remaining r fs = (fs1, some (charge_percentage rem full, -1)) ∧
    ∀ (remaining' : Bool) (r' : Readings) (fs' fs1' fs2' : Filters) (use_charge' : Bool)
      (rate : gdouble),
      battery_capacities r' fs' = (fs1', some (use_charge', full, rem)) →
      get_battery_current_rate use_charge' r' fs1' = (fs2', some rate) →
      ∃ time, get_battery_charge remaining' r' fs'
        = (fs2', some (charge_percentage rem full, time)) := by
  have hrate := get_battery_current_rate_unavailable use_charge r fs1 hattr hfilter
  refine ⟨hrate, ?_, ?_⟩
  · unfold get_battery_charge
    simp only [hcap, hrate]
  · intro remaining' r' fs' fs1' fs2' use_charge' rate hcap' hrate'
    exact ⟨_, get_battery_charge_time remaining' r' fs' fs1' fs2' use_charge' full rem rate
      hcap' hrate'⟩

/-- C14 on the scenario of the specification: no `power_now`, and an energy
filter that after this call holds 2 samples spanning 30 seconds. -/
theorem C14_no_rate_gives_no_estimate_witness :
    (capacity_filter false (battery_capacities no_rate_readings one_sample_filters).1).num_samples
      = 2 ∧
    filter_span (capacity_filter false (battery_capacities no_rate_readings
      one_sample_filters).1) = gdouble.finite 30 ∧
    (get_battery_current_rate false no_rate_readings
      (battery_capacities no_rate_readings one_sample_filters).1).2 = none ∧
    (get_battery_charge true no_rate_readings one_sample_filters).2 = some (20, -1) ∧
    (get_battery_charge true (energy_readings 50000 10000 10000 30) one_sample_filters).2
      = some (20, 60) :=
  ⟨by decide!, by decide!,
    congrArg Prod.snd (C14_no_rate_gives_no_estimate true no_rate_readings one_sample_filters
      (battery_capacities no_rate_readings one_sample_filters).1 false (gdouble.finite 50000)
      (gdouble.finite 10000) (Prod.ext rfl (by decide!)) (by decide!) (Or.inr (by decide!))).1,
    by decide!, by decide!⟩

theorem tick_percentage_none_any (inp : TickInput) (h : tick_percentage inp = none)
    (remaining : Bool) (fs : Filters) :
    get_battery_charge remaining inp.main fs = (fs, none) := by
  unfold tick_percentage at h
  have h2 := get_battery_charge_percentage_snd remaining true inp.main fs State.initial.filters
  rw [h] at h2
  have hc : (battery_capacities inp.main fs).2 = none := by
    rcases hb : battery_capacities inp.main fs with ⟨g, o⟩
    cases o with
    | none => rfl
    | some c =>
      obtain ⟨u, full, rem⟩ := c
      obtain ⟨f2, t, e⟩ := get_battery_charge_percentage remaining inp.main fs g u full rem hb
      rw [e] at h2
      simp at h2
  have hfs : (battery_capacities inp.main fs).1 = fs := by
    unfold battery_capacities at hc ⊢
    cases hf : get_battery_full_capacity inp.main with
    | none => rfl
    | some c =>
      obtain ⟨u, full⟩ := c
      rw [hf] at hc
      simp only at hc ⊢
      unfold get_battery_remaining_capacity at hc ⊢
      cases u with
      | false =>
        simp only [if_true] at hc ⊢
        cases hn : get_sysattr_double inp.main.energy_now with
        | some v =>
          rw [hn] at hc
          simp at hc
        | none =>
          simp only
          cases get_battery_remaining_capacity_pct inp.main <;> rfl
      | true =>
        simp only [Bool.true_eq_false, if_false] at hc ⊢
        cases hn : get_sysattr_double inp.main.charge_now with
        | some v =>
          rw [hn] at hc
          simp at hc
        | none =>
          simp only
          cases get_battery_remaining_capacity_pct inp.main <;> rfl
  unfold get_battery_charge
  rcases hb : battery_capacities inp.main fs with ⟨g, o⟩
  rw [hb] at hc hfs
  simp only at hc hfs
  subst hc
  subst hfs
  rfl

/-- C16 as stated fails.  In `low_notified_state` the previous status is
`DISCHARGING` and the energy filter holds one sample; a tick without device
change whose status is `Charging` and whose capacity reads fail leaves the
count of the energy filter at 0. -/
theorem C16_failed_read_resets_filters :
    charging_unreadable_tick.changed_power_supplies = false ∧
    tick_status charging_unreadable_tick = some CHARGING ∧
    (get_battery_charge false charging_unreadable_tick.main
      (reset_battery_current_rate low_notified_state.filters)).2 = none ∧
    low_notified_state.filters.energy_filter.num_samples = 1 ∧
    low_notified_state.filters.energy_filter.next_sample = 1 ∧
    (update_tray_icon_status default_configuration charging_unreadable_tick
      low_notified_state).1.filters.energy_filter.num_samples = 0 ∧
    (update_tray_icon_status default_configuration charging_unreadable_tick
      low_notified_state).1.filters.energy_filter.next_sample = 0 := by
  decide!

/-- C16, amended.  A tick without device change whose status is `CHARGING`,
`DISCHARGING` or `NOT_CHARGING` and whose capacity reads fail emits nothing
and leaves `old_battery_status` and the five flags as they were.  The filters
are those left by the status determination, reset by
`reset_battery_current_rate` unless the previous status is already `CHARGING`
(for a charging tick) or `DISCHARGING` (for the discharging family); the
status determination leaves them alone unless the raw status is `UNKNOWN`.  So
the whole state is unchanged when the previous status already matches and the
raw status is not `UNKNOWN`. -/
theorem C16_failed_read_keeps_flags (cfg : configuration) (inp : TickInput) (s0 : State)
    (st : Int) (hch : inp.changed_power_supplies = false)
    (hst : tick_status inp = some st)
    (hfam : st = CHARGING ∨ st = DISCHARGING ∨ st = NOT_CHARGING)
    (hfail : tick_percentage inp = none) :
    (update_tray_icon_status cfg inp s0).2 = [] ∧
    (update_tray_icon_status cfg inp s0).1
      = { s0 with
          filters :=
            if s0.old_battery_status ≠ (if st = CHARGING then CHARGING else DISCHARGING) then
              reset_battery_current_rate (read_battery_status inp s0.filters).1
            else (read_battery_status inp s0.filters).1 } ∧
    (get_battery_status inp.status ≠ some UNKNOWN →
      (read_battery_status inp s0.filters).1 = s0.filters) ∧
    (s0.old_battery_status = (if st = CHARGING then CHARGING else DISCHARGING) →
      get_battery_status inp.status ≠ some UNKNOWN →
      (update_tray_icon_status cfg inp s0).1 = s0) := by
  obtain ⟨⟨bp, hbp⟩, hrs⟩ := tick_status_some inp st hst
  obtain ⟨fs1, h1⟩ := hrs s0.filters
  have hraw : get_battery_status inp.status ≠ some UNKNOWN →
      (read_battery_status inp s0.filters).1 = s0.filters := by
    intro hne
    unfold read_battery_status
    cases get_battery_present inp.battery_path inp.present with
    | none => rfl
    | some present =>
      simp only
      split
      · rfl
      · cases hs : get_battery_status inp.status with
        | none => rfl
        | some raw =>
          have hr : raw ≠ UNKNOWN := fun h => hne (by rw [hs, h])
          simp [hr]
  have hmain : (update_tray_icon_status cfg inp s0).2 = [] ∧
      (update_tray_icon_status cfg inp s0).1
        = { s0 with
            filters :=
              if s0.old_battery_status ≠ (if st = CHARGING then CHARGING else DISCHARGING) then
                reset_battery_current_rate (read_battery_status inp s0.filters).1
              else (read_battery_status inp s0.filters).1 } := by
    unfold update_tray_icon_status update_tray_icon_status_checks
    simp only [hch, Bool.false_eq_true, if_false, hbp, h1]
    rcases hfam with h | h | h
    · subst h
      have e1 : ¬ (CHARGING = MISSING) := by decide
      have e2 : ¬ (CHARGING = UNKNOWN) := by decide
      have e3 : ¬ (CHARGING = CHARGED) := by decide
      simp only [e1, e2, e3, if_true, if_false]
      by_cases hold : s0.old_battery_status = CHARGING
      · simp [hold, tick_percentage_none_any inp hfail]
      · simp [hold, tick_percentage_none_any inp hfail]
    · subst h
      have e1 : ¬ (DISCHARGING = MISSING) := by decide
      have e2 : ¬ (DISCHARGING = UNKNOWN) := by decide
      have e3 : ¬ (DISCHARGING = CHARGED) := by decide
      have e4 : ¬ (DISCHARGING = CHARGING) := by decide
      simp only [e1, e2, e3, e4, true_or, if_true, if_false]
      by_cases hold : s0.old_battery_status = DISCHARGING
      · simp [hold, tick_percentage_none_any inp hfail]
      · simp [hold, tick_percentage_none_any inp hfail]
    · subst h
      have e1 : ¬ (NOT_CHARGING = MISSING) := by decide
      have e2 : ¬ (NOT_CHARGING = UNKNOWN) := by decide
      have e3 : ¬ (NOT_CHARGING = CHARGED) := by decide
      have e4 : ¬ (NOT_CHARGING = CHARGING) := by decide
      simp only [e1, e2, e3, e4, or_true, if_true, if_false]
      by_cases hold : s0.old_battery_status = DISCHARGING
      · simp [hold, tick_percentage_none_any inp hfail]
      · simp [hold, tick_percentage_none_any inp hfail]
  refine ⟨hmain.1, hmain.2, hraw, ?_⟩
  intro hold hne
  rw [hmain.2, hraw hne, if_neg (not_not.mpr hold)]

/-- C16, amended, on `charging_unreadable_tick` in `low_notified_state`: the
flags and the previous status stay, the filters are reset. -/
theorem C16_failed_read_keeps_flags_witness :
    charging_unreadable_tick.changed_power_supplies = false ∧
    tick_status charging_unreadable_tick = some CHARGING ∧
    tick_percentage charging_unreadable_tick = none ∧
    low_notified_state.old_battery_status ≠ CHARGING ∧
    (update_tray_icon_status default_configuration charging_unreadable_tick
      low_notified_state).2 = [] ∧
    (update_tray_icon_status default_configuration charging_unreadable_tick
      low_notified_state).1
      = { low_notified_state with
          filters :=
            if low_notified_state.old_battery_status
                ≠ (if CHARGING = CHARGING then CHARGING else DISCHARGING) then
              reset_battery_current_rate
                (read_battery_status charging_unreadable_tick low_notified_state.filters).1
            else (read_battery_status charging_unreadable_tick low_notified_state.filters).1 } :=
  ⟨by decide, by decide!, by decide!, by decide!,
    (C16_failed_read_keeps_flags default_configuration charging_unreadable_tick
      low_notified_state CHARGING (by decide) (by decide!) (Or.inl rfl) (by decide!)).1,
    (C16_failed_read_keeps_flags default_configuration charging_unreadable_tick
      low_notified_state CHARGING (by decide) (by decide!) (Or.inl rfl) (by decide!)).2.1⟩

theorem tick_ac_only (cfg : configuration) (inp : TickInput) (s : State)
    (hch : inp.changed_power_supplies = false) (hbp : inp.battery_path = none) :
    update_tray_icon_status cfg inp s
      = ({ s with ac_only := true },
          if s.ac_only = false then [Event.notify_ac_only, Event.tray_ac_only] else []) := by
  unfold update_tray_icon_status update_tray_icon_status_checks
  simp only [hch, Bool.false_eq_true, if_false, hbp]
  cases ha : s.ac_only with
  | false => simp
  | true =>
    obtain ⟨a, b, c, d, e, f, g⟩ := s
    simp only at ha
    subst ha
    simp

theorem run_ac_only_notified (cfg : configuration) (run : List TickInput) :
    ∀ s : State,
    (∀ i ∈ run, i.changed_power_supplies = false ∧ i.battery_path = none) →
    s.ac_only = true → run_ticks cfg run s = (s, []) := by
  induction run with
  | nil =>
    intro s _ _
    rfl
  | cons inp rest ih =>
    intro s h ha
    obtain ⟨hch, hbp⟩ := h inp (List.mem_cons_self _ _)
    have ht : update_tray_icon_status cfg inp s = (s, []) := by
      rw [tick_ac_only cfg inp s hch hbp]
      obtain ⟨a, b, c, d, e, f, g⟩ := s
      simp only at ha
      subst ha
      simp
    rw [run_ticks_cons, ht]
    simp only [List.nil_append]
    exact ih s (fun i hi => h i (List.mem_cons_of_mem _ hi)) ha

/-- C18 as stated fails.  The device-change tick `battery_gone_tick` finds the
battery path gone, emits the AC-only notification and the presentation update
and sets `ac_only`.  The two ticks that follow form a run with the battery path
absent and without device change; its first tick emits nothing, and neither
does the second. -/
theorem C18_run_after_removal_emits_none :
    battery_gone_tick.changed_power_supplies = true ∧
    battery_gone_tick.battery_path = none ∧
    (update_tray_icon_status default_configuration battery_gone_tick State.initial).2
      = [Event.notify_ac_only, Event.tray_ac_only] ∧
    battery_gone_state.ac_only = true ∧
    (∀ i ∈ ac_only_run, i.changed_power_supplies = false ∧ i.battery_path = none) ∧
    (update_tray_icon_status default_configuration ac_only_tick battery_gone_state).2 = [] ∧
    (run_ticks default_configuration ac_only_run battery_gone_state).2 = [] := by
  decide!

/-- C18, amended.  In a run of consecutive ticks without battery path and
without device change, the first tick sets `ac_only` and emits the AC-only
notification and tray update when `ac_only` was clear before it, and nothing
when `ac_only` was already set; every later tick of the run emits nothing and
leaves the whole state, the four filters included, as it was, so the rest of
the run emits nothing. -/
theorem C18_ac_only_notified_once (cfg : configuration) (s : State) (inp : TickInput)
    (rest : List TickInput)
    (hrun : ∀ i ∈ inp :: rest, i.changed_power_supplies = false ∧ i.battery_path = none) :
    update_tray_icon_status cfg inp s
      = ({ s with ac_only := true },
          if s.ac_only = false then [Event.notify_ac_only, Event.tray_ac_only] else []) ∧
    (∀ (pre : List TickInput) (t : TickInput) (post : List TickInput),
      rest = pre ++ t :: post →
      update_tray_icon_status cfg t
          (run_ticks cfg pre (update_tray_icon_status cfg inp s).1).1
        = ((run_ticks cfg pre (update_tray_icon_status cfg inp s).1).1, [])) ∧
    run_ticks cfg rest (update_tray_icon_status cfg inp s).1
      = ((update_tray_icon_status cfg inp s).1, []) := by
  obtain ⟨hch, hbp⟩ := hrun inp (List.mem_cons_self _ _)
  have hrest : ∀ i ∈ rest, i.changed_power_supplies = false ∧ i.battery_path = none :=
    fun i hi => hrun i (List.mem_cons_of_mem _ hi)
  have h1 := tick_ac_only cfg inp s hch hbp
  have ha : (update_tray_icon_status cfg inp s).1.ac_only = true := by
    rw [h1]
  refine ⟨h1, ?_, run_ac_only_notified cfg rest _ hrest ha⟩
  intro pre t post hsplit
  have hpre : ∀ i ∈ pre, i.changed_power_supplies = false ∧ i.battery_path = none := by
    intro i hi
    apply hrest
    rw [hsplit]
    exact List.mem_append_left _ hi
  have ht : t.changed_power_supplies = false ∧ t.battery_path = none := by
    apply hrest
    rw [hsplit]
    exact List.mem_append_right _ (List.mem_cons_self _ _)
  rw [run_ac_only_notified cfg pre _ hpre ha]
  have := run_ac_only_notified cfg [t] _
    (fun i hi => by
      rw [List.mem_singleton] at hi
      rw [hi]
      exact ht) ha
  rw [run_ticks_cons] at this
  simp only [run_ticks, List.append_nil] at this
  exact this

/-- C18, amended, on three ticks of `ac_only_tick` from the initial state. -/
theorem C18_ac_only_notified_once_witness :
    (∀ i ∈ ac_only_tick :: [ac_only_tick, ac_only_tick],
      i.changed_power_supplies = false ∧ i.battery_path = none) ∧
    State.initial.ac_only = false ∧
    (run_ticks default_configuration (ac_only_tick :: [ac_only_tick, ac_only_tick])
      State.initial).2 = [Event.notify_ac_only, Event.tray_ac_only] ∧
    update_tray_icon_status default_configuration ac_only_tick State.initial
      = ({ State.initial with ac_only := true },
          if State.initial.ac_only = false then [Event.notify_ac_only, Event.tray_ac_only]
          else []) ∧
    run_ticks default_configuration [ac_only_tick, ac_only_tick]
        (update_tray_icon_status default_configuration ac_only_tick State.initial).1
      = ((update_tray_icon_status default_configuration ac_only_tick State.initial).1, []) :=
  ⟨by decide, by decide, by decide!,
    (C18_ac_only_notified_once default_configuration State.initial ac_only_tick
      [ac_only_tick, ac_only_tick] (by decide)).1,
    (C18_ac_only_notified_once default_configuration State.initial ac_only_tick
      [ac_only_tick, ac_only_tick] (by decide)).2.2⟩

/-- C19, at the failing input.  From the initial state the tick
`plugged_in_tick` fires the low and the critical threshold at 4 percent with
both commands configured; the status re-read after the 5 second wait is
`Charging`, the function returns, and `spawn_command_critical` is still set
when the tick ends.  The next tick, `deep_tick`, in which no threshold fires,
then requests the critical-level command. -/
theorem C19_pending_critical_spawn_survives_the_tick :
    (update_tray_icon_status default_configuration plugged_in_tick State.initial).2
      = [Event.notify DISCHARGING 4 12, Event.notify LOW_LEVEL 4 12,
         Event.notify CRITICAL_LEVEL 4 12, Event.tray CRITICAL_LEVEL DISCHARGING 4 12,
         Event.usleep 5] ∧
    (update_tray_icon_status default_configuration plugged_in_tick
      State.initial).1.spawn_command_low = false ∧
    (update_tray_icon_status default_configuration plugged_in_tick
      State.initial).1.spawn_command_critical = true ∧
    (update_tray_icon_status default_configuration deep_tick
      (update_tray_icon_status default_configuration plugged_in_tick State.initial).1).2
      = [Event.tray DISCHARGING DISCHARGING 4 12, Event.usleep 30,
         Event.spawn_critical "critical-command"] := by
  decide!

/-! ## flags between ticks -/

theorem HANDLE_BATTERY_STATUS_flags (st PCT TIM : Int) (s : State) :
    (HANDLE_BATTERY_STATUS st PCT TIM s).1.battery_low = s.battery_low ∧
    (HANDLE_BATTERY_STATUS st PCT TIM s).1.battery_critical = s.battery_critical ∧
    (HANDLE_BATTERY_STATUS st PCT TIM s).1.spawn_command_low = s.spawn_command_low ∧
    (HANDLE_BATTERY_STATUS st PCT TIM s).1.spawn_command_critical
      = s.spawn_command_critical := by
  unfold HANDLE_BATTERY_STATUS
  split_ifs <;> exact ⟨rfl, rfl, rfl, rfl⟩

/-- Every tick either stops before the spawn code, with the four flags as the
device-change reset left them and a previous status that is unchanged or one
of `MISSING`, `UNKNOWN`, `CHARGED`, `CHARGING`, or reaches the spawn code from
the checks of lines 967-999 run on the state left by the reset. -/
theorem checks_state_shape (cfg : configuration) (inp : TickInput) (s0 : State) :
    ((update_tray_icon_status_checks cfg inp s0).at_spawn = false ∧
      (update_tray_icon_status_checks cfg inp s0).s.battery_low
        = (if inp.changed_power_supplies = true then power_supplies_reset s0
            else s0).battery_low ∧
      (update_tray_icon_status_checks cfg inp s0).s.battery_critical
        = (if inp.changed_power_supplies = true then power_supplies_reset s0
            else s0).battery_critical ∧
      (update_tray_icon_status_checks cfg inp s0).s.spawn_command_low
        = (if inp.changed_power_supplies = true then power_supplies_reset s0
            else s0).spawn_command_low ∧
      (update_tray_icon_status_checks cfg inp s0).s.spawn_command_critical
        = (if inp.changed_power_supplies = true then power_supplies_reset s0
            else s0).spawn_command_critical ∧
      ((update_tray_icon_status_checks cfg inp s0).s.old_battery_status
          = (if inp.changed_power_supplies = true then power_supplies_reset s0
              else s0).old_battery_status ∨
        (update_tray_icon_status_checks cfg inp s0).s.old_battery_status = MISSING ∨
        (update_tray_icon_status_checks cfg inp s0).s.old_battery_status = UNKNOWN ∨
        (update_tray_icon_status_checks cfg inp s0).s.old_battery_status = CHARGED ∨
        (update_tray_icon_status_checks cfg inp s0).s.old_battery_status = CHARGING)) ∨
    ∃ st p t fs, (st = DISCHARGING ∨ st = NOT_CHARGING) ∧ tick_status inp = some st ∧
      update_tray_icon_status_checks cfg inp s0
        = ⟨(discharging_checks cfg st p t
              { (if inp.changed_power_supplies = true then power_supplies_reset s0 else s0) with
                filters := fs }).1,
            (discharging_checks cfg st p t
              { (if inp.changed_power_supplies = true then power_supplies_reset s0 else s0) with
                filters := fs }).2, true⟩ := by
  obtain ⟨s, hs⟩ : ∃ s, s = if inp.changed_power_supplies = true then power_supplies_reset s0
      else s0 := ⟨_, rfl⟩
  unfold update_tray_icon_status_checks
  simp only [← hs]
  cases hb : inp.battery_path with
  | none =>
    left
    simp only
    split_ifs
    · exact ⟨rfl, rfl, rfl, rfl, rfl, Or.inl rfl⟩
    · exact ⟨rfl, rfl, rfl, rfl, rfl, Or.inl rfl⟩
  | some bp =>
    simp only
    rcases hr : read_battery_status inp s.filters with ⟨fs, o⟩
    cases o with
    | none =>
      left
      exact ⟨rfl, rfl, rfl, rfl, rfl, Or.inl rfl⟩
    | some st =>
      simp only
      by_cases m1 : st = MISSING
      · subst m1
        left
        simp only [if_true]
        obtain ⟨a, b, c, d⟩ := HANDLE_BATTERY_STATUS_flags MISSING 0 (-1) { s with filters := fs }
        exact ⟨trivial, a, b, c, d, Or.inr (Or.inl (HANDLE_BATTERY_STATUS_old _ _ _ _))⟩
      · by_cases m2 : st = UNKNOWN
        · subst m2
          left
          simp only [m1, if_true, if_false]
          obtain ⟨a, b, c, d⟩ :=
            HANDLE_BATTERY_STATUS_flags UNKNOWN 0 (-1) { s with filters := fs }
          exact ⟨trivial, a, b, c, d,
            Or.inr (Or.inr (Or.inl (HANDLE_BATTERY_STATUS_old _ _ _ _)))⟩
        · by_cases m3 : st = CHARGED
          · subst m3
            left
            simp only [m1, m2, if_true, if_false]
            obtain ⟨a, b, c, d⟩ :=
              HANDLE_BATTERY_STATUS_flags CHARGED 100 (-1) { s with filters := fs }
            exact ⟨trivial, a, b, c, d,
              Or.inr (Or.inr (Or.inr (Or.inl (HANDLE_BATTERY_STATUS_old _ _ _ _))))⟩
          · by_cases m4 : st = CHARGING
            · subst m4
              left
              simp only [m1, m2, m3, if_true, if_false]
              split
              · refine ⟨rfl, ?_, ?_, ?_, ?_, Or.inl ?_⟩ <;> simp only <;> split_ifs <;> rfl
              · rename_i fs2 percentage time _
                obtain ⟨a, b, c, d⟩ := HANDLE_BATTERY_STATUS_flags CHARGING percentage time
                  { (if s.old_battery_status ≠ CHARGING then
                      { s with filters := reset_battery_current_rate fs }
                    else { s with filters := fs }) with filters := fs2 }
                refine ⟨rfl, ?_, ?_, ?_, ?_,
                  Or.inr (Or.inr (Or.inr (Or.inr (HANDLE_BATTERY_STATUS_old _ _ _ _))))⟩
                · rw [a]
                  simp only
                  split_ifs <;> rfl
                · rw [b]
                  simp only
                  split_ifs <;> rfl
                · rw [c]
                  simp only
                  split_ifs <;> rfl
                · rw [d]
                  simp only
                  split_ifs <;> rfl
            · simp only [m1, m2, m3, m4, if_false]
              by_cases hfam : st = DISCHARGING ∨ st = NOT_CHARGING
              · simp only [hfam, if_true]
                split
                · left
                  refine ⟨rfl, ?_, ?_, ?_, ?_, Or.inl ?_⟩ <;> simp only <;> split_ifs <;> rfl
                · right
                  rename_i fs2 percentage time _
                  have hts : tick_status inp = some st := by
                    unfold tick_status
                    rw [hb]
                    have := read_battery_status_snd inp State.initial.filters s.filters
                    rw [hr] at this
                    exact this
                  refine ⟨st, percentage, time, fs2, hfam, hts, ?_⟩
                  by_cases hold : s.old_battery_status = DISCHARGING
                  · simp [hold]
                  · simp [hold]
              · left
                rw [if_neg hfam]
                exact ⟨rfl, rfl, rfl, rfl, rfl, Or.inl rfl⟩

theorem discharging_checks_spawn_command_critical (cfg : configuration) (st p t : Int)
    (s : State) :
    (discharging_checks cfg st p t s).1.spawn_command_critical
      = ((decide (s.old_battery_status = DISCHARGING) && s.spawn_command_critical)
          || (!(decide (s.old_battery_status = DISCHARGING) && s.battery_critical)
              && decide (p ≤ cfg.critical_level))) := by
  unfold discharging_checks
  by_cases h1 : s.old_battery_status = DISCHARGING <;>
    by_cases h2 : p ≤ cfg.low_level <;>
    by_cases h3 : p ≤ cfg.critical_level <;>
    cases hb : s.battery_low <;> cases hc : s.battery_critical <;> simp [h1, h2, h3, hb, hc]

theorem spawn_critical_command_result (cfg : configuration) (inp : TickInput) (s : State) :
    (spawn_critical_command cfg inp s).1.spawn_command_low = s.spawn_command_low ∧
    (spawn_critical_command cfg inp s).1.spawn_command_critical = false ∧
    (spawn_critical_command cfg inp s).2.countP is_spawn_low = 0 ∧
    (spawn_critical_command cfg inp s).2.countP is_spawn_critical ≤ 1 ∧
    (s.spawn_command_critical = false →
      (spawn_critical_command cfg inp s).2.countP is_spawn_critical = 0) := by
  unfold spawn_critical_command
  cases hs : s.spawn_command_critical with
  | false => simp [hs]
  | true =>
    simp only [if_true]
    cases cfg.command_critical_level with
    | none => simp
    | some command =>
      simp only
      split_ifs <;> simp [List.countP_cons, is_spawn_low, is_spawn_critical]

theorem spawn_commands_result (cfg : configuration) (inp : TickInput) (s : State) :
    (spawn_commands cfg inp s).1.spawn_command_low = false ∧
    ((spawn_commands cfg inp s).1.spawn_command_critical = true →
      s.spawn_command_critical = true) ∧
    (spawn_commands cfg inp s).2.countP is_spawn_low ≤ 1 ∧
    (s.spawn_command_low = false → (spawn_commands cfg inp s).2.countP is_spawn_low = 0) ∧
    (spawn_commands cfg inp s).2.countP is_spawn_critical ≤ 1 ∧
    (s.spawn_command_critical = false →
      (spawn_commands cfg inp s).2.countP is_spawn_critical = 0) ∧
    ((spawn_commands cfg inp s).2.countP is_spawn_critical = 1 →
      (spawn_commands cfg inp s).1.spawn_command_critical = false) := by
  unfold spawn_commands spawn_critical_command
  cases hl : s.spawn_command_low <;> cases hc : s.spawn_command_critical <;>
    cases cfg.command_low_level <;> cases cfg.command_critical_level <;>
    cases no_longer_discharging inp.status_low <;>
    cases no_longer_discharging inp.status_critical <;>
    cases inp.spawn_low_ok <;> cases inp.spawn_critical_ok <;>
    simp [List.countP_cons, is_spawn_low, is_spawn_critical, hl, hc]

theorem discharging_checks_countP_spawn (cfg : configuration) (st p t : Int) (s : State) :
    (discharging_checks cfg st p t s).2.countP is_spawn_low = 0 ∧
    (discharging_checks cfg st p t s).2.countP is_spawn_critical = 0 := by
  constructor
  · rw [List.countP_eq_zero]
    intro e he hl
    have := discharging_checks_no_spawn cfg st p t s e he
    cases e <;> simp_all [is_spawn_low, is_spawn_request]
  · rw [List.countP_eq_zero]
    intro e he hl
    have := discharging_checks_no_spawn cfg st p t s e he
    cases e <;> simp_all [is_spawn_critical, is_spawn_request]

theorem tick_result_of_checks (cfg : configuration) (inp : TickInput) (s0 : State) :
    ((update_tray_icon_status_checks cfg inp s0).at_spawn = false →
      update_tray_icon_status cfg inp s0
        = ((update_tray_icon_status_checks cfg inp s0).s,
            (update_tray_icon_status_checks cfg inp s0).events)) ∧
    ((update_tray_icon_status_checks cfg inp s0).at_spawn = true →
      update_tray_icon_status cfg inp s0
        = ((spawn_commands cfg inp (update_tray_icon_status_checks cfg inp s0).s).1,
            (update_tray_icon_status_checks cfg inp s0).events
              ++ (spawn_commands cfg inp (update_tray_icon_status_checks cfg inp s0).s).2)) := by
  unfold update_tray_icon_status
  constructor
  · intro h
    simp [h]
  · intro h
    simp [h]

/-- Every tick keeps the static variables coherent. -/
theorem tick_coherent (cfg : configuration) (inp : TickInput) (s0 : State)
    (h : s0.coherent) : (update_tray_icon_status cfg inp s0).1.coherent := by
  obtain ⟨h1, h2, h3⟩ := h
  obtain ⟨s, hs⟩ : ∃ s, s = if inp.changed_power_supplies = true then power_supplies_reset s0
      else s0 := ⟨_, rfl⟩
  have hco : s.spawn_command_low = false ∧
      (s.spawn_command_critical = true → s.battery_critical = true) ∧
      ((s.battery_low = true ∨ s.battery_critical = true) → s.old_battery_status ≠ -1) := by
    rw [hs]
    split_ifs
    · simp [power_supplies_reset]
    · exact ⟨h1, h2, h3⟩
  obtain ⟨c1, c2, c3⟩ := hco
  rcases checks_state_shape cfg inp s0 with ⟨ha, f1, f2, f3, f4, fo⟩ | ⟨st, p, t, fs, hfam, _, hc⟩
  · rw [(tick_result_of_checks cfg inp s0).1 ha]
    rw [← hs] at f1 f2 f3 f4 fo
    refine ⟨by rw [f3]; exact c1, ?_, ?_⟩
    · simp only
      rw [f4, f2]
      exact c2
    · simp only
      rw [f1, f2]
      intro hf
      rcases fo with h | h | h | h | h
      · rw [h]
        exact c3 hf
      · rw [h]
        decide
      · rw [h]
        decide
      · rw [h]
        decide
      · rw [h]
        decide
  · have hat : (update_tray_icon_status_checks cfg inp s0).at_spawn = true := by rw [hc]
    rw [(tick_result_of_checks cfg inp s0).2 hat, hc]
    simp only [← hs]
    obtain ⟨g1, g2, g3⟩ := spawn_commands_flags cfg inp
      (discharging_checks cfg st p t { s with filters := fs }).1
    obtain ⟨r1, r2, _⟩ := spawn_commands_result cfg inp
      (discharging_checks cfg st p t { s with filters := fs }).1
    refine ⟨r1, ?_, ?_⟩
    · intro hsc
      have hd := r2 hsc
      rw [g3, discharging_checks_battery_critical]
      rw [discharging_checks_spawn_command_critical] at hd
      simp only at hd ⊢
      by_cases e : s.old_battery_status = DISCHARGING
      · by_cases hp : p ≤ cfg.critical_level
        · simp [hp]
        · simp only [e, hp, decide_True, decide_False, Bool.true_and, Bool.and_false,
            Bool.or_false] at hd ⊢
          exact c2 hd
      · by_cases hp : p ≤ cfg.critical_level
        · simp [hp]
        · simp [e, hp] at hd
    · intro _
      rw [g1, discharging_checks_old]
      decide

/-- Every state reached from the initial state is coherent. -/
theorem run_ticks_coherent (cfg : configuration) (run : List TickInput) :
    ∀ s : State, s.coherent → (run_ticks cfg run s).1.coherent := by
  induction run with
  | nil =>
    intro s h
    exact h
  | cons inp rest ih =>
    intro s h
    rw [run_ticks_cons]
    exact ih _ (tick_coherent cfg inp s h)

theorem initial_coherent : State.initial.coherent := by
  refine ⟨rfl, ?_, ?_⟩
  · intro h
    simp [State.initial] at h
  · intro h
    simp [State.initial] at h

theorem discharging_checks_entering (cfg : configuration) (st p t : Int) (s : State)
    (h : s.old_battery_status ≠ DISCHARGING) :
    discharging_checks cfg st p t s = discharging_checks cfg st p t (clear_hysteresis s) := by
  unfold discharging_checks clear_hysteresis
  simp [h]

theorem checks_entering_clear (cfg : configuration) (inp : TickInput) (s0 : State)
    (st p : Int) (hst : tick_status inp = some st)
    (hfam : st = DISCHARGING ∨ st = NOT_CHARGING) (hp : tick_percentage inp = some p)
    (henter : inp.changed_power_supplies = true ∨ s0.old_battery_status ≠ DISCHARGING) :
    update_tray_icon_status_checks cfg inp s0
      = update_tray_icon_status_checks cfg inp (clear_hysteresis s0) := by
  by_cases hc : inp.changed_power_supplies = true
  · unfold update_tray_icon_status_checks
    simp only [hc, if_true]
    rfl
  · have hold : s0.old_battery_status ≠ DISCHARGING := by
      rcases henter with h | h
      · exact absurd h hc
      · exact h
    obtain ⟨⟨bp, hbp⟩, hrs⟩ := tick_status_some inp st hst
    obtain ⟨fs1, h1⟩ := hrs s0.filters
    have h1' : read_battery_status inp (clear_hysteresis s0).filters = (fs1, some st) := h1
    have hold' : (clear_hysteresis s0).old_battery_status ≠ DISCHARGING := hold
    obtain ⟨fs2, t, h2⟩ := tick_percentage_some inp p hp (reset_battery_current_rate fs1)
    have hne : st ≠ MISSING ∧ st ≠ UNKNOWN ∧ st ≠ CHARGED ∧ st ≠ CHARGING := by
      rcases hfam with h | h <;> subst h <;> decide
    have hcf : inp.changed_power_supplies = false := by
      cases h : inp.changed_power_supplies
      · rfl
      · exact absurd h hc
    have hd := discharging_checks_entering cfg st p t { s0 with filters := fs2 } hold
    unfold update_tray_icon_status_checks
    simp only [hcf, Bool.false_eq_true, if_false, hbp, h1, h1', hne.1, hne.2.1, hne.2.2.1,
      hne.2.2.2, hfam, if_true, hold, hold', ne_eq, not_false_eq_true, h2]
    rw [hd]
    rfl

/-- C11 as stated fails.  From the initial state, `deep_tick` (discharging at
4 percent) followed by `charging_tick` ends with `old_battery_status =
CHARGING` while `battery_low` and `battery_critical` are both still set. -/
theorem C11_flags_survive_leaving_the_family :
    (run_ticks default_configuration [deep_tick, charging_tick]
      State.initial).1.old_battery_status = CHARGING ∧
    (run_ticks default_configuration [deep_tick, charging_tick] State.initial).1.battery_low
      = true ∧
    (run_ticks default_configuration [deep_tick, charging_tick]
      State.initial).1.battery_critical = true := by
  decide!

/-- C11, amended.  After every sequence of ticks from the initial state
`spawn_command_low` is false, and when `battery_low` or `battery_critical` is
set a status has been recorded since the last device change
(`old_battery_status` is not -1).  A tick without device change whose status
is outside the discharging family, so that it leaves `old_battery_status` at
`MISSING`, `UNKNOWN`, `CHARGED`, `CHARGING` or unchanged, leaves `battery_low`
and `battery_critical` as they were.  They are cleared when the family is next
entered, before the threshold checks: a tick that enters the family and
computes a percentage gives the same result as from the state with the four
flags cleared. -/
theorem C11_notified_flags_cleared_on_entry (cfg : configuration) :
    (∀ run : List TickInput,
      (run_ticks cfg run State.initial).1.spawn_command_low = false ∧
      (((run_ticks cfg run State.initial).1.battery_low = true
          ∨ (run_ticks cfg run State.initial).1.battery_critical = true) →
        (run_ticks cfg run State.initial).1.old_battery_status ≠ -1)) ∧
    (∀ (inp : TickInput) (s0 : State), inp.changed_power_supplies = false →
      tick_status inp ≠ some DISCHARGING → tick_status inp ≠ some NOT_CHARGING →
      (update_tray_icon_status cfg inp s0).1.battery_low = s0.battery_low ∧
      (update_tray_icon_status cfg inp s0).1.battery_critical = s0.battery_critical) ∧
    (∀ (inp : TickInput) (s0 : State) (st p : Int), tick_status inp = some st →
      (st = DISCHARGING ∨ st = NOT_CHARGING) → tick_percentage inp = some p →
      (inp.changed_power_supplies = true ∨ s0.old_battery_status ≠ DISCHARGING) →
      update_tray_icon_status cfg inp s0
        = update_tray_icon_status cfg inp (clear_hysteresis s0)) := by
  refine ⟨?_, ?_, ?_⟩
  · intro run
    obtain ⟨a, _, c⟩ := run_ticks_coherent cfg run State.initial initial_coherent
    exact ⟨a, c⟩
  · intro inp s0 hch h1 h2
    rcases checks_state_shape cfg inp s0 with ⟨ha, f1, f2, _, _, _⟩ | ⟨st, p, t, fs, hfam, hts, _⟩
    · rw [(tick_result_of_checks cfg inp s0).1 ha]
      simp only [hch, Bool.false_eq_true, if_false] at f1 f2
      exact ⟨f1, f2⟩
    · rcases hfam with h | h
      · exact absurd (by rw [hts, h]) h1
      · exact absurd (by rw [hts, h]) h2
  · intro inp s0 st p hst hfam hp henter
    unfold update_tray_icon_status
    rw [checks_entering_clear cfg inp s0 st p hst hfam hp henter]

/-- C11, amended, on `charging_tick` after `deep_tick`, and on `deep_tick`
entering the family again afterwards. -/
theorem C11_notified_flags_cleared_on_entry_witness :
    (update_tray_icon_status default_configuration deep_tick State.initial).1.battery_low
      = true ∧
    (update_tray_icon_status default_configuration charging_tick
      (update_tray_icon_status default_configuration deep_tick State.initial).1).1.battery_low
      = (update_tray_icon_status default_configuration deep_tick State.initial).1.battery_low ∧
    update_tray_icon_status default_configuration deep_tick
        (run_ticks default_configuration [deep_tick, charging_tick] State.initial).1
      = update_tray_icon_status default_configuration deep_tick
          (clear_hysteresis
            (run_ticks default_configuration [deep_tick, charging_tick] State.initial).1) :=
  ⟨by decide!,
    ((C11_notified_flags_cleared_on_entry default_configuration).2.1 charging_tick
      (update_tray_icon_status default_configuration deep_tick State.initial).1
      (by decide) (by decide!) (by decide!)).1,
    (C11_notified_flags_cleared_on_entry default_configuration).2.2 deep_tick
      (run_ticks default_configuration [deep_tick, charging_tick] State.initial).1
      DISCHARGING 4 (by decide!) (Or.inl rfl) (by decide!) (Or.inr (by decide!))⟩

theorem tick_family_result (cfg : configuration) (inp : TickInput) (s : State) (st p : Int)
    (hch : inp.changed_power_supplies = false)
    (hst : tick_status inp = some st) (hfam : st = DISCHARGING ∨ st = NOT_CHARGING)
    (hp : tick_percentage inp = some p) :
    ∃ t fs,
      update_tray_icon_status cfg inp s
        = ((spawn_commands cfg inp
              (discharging_checks cfg st p t { s with filters := fs }).1).1,
            (discharging_checks cfg st p t { s with filters := fs }).2
              ++ (spawn_commands cfg inp
                (discharging_checks cfg st p t { s with filters := fs }).1).2) := by
  obtain ⟨t, fs, _, h⟩ := tick_discharging_result cfg inp s st p hst hfam hp
  refine ⟨t, fs, ?_⟩
  rw [h]
  simp only [hch, Bool.false_eq_true, if_false]

theorem tick_family_fail (cfg : configuration) (inp : TickInput) (s : State) (st : Int)
    (hch : inp.changed_power_supplies = false)
    (hst : tick_status inp = some st) (hfam : st = DISCHARGING ∨ st = NOT_CHARGING)
    (hp : tick_percentage inp = none) :
    ∃ fs, update_tray_icon_status cfg inp s = ({ s with filters := fs }, []) := by
  obtain ⟨fs, h⟩ := tick_discharging_fail cfg inp s st hst hfam hp
  refine ⟨fs, ?_⟩
  rw [h]
  simp only [hch, Bool.false_eq_true, if_false]

theorem discharging_checks_spawn_low_fresh (cfg : configuration) (st p t : Int) (s : State)
    (hl : s.spawn_command_low = false) :
    (discharging_checks cfg st p t s).1.spawn_command_low
      = (!(decide (s.old_battery_status = DISCHARGING) && s.battery_low)
          && decide (p ≤ cfg.low_level)) := by
  rw [discharging_checks_spawn_command_low, hl]
  simp

/-- One tick of the discharging family without device change, from a state
with no pending low-level spawn: the low-level command is requested at most
once, and only when the low level has just been notified. -/
theorem tick_family_spawn_low (cfg : configuration) (inp : TickInput) (s : State) (st : Int)
    (hch : inp.changed_power_supplies = false)
    (hst : tick_status inp = some st) (hfam : st = DISCHARGING ∨ st = NOT_CHARGING)
    (hl : s.spawn_command_low = false) :
    (update_tray_icon_status cfg inp s).2.countP is_spawn_low ≤ 1 ∧
    (update_tray_icon_status cfg inp s).1.spawn_command_low = false ∧
    ((update_tray_icon_status cfg inp s).2.countP is_spawn_low = 1 →
      (update_tray_icon_status cfg inp s).1.old_battery_status = DISCHARGING ∧
      (update_tray_icon_status cfg inp s).1.battery_low = true) ∧
    (s.old_battery_status = DISCHARGING → s.battery_low = true →
      (update_tray_icon_status cfg inp s).2.countP is_spawn_low = 0 ∧
      (update_tray_icon_status cfg inp s).1.old_battery_status = DISCHARGING ∧
      (update_tray_icon_status cfg inp s).1.battery_low = true) := by
  cases hp : tick_percentage inp with
  | none =>
    obtain ⟨fs, h⟩ := tick_family_fail cfg inp s st hch hst hfam hp
    rw [h]
    refine ⟨Nat.zero_le _, hl, ?_, fun h1 h2 => ⟨rfl, h1, h2⟩⟩
    intro hc
    simp at hc
  | some p =>
    obtain ⟨t, fs, h⟩ := tick_family_result cfg inp s st p hch hst hfam hp
    rw [h]
    simp only [List.countP_append]
    obtain ⟨g1, g2, _⟩ := spawn_commands_flags cfg inp
      (discharging_checks cfg st p t { s with filters := fs }).1
    obtain ⟨r1, _, r3, r4, _⟩ := spawn_commands_result cfg inp
      (discharging_checks cfg st p t { s with filters := fs }).1
    have hsc := discharging_checks_spawn_low_fresh cfg st p t { s with filters := fs } hl
    simp only at hsc
    rw [(discharging_checks_countP_spawn cfg st p t _).1, Nat.zero_add, g1, g2,
      discharging_checks_old, discharging_checks_battery_low]
    refine ⟨r3, r1, ?_, ?_⟩
    · intro hone
      refine ⟨rfl, ?_⟩
      by_cases hle : p ≤ cfg.low_level
      · simp [hle]
      · have hf : (discharging_checks cfg st p t { s with filters := fs }).1.spawn_command_low
            = false := by
          rw [hsc]
          simp [hle]
        rw [r4 hf] at hone
        simp at hone
    · intro h1 h2
      have hf : (discharging_checks cfg st p t { s with filters := fs }).1.spawn_command_low
          = false := by
        rw [hsc]
        simp [h1, h2]
      refine ⟨r4 hf, rfl, ?_⟩
      simp [h1, h2]

/-- One tick of the discharging family without device change, from a state in
which a pending critical-level spawn comes with `battery_critical`: the
critical-level command is requested at most once, and afterwards no spawn is
pending while `battery_critical` is set. -/
theorem tick_family_spawn_critical (cfg : configuration) (inp : TickInput) (s : State)
    (st : Int) (hch : inp.changed_power_supplies = false)
    (hst : tick_status inp = some st) (hfam : st = DISCHARGING ∨ st = NOT_CHARGING)
    (hco : s.spawn_command_critical = true → s.battery_critical = true) :
    (update_tray_icon_status cfg inp s).2.countP is_spawn_critical ≤ 1 ∧
    ((update_tray_icon_status cfg inp s).1.spawn_command_critical = true →
      (update_tray_icon_status cfg inp s).1.battery_critical = true) ∧
    ((update_tray_icon_status cfg inp s).2.countP is_spawn_critical = 1 →
      (update_tray_icon_status cfg inp s).1.old_battery_status = DISCHARGING ∧
      (update_tray_icon_status cfg inp s).1.battery_critical = true ∧
      (update_tray_icon_status cfg inp s).1.spawn_command_critical = false) ∧
    (s.old_battery_status = DISCHARGING → s.battery_critical = true →
      s.spawn_command_critical = false →
      (update_tray_icon_status cfg inp s).2.countP is_spawn_critical = 0 ∧
      (update_tray_icon_status cfg inp s).1.old_battery_status = DISCHARGING ∧
      (update_tray_icon_status cfg inp s).1.battery_critical = true ∧
      (update_tray_icon_status cfg inp s).1.spawn_command_critical = false) := by
  cases hp : tick_percentage inp with
  | none =>
    obtain ⟨fs, h⟩ := tick_family_fail cfg inp s st hch hst hfam hp
    rw [h]
    refine ⟨Nat.zero_le _, hco, ?_, fun h1 h2 h3 => ⟨rfl, h1, h2, h3⟩⟩
    intro hc
    simp at hc
  | some p =>
    obtain ⟨t, fs, h⟩ := tick_family_result cfg inp s st p hch hst hfam hp
    rw [h]
    simp only [List.countP_append]
    obtain ⟨g1, _, g3⟩ := spawn_commands_flags cfg inp
      (discharging_checks cfg st p t { s with filters := fs }).1
    obtain ⟨_, r2, _, _, r5, r6, r7⟩ := spawn_commands_result cfg inp
      (discharging_checks cfg st p t { s with filters := fs }).1
    rw [(discharging_checks_countP_spawn cfg st p t _).2, Nat.zero_add, g1, g3,
      discharging_checks_old, discharging_checks_battery_critical]
    have hsc := discharging_checks_spawn_command_critical cfg st p t { s with filters := fs }
    simp only at hsc
    have hbc : (discharging_checks cfg st p t { s with filters := fs }).1.spawn_command_critical
        = true →
        ((decide (s.old_battery_status = DISCHARGING) && s.battery_critical)
          || decide (p ≤ cfg.critical_level)) = true := by
      intro hd
      rw [hsc] at hd
      by_cases e : s.old_battery_status = DISCHARGING
      · by_cases hle : p ≤ cfg.critical_level
        · simp [hle]
        · simp only [e, hle, decide_True, decide_False, Bool.true_and, Bool.and_false,
            Bool.or_false] at hd ⊢
          exact hco hd
      · by_cases hle : p ≤ cfg.critical_level
        · simp [hle]
        · simp [e, hle] at hd
    refine ⟨r5, fun hd => hbc (r2 hd), ?_, ?_⟩
    · intro hone
      have hd : (discharging_checks cfg st p t
          { s with filters := fs }).1.spawn_command_critical = true := by
        by_contra hn
        have hf : (discharging_checks cfg st p t
            { s with filters := fs }).1.spawn_command_critical = false := by
          cases hx : (discharging_checks cfg st p t
            { s with filters := fs }).1.spawn_command_critical
          · rfl
          · exact absurd hx hn
        rw [r6 hf] at hone
        simp at hone
      exact ⟨rfl, hbc hd, r7 hone⟩
    · intro h1 h2 h3
      have hf : (discharging_checks cfg st p t
          { s with filters := fs }).1.spawn_command_critical = false := by
        rw [hsc]
        simp [h1, h2, h3]
      refine ⟨r6 hf, rfl, by simp [h1, h2], ?_⟩
      cases hx : (spawn_commands cfg inp
        (discharging_checks cfg st p t { s with filters := fs }).1).1.spawn_command_critical
      · rfl
      · have := r2 hx
        rw [hf] at this
        simp at this

theorem run_family_low_spent (cfg : configuration) (run : List TickInput) :
    ∀ s : State,
    (∀ inp ∈ run, inp.changed_power_supplies = false ∧
      (tick_status inp = some DISCHARGING ∨ tick_status inp = some NOT_CHARGING)) →
    s.spawn_command_low = false → s.old_battery_status = DISCHARGING → s.battery_low = true →
    (run_ticks cfg run s).2.countP is_spawn_low = 0 := by
  induction run with
  | nil =>
    intro s _ _ _ _
    rfl
  | cons inp rest ih =>
    intro s hrun hl h1 h2
    obtain ⟨hch, hst⟩ := hrun inp (List.mem_cons_self _ _)
    obtain ⟨st, hst', hfam⟩ : ∃ st, tick_status inp = some st ∧
        (st = DISCHARGING ∨ st = NOT_CHARGING) := by
      rcases hst with h | h
      · exact ⟨_, h, Or.inl rfl⟩
      · exact ⟨_, h, Or.inr rfl⟩
    obtain ⟨_, a2, _, a4⟩ := tick_family_spawn_low cfg inp s st hch hst' hfam hl
    obtain ⟨b1, b2, b3⟩ := a4 h1 h2
    rw [run_ticks_cons]
    simp only [List.countP_append]
    rw [b1, ih _ (fun i hi => hrun i (List.mem_cons_of_mem _ hi)) a2 b2 b3]

theorem run_family_low (cfg : configuration) (run : List TickInput) :
    ∀ s : State,
    (∀ inp ∈ run, inp.changed_power_supplies = false ∧
      (tick_status inp = some DISCHARGING ∨ tick_status inp = some NOT_CHARGING)) →
    s.spawn_command_low = false →
    (run_ticks cfg run s).2.countP is_spawn_low ≤ 1 := by
  induction run with
  | nil =>
    intro s _ _
    simp [run_ticks]
  | cons inp rest ih =>
    intro s hrun hl
    obtain ⟨hch, hst⟩ := hrun inp (List.mem_cons_self _ _)
    have hrest : ∀ i ∈ rest, i.changed_power_supplies = false ∧
        (tick_status i = some DISCHARGING ∨ tick_status i = some NOT_CHARGING) :=
      fun i hi => hrun i (List.mem_cons_of_mem _ hi)
    obtain ⟨st, hst', hfam⟩ : ∃ st, tick_status inp = some st ∧
        (st = DISCHARGING ∨ st = NOT_CHARGING) := by
      rcases hst with h | h
      · exact ⟨_, h, Or.inl rfl⟩
      · exact ⟨_, h, Or.inr rfl⟩
    obtain ⟨a1, a2, a3, _⟩ := tick_family_spawn_low cfg inp s st hch hst' hfam hl
    rw [run_ticks_cons]
    simp only [List.countP_append]
    by_cases hone : (update_tray_icon_status cfg inp s).2.countP is_spawn_low = 1
    · obtain ⟨b1, b2⟩ := a3 hone
      rw [run_family_low_spent cfg rest _ hrest a2 b1 b2]
      omega
    · have := ih _ hrest a2
      omega

theorem run_family_critical_spent (cfg : configuration) (run : List TickInput) :
    ∀ s : State,
    (∀ inp ∈ run, inp.changed_power_supplies = false ∧
      (tick_status inp = some DISCHARGING ∨ tick_status inp = some NOT_CHARGING)) →
    s.old_battery_status = DISCHARGING → s.battery_critical = true →
    s.spawn_command_critical = false →
    (run_ticks cfg run s).2.countP is_spawn_critical = 0 := by
  induction run with
  | nil =>
    intro s _ _ _ _
    rfl
  | cons inp rest ih =>
    intro s hrun h1 h2 h3
    obtain ⟨hch, hst⟩ := hrun inp (List.mem_cons_self _ _)
    obtain ⟨st, hst', hfam⟩ : ∃ st, tick_status inp = some st ∧
        (st = DISCHARGING ∨ st = NOT_CHARGING) := by
      rcases hst with h | h
      · exact ⟨_, h, Or.inl rfl⟩
      · exact ⟨_, h, Or.inr rfl⟩
    have hco : s.spawn_command_critical = true → s.battery_critical = true := fun _ => h2
    obtain ⟨_, _, _, a4⟩ := tick_family_spawn_critical cfg inp s st hch hst' hfam hco
    obtain ⟨b1, b2, b3, b4⟩ := a4 h1 h2 h3
    rw [run_ticks_cons]
    simp only [List.countP_append]
    rw [b1, ih _ (fun i hi => hrun i (List.mem_cons_of_mem _ hi)) b2 b3 b4]

theorem run_family_critical (cfg : configuration) (run : List TickInput) :
    ∀ s : State,
    (∀ inp ∈ run, inp.changed_power_supplies = false ∧
      (tick_status inp = some DISCHARGING ∨ tick_status inp = some NOT_CHARGING)) →
    (s.spawn_command_critical = true → s.battery_critical = true) →
    (run_ticks cfg run s).2.countP is_spawn_critical ≤ 1 := by
  induction run with
  | nil =>
    intro s _ _
    simp [run_ticks]
  | cons inp rest ih =>
    intro s hrun hco
    obtain ⟨hch, hst⟩ := hrun inp (List.mem_cons_self _ _)
    have hrest : ∀ i ∈ rest, i.changed_power_supplies = false ∧
        (tick_status i = some DISCHARGING ∨ tick_status i = some NOT_CHARGING) :=
      fun i hi => hrun i (List.mem_cons_of_mem _ hi)
    obtain ⟨st, hst', hfam⟩ : ∃ st, tick_status inp = some st ∧
        (st = DISCHARGING ∨ st = NOT_CHARGING) := by
      rcases hst with h | h
      · exact ⟨_, h, Or.inl rfl⟩
      · exact ⟨_, h, Or.inr rfl⟩
    obtain ⟨a1, a2, a3, _⟩ := tick_family_spawn_critical cfg inp s st hch hst' hfam hco
    rw [run_ticks_cons]
    simp only [List.countP_append]
    by_cases hone : (update_tray_icon_status cfg inp s).2.countP is_spawn_critical = 1
    · obtain ⟨b1, b2, b3⟩ := a3 hone
      rw [run_family_critical_spent cfg rest _ hrest b1 b2 b3]
      omega
    · have := ih _ hrest a2
      omega

/-- C15.  Take any state reached from the initial state by the ticks `pre`,
and from it any run of consecutive ticks without device change whose status
is `DISCHARGING` or `NOT_CHARGING` at every tick.  Whatever the percentages
are, the run requests the low-level command at most once and the
critical-level command at most once. -/
theorem C15_command_requested_once_per_episode (cfg : configuration)
    (pre run : List TickInput)
    (hrun : ∀ inp ∈ run, inp.changed_power_supplies = false ∧
      (tick_status inp = some DISCHARGING ∨ tick_status inp = some NOT_CHARGING)) :
    (run_ticks cfg run (run_ticks cfg pre State.initial).1).2.countP is_spawn_low ≤ 1 ∧
    (run_ticks cfg run (run_ticks cfg pre State.initial).1).2.countP is_spawn_critical ≤ 1 := by
  obtain ⟨c1, c2, _⟩ := run_ticks_coherent cfg pre State.initial initial_coherent
  exact ⟨run_family_low cfg run _ hrun c1, run_family_critical cfg run _ hrun c2⟩

/-- C15 on `deep_run` from the initial state: three ticks at 4 percent, each
command requested once. -/
theorem C15_command_requested_once_per_episode_witness :
    (∀ inp ∈ deep_run, inp.changed_power_supplies = false ∧
      (tick_status inp = some DISCHARGING ∨ tick_status inp = some NOT_CHARGING)) ∧
    deep_run.map tick_percentage = [some 4, some 4, some 4] ∧
    (run_ticks default_configuration deep_run
      (run_ticks default_configuration [] State.initial).1).2.filter is_spawn_request
      = [Event.spawn_low "low-command", Event.spawn_critical "critical-command"] ∧
    (run_ticks default_configuration deep_run
      (run_ticks default_configuration [] State.initial).1).2.countP is_spawn_low ≤ 1 ∧
    (run_ticks default_configuration deep_run
      (run_ticks default_configuration [] State.initial).1).2.countP is_spawn_critical ≤ 1 :=
  ⟨by decide!, by decide!, by decide!,
    C15_command_requested_once_per_episode default_configuration [] deep_run (by decide!)⟩

/-! ## reachable filters -/

theorem filter_append_shape (f : filter) (value : ℚ) (now : timespec) (h : filter_shape f) :
    filter_shape (filter_append f value now) ∧
    1 ≤ (filter_append f value now).num_samples := by
  unfold filter_shape at h ⊢
  simp only [filter_append, MAX_SAMPLES] at h ⊢
  omega

theorem filter_step_shape (f : filter) (op : FilterOp) (h : filter_shape f) :
    filter_shape (filter_step f op) := by
  cases op with
  | append value now => exact (filter_append_shape f value now h).1
  | reset =>
    unfold filter_shape
    simp [filter_step, filter_reset, MAX_SAMPLES]

theorem filter_run_shape (ops : List FilterOp) :
    ∀ f : filter, filter_shape f → filter_shape (filter_run f ops) := by
  induction ops with
  | nil =>
    intro f h
    exact h
  | cons op rest ih =>
    intro f h
    exact ih _ (filter_step_shape f op h)

theorem filter_zero_shape : filter_shape filter_zero := by
  unfold filter_shape
  simp [filter_zero, MAX_SAMPLES]

/-- C23.  After any sequence of appends and resets from the zero-initialised
filter, a further `filter_append` leaves `num_samples ≥ 1`; when that append
wraps the write index from 59 back to 0 the count is 59.  In
`get_battery_current_rate` the mean is taken of the filter just appended to,
so its divisor is never zero there. -/
theorem C23_count_positive_after_append (ops : List FilterOp) (value : ℚ) (now : timespec) :
    1 ≤ (filter_append (filter_run filter_zero ops) value now).num_samples ∧
    ((filter_run filter_zero ops).next_sample = MAX_SAMPLES - 1 →
      (filter_append (filter_run filter_zero ops) value now).next_sample = 0 ∧
      (filter_append (filter_run filter_zero ops) value now).num_samples = MAX_SAMPLES - 1) ∧
    (∀ (r : Readings) (fs : Filters) (rate_now : ℚ),
      (get_sysattr_double r.power_now = some rate_now →
        (get_battery_current_rate false r fs).2
          = some (filter_get_mean (filter_append fs.power_filter rate_now r.now_rate))) ∧
      (get_sysattr_double r.current_now = some rate_now →
        (get_battery_current_rate true r fs).2
          = some (filter_get_mean (filter_append fs.current_filter rate_now r.now_rate)))) := by
  have hs := filter_run_shape ops filter_zero filter_zero_shape
  refine ⟨(filter_append_shape _ value now hs).2, ?_, ?_⟩
  · intro hn
    unfold filter_shape at hs
    simp only [filter_append, MAX_SAMPLES] at hs hn ⊢
    omega
  · intro r fs rate_now
    constructor
    · intro h
      simp [get_battery_current_rate, h]
    · intro h
      simp [get_battery_current_rate, h]

theorem filter_append_same (f g : filter) (value : ℚ) (now : timespec)
    (h : filter_same_since_reset f g) :
    filter_same_since_reset (filter_append f value now) (filter_append g value now) := by
  obtain ⟨h1, h2, h3, h4⟩ := h
  unfold filter_same_since_reset
  simp only [filter_append, MAX_SAMPLES, array_set] at h3 h4 ⊢
  refine ⟨by rw [h1, h2], by rw [h2], by omega, ?_⟩
  rcases h4 with ⟨e, hag⟩ | ⟨e, hag⟩
  · by_cases hw : f.next_sample = 59
    · right
      refine ⟨by omega, ?_⟩
      intro i hi
      by_cases hi2 : i = f.next_sample
      · have : i = g.next_sample := by omega
        simp [hi2, ← h2]
      · have : ¬ i = g.next_sample := by omega
        simp only [hi2, this, if_false]
        exact hag i (by omega)
    · left
      refine ⟨by omega, ?_⟩
      intro i hi
      by_cases hi2 : i = f.next_sample
      · simp [hi2, ← h2]
      · have : ¬ i = g.next_sample := by omega
        simp only [hi2, this, if_false]
        exact hag i (by omega)
  · right
    refine ⟨by omega, ?_⟩
    intro i hi
    by_cases hi2 : i = f.next_sample
    · simp [hi2, ← h2]
    · have : ¬ i = g.next_sample := by omega
      simp only [hi2, this, if_false]
      exact hag i hi

theorem filter_append_all_same (xs : List (ℚ × timespec)) :
    ∀ f g : filter, filter_same_since_reset f g →
    filter_same_since_reset (filter_append_all f xs) (filter_append_all g xs) := by
  induction xs with
  | nil =>
    intro f g h
    exact h
  | cons x rest ih =>
    intro f g h
    exact ih _ _ (filter_append_same f g x.1 x.2 h)

theorem filter_same_of_reset (f g : filter) (hf0 : f.num_samples = 0)
    (hf1 : f.next_sample = 0) (hg0 : g.num_samples = 0) (hg1 : g.next_sample = 0) :
    filter_same_since_reset f g := by
  unfold filter_same_since_reset
  refine ⟨by rw [hf0, hg0], by rw [hf1, hg1], by simp [hf1, MAX_SAMPLES], Or.inl ⟨by rw [hf0, hf1], ?_⟩⟩
  intro i hi
  omega

theorem filter_get_mean_same (f g : filter) (h : filter_same_since_reset f g) :
    filter_get_mean f = filter_get_mean g := by
  obtain ⟨h1, h2, h3, h4⟩ := h
  unfold filter_get_mean
  rw [← h1]
  congr 1
  apply foldl_range_congr
  intro i hi
  rcases h4 with ⟨_, hag⟩ | ⟨e, hag⟩
  · exact (hag i hi).1
  · simp only [MAX_SAMPLES] at e hag
    exact (hag i (by omega)).1

theorem filter_get_rate_same (f g : filter) (h : filter_same_since_reset f g) :
    filter_get_rate f = filter_get_rate g := by
  obtain ⟨h1, h2, h3, h4⟩ := h
  unfold filter_get_rate
  rw [← h1, ← h2]
  by_cases hn : f.num_samples < 2
  · simp [hn]
  · simp only [hn, if_false]
    have hab : ∀ i, (i = (f.next_sample + MAX_SAMPLES - f.num_samples) % MAX_SAMPLES
        ∨ i = (f.next_sample + MAX_SAMPLES - 1) % MAX_SAMPLES) →
        f.samples i = g.samples i ∧ f.sample_times i = g.sample_times i := by
      intro i hi
      simp only [MAX_SAMPLES] at h3 h4 hi
      rcases h4 with ⟨e, hag⟩ | ⟨e, hag⟩
      · exact hag i (by omega)
      · exact hag i (by omega)
    obtain ⟨a1, a2⟩ := hab _ (Or.inl rfl)
    obtain ⟨b1, b2⟩ := hab _ (Or.inr rfl)
    simp only [time_diff, a1, a2, b1, b2]

/-- C21.  Two filters whose count and write index are zero, whatever their
slots still hold, give the same `filter_get_rate` after the same sequence of
appends with the same timestamps, and the same `filter_get_mean` when the
sequence is not empty; the length of the sequence is arbitrary, sixty and more
included. -/
theorem C21_stale_contents_are_inert (f g : filter) (xs : List (ℚ × timespec))
    (hf0 : f.num_samples = 0) (hf1 : f.next_sample = 0)
    (hg0 : g.num_samples = 0) (hg1 : g.next_sample = 0) :
    (1 ≤ xs.length →
      filter_get_mean (filter_append_all f xs) = filter_get_mean (filter_append_all g xs)) ∧
    filter_get_rate (filter_append_all f xs) = filter_get_rate (filter_append_all g xs) := by
  have h := filter_append_all_same xs f g (filter_same_of_reset f g hf0 hf1 hg0 hg1)
  exact ⟨fun _ => filter_get_mean_same _ _ h, filter_get_rate_same _ _ h⟩

/-- C21 on the zero-initialised filter and `stale_filter`, whose slots differ,
after the sixty appends of `falling_appends`. -/
theorem C21_stale_contents_are_inert_witness :
    filter_zero.samples 0 = 0 ∧ stale_filter.samples 0 = 1 ∧
    stale_filter.samples 59 = 61 ∧
    falling_appends.length = 60 ∧
    (1 ≤ falling_appends.length →
      filter_get_mean (filter_append_all filter_zero falling_appends)
        = filter_get_mean (filter_append_all stale_filter falling_appends)) ∧
    filter_get_rate (filter_append_all filter_zero falling_appends)
      = filter_get_rate (filter_append_all stale_filter falling_appends) :=
  ⟨by decide!, by decide!, by decide!, by decide!,
    C21_stale_contents_are_inert filter_zero stale_filter falling_appends rfl rfl rfl rfl⟩

/-! ### sums, conversions and comparisons of doubles -/

theorem double_le_of_le (a b : ℚ) (d : gdouble) (hab : a ≤ b)
    (h : double_le (gdouble.finite b) d = true) : double_le (gdouble.finite a) d = true :=
  double_le_trans _ _ _ (by simpa [double_le] using hab) h

theorem two_pow_neg_1022_le : two_pow (-1022) ≤ 1 / 200000000 := by
  have h := two_pow_le (-1022) (-60) (by norm_num)
  have e60 : two_pow (-60) = 1 / 2 ^ 60 := by decide!
  rw [e60] at h
  norm_num at h ⊢
  linarith

/-- A double that is not a NaN and not below a finite value is at least that
value. -/
theorem double_le_of_not_lt (d : gdouble) (c : ℚ) (hn : d ≠ gdouble.nan)
    (h : double_lt d (gdouble.finite c) = false) : double_le (gdouble.finite c) d = true := by
  cases d with
  | finite v =>
    simp only [double_lt, decide_eq_false_iff_not, not_lt] at h
    simpa [double_le] using h
  | infinite s =>
    simp only [double_lt] at h
    simp [double_le, h]
  | nan => exact absurd rfl hn

theorem wrap_glong_bounds (n : Int) :
    -9223372036854775808 ≤ wrap_glong n ∧ wrap_glong n < 9223372036854775808 := by
  unfold wrap_glong
  omega

/-- A number of magnitude at most `2 ^ k`, `0 ≤ k ≤ 1000`, rounds to a finite
value of magnitude at most `2 ^ (k + 1)`. -/
theorem round_double_finite_le (x : ℚ) (k : Int) (hk0 : 0 ≤ k) (hk : k ≤ 1000)
    (h : |x| ≤ two_pow k) :
    ∃ y, round_double x = gdouble.finite y ∧ |y| ≤ two_pow (k + 1) := by
  have h1 : (1 : ℚ) ≤ two_pow k := by
    have := two_pow_le 0 k hk0
    have e0 : two_pow 0 = 1 := by decide!
    rw [e0] at this
    exact this
  have h2 : two_pow k ≤ two_pow 1000 := two_pow_le _ _ hk
  have h3 : two_pow 1000 < two_pow 1023 := by
    rw [two_pow_eq, two_pow_eq]
    exact zpow_lt_zpow_right₀ (by norm_num) (by norm_num)
  obtain ⟨y, e, b⟩ := round_double_finite x (by linarith)
  refine ⟨y, e, ?_⟩
  have htiny : two_pow (-1075) ≤ 1 / 2 := by
    have := two_pow_le (-1075) (-1) (by norm_num)
    have e1 : two_pow (-1) = 1 / 2 := by decide!
    rw [e1] at this
    exact this
  have hx : |x| / 9007199254740992 ≤ two_pow k / 2 := by
    have h0 : 0 ≤ |x| := abs_nonneg x
    have : |x| / 9007199254740992 ≤ |x| / 2 := by
      apply div_le_div_of_nonneg_left h0 (by norm_num) (by norm_num)
    linarith
  have habs : |y| ≤ |x| + |y - x| := by
    have := abs_add x (y - x)
    simpa using this
  have e2 : two_pow (k + 1) = two_pow k * 2 := by
    rw [two_pow_add]
    congr 1
  rw [e2]
  linarith

theorem double_of_glong_finite (n : Int) :
    ∃ y, double_of_glong n = gdouble.finite y ∧ |y| ≤ two_pow 64 := by
  obtain ⟨h1, h2⟩ := wrap_glong_bounds n
  have e63 : two_pow 63 = 9223372036854775808 := by decide!
  unfold double_of_glong
  apply round_double_finite_le _ 63 (by norm_num) (by norm_num)
  rw [abs_le, e63]
  constructor
  · have : ((-9223372036854775808 : Int) : ℚ) ≤ ((wrap_glong n : Int) : ℚ) := by
      exact_mod_cast h1
    norm_num at this ⊢
    linarith
  · have : ((wrap_glong n : Int) : ℚ) ≤ ((9223372036854775808 : Int) : ℚ) := by
      exact_mod_cast h2.le
    norm_num at this ⊢
    linarith

/-- The `time_diff` of `filter_get_rate` is a finite double. -/
theorem seconds_between_finite (t0 t1 : timespec) :
    ∃ v, seconds_between t0 t1 = gdouble.finite v := by
  obtain ⟨a, ea, ha⟩ := double_of_glong_finite (t1.tv_sec - t0.tv_sec)
  obtain ⟨b0, eb0, hb0⟩ := double_of_glong_finite t1.tv_nsec
  obtain ⟨c0, ec0, hc0⟩ := double_of_glong_finite t0.tv_nsec
  have hdiv : ∀ x : ℚ, |x| ≤ two_pow 64 → |x / 1000000000| ≤ two_pow 64 := by
    intro x hx
    rw [abs_div]
    have : |x| / |(1000000000 : ℚ)| ≤ |x| / 1 := by
      apply div_le_div_of_nonneg_left (abs_nonneg x) (by norm_num)
      rw [abs_of_pos (by norm_num : (0 : ℚ) < 1000000000)]
      norm_num
    simp only [div_one] at this
    linarith
  obtain ⟨b, eb, hb⟩ := round_double_finite_le (b0 / 1000000000) 64 (by norm_num)
    (by norm_num) (hdiv b0 hb0)
  obtain ⟨c, ec, hc⟩ := round_double_finite_le (c0 / 1000000000) 64 (by norm_num)
    (by norm_num) (hdiv c0 hc0)
  have e65 : two_pow (64 + 1) = 2 * two_pow 64 := by
    rw [two_pow_add]
    have e1 : two_pow 1 = 2 := by decide!
    rw [e1]
    ring
  have e66 : two_pow 66 = 4 * two_pow 64 := by
    rw [show (66 : Int) = 2 + 64 by norm_num, two_pow_add]
    congr 1
  have hp : 0 < two_pow 64 := two_pow_pos _
  have hab : |a + b| ≤ two_pow 66 := by
    have := abs_add a b
    rw [e65] at hb
    rw [e66]
    linarith
  obtain ⟨s, es, hs⟩ := round_double_finite_le (a + b) 66 (by norm_num) (by norm_num) hab
  have e67 : two_pow (66 + 1) = 8 * two_pow 64 := by
    rw [show (66 + 1 : Int) = 3 + 64 by norm_num, two_pow_add]
    congr 1
  have e68 : two_pow 68 = 16 * two_pow 64 := by
    rw [show (68 : Int) = 4 + 64 by norm_num, two_pow_add]
    congr 1
  have hsc : |s + -c| ≤ two_pow 68 := by
    have := abs_add s (-c)
    rw [abs_neg] at this
    rw [e65] at hc
    rw [e67] at hs
    rw [e68]
    linarith
  obtain ⟨d, ed, _⟩ := round_double_finite_le (s + -c) 68 (by norm_num) (by norm_num) hsc
  refine ⟨d, ?_⟩
  unfold seconds_between
  rw [ea, eb0, ec0]
  have e1 : double_div (gdouble.finite b0) (gdouble.finite 1000000000)
      = round_double (b0 / 1000000000) := by
    simp [double_div]
  have e2 : double_div (gdouble.finite c0) (gdouble.finite 1000000000)
      = round_double (c0 / 1000000000) := by
    simp [double_div]
  rw [e1, e2, eb, ec]
  simp only [double_sub, double_add, double_neg]
  rw [es]
  simp only [double_add]
  exact ed

/-- The rate `filter_get_rate` returns is never a NaN. -/
theorem filter_get_rate_ne_nan (f : filter) : filter_get_rate f ≠ gdouble.nan := by
  unfold filter_get_rate
  by_cases h1 : f.num_samples < 2
  · simp [h1]
  simp only [h1, if_false]
  by_cases h2 : double_lt (time_diff f
      ((f.next_sample + MAX_SAMPLES - f.num_samples) % MAX_SAMPLES)
      ((f.next_sample + MAX_SAMPLES - 1) % MAX_SAMPLES)) (gdouble.finite 60) = true
  · simp [h2]
  · simp only [h2]
    obtain ⟨t, et⟩ := seconds_between_finite
      (f.sample_times ((f.next_sample + MAX_SAMPLES - f.num_samples) % MAX_SAMPLES))
      (f.sample_times ((f.next_sample + MAX_SAMPLES - 1) % MAX_SAMPLES))
    have ht : ¬ t < 60 := by
      unfold time_diff at h2
      rw [et] at h2
      simpa [double_lt] using h2
    have ht0 : t ≠ 0 := by
      intro hc
      rw [hc] at ht
      norm_num at ht
    unfold time_diff
    rw [et]
    simp only [double_sub, double_add, double_neg]
    cases hv : round_double
        (f.samples ((f.next_sample + MAX_SAMPLES - 1) % MAX_SAMPLES)
          + -f.samples ((f.next_sample + MAX_SAMPLES - f.num_samples) % MAX_SAMPLES)) with
    | finite v =>
      simp only [double_div, ht0, if_false]
      cases hw : round_double (v / t) with
      | finite w =>
        simp only [double_mul]
        exact round_double_ne_nan _
      | infinite s => simp [double_mul]
      | nan => exact absurd hw (round_double_ne_nan _)
    | infinite s => simp [double_div, double_mul]
    | nan => exact absurd hv (round_double_ne_nan _)

theorem double_fabs_ne_nan (d : gdouble) (h : d ≠ gdouble.nan) :
    double_fabs d ≠ gdouble.nan := by
  cases d <;> simp_all [double_fabs]

/-- The running sum of `n` samples that are each at least 0.01 is at least
`n * 0.01 * (1 - 2 ^ (-53)) ^ n`. -/
theorem filter_sum_ge (a : Nat → ℚ) (n : Nat) (h : ∀ i, i < n → 1 / 100 ≤ a i) :
    double_le
      (gdouble.finite ((n : ℚ) * (1 / 100) * (1 - 1 / 9007199254740992) ^ n))
      (filter_sum a n) = true := by
  induction n with
  | zero => simp [filter_sum, double_le]
  | succ n ih =>
    have h1 := ih (fun i hi => h i (Nat.lt_succ_of_lt hi))
    have h2 := h n (Nat.lt_succ_self n)
    have hw0 : (0 : ℚ) ≤ 1 - 1 / 9007199254740992 := by norm_num
    have hw1 : (1 : ℚ) - 1 / 9007199254740992 ≤ 1 := by norm_num
    have hpn : (0 : ℚ) ≤ (1 - 1 / 9007199254740992) ^ n := pow_nonneg hw0 n
    have hpn1 : ((1 : ℚ) - 1 / 9007199254740992) ^ n ≤ 1 := pow_le_one₀ hw0 hw1
    rw [filter_sum_succ]
    cases hS : filter_sum a n with
    | finite s =>
      rw [hS] at h1
      have hs : (n : ℚ) * (1 / 100) * (1 - 1 / 9007199254740992) ^ n ≤ s := by
        simpa [double_le] using h1
      have hL0 : (0 : ℚ) ≤ (n : ℚ) * (1 / 100) * (1 - 1 / 9007199254740992) ^ n := by
        positivity
      have hx : two_pow (-1022) ≤ s + a n := by
        have := two_pow_neg_1022_le
        norm_num at this h2 ⊢
        linarith
      have hq : (n : ℚ) * (1 / 100) * (1 - 1 / 9007199254740992) ^ n + 1 / 100 ≤ s + a n := by
        linarith
      have h3 := round_double_ge _ _ hq hx
      simp only [double_add]
      refine double_le_of_le _ _ _ ?_ h3
      have e : ((n + 1 : Nat) : ℚ) * (1 / 100) * (1 - 1 / 9007199254740992) ^ (n + 1)
          = ((n : ℚ) * (1 / 100) * (1 - 1 / 9007199254740992) ^ n
              + 1 / 100 * (1 - 1 / 9007199254740992) ^ n) * (1 - 1 / 9007199254740992) := by
        push_cast
        ring
      rw [e]
      apply mul_le_mul_of_nonneg_right _ hw0
      have : (1 : ℚ) / 100 * (1 - 1 / 9007199254740992) ^ n ≤ 1 / 100 * 1 :=
        mul_le_mul_of_nonneg_left hpn1 (by norm_num)
      linarith
    | infinite s =>
      rw [hS] at h1
      simp only [double_le, Bool.not_eq_true'] at h1
      subst h1
      simp [double_add, double_le]
    | nan =>
      rw [hS] at h1
      simp [double_le] at h1

theorem pow_one_sub_ge (n : Nat) :
    1 - (n : ℚ) / 9007199254740992 ≤ (1 - 1 / 9007199254740992) ^ n := by
  have h := one_add_mul_le_pow (show (-2 : ℚ) ≤ -(1 / 9007199254740992) by norm_num) n
  have e : (1 : ℚ) + (n : ℚ) * -(1 / 9007199254740992) = 1 - (n : ℚ) / 9007199254740992 := by
    ring
  have e2 : (1 : ℚ) + -(1 / 9007199254740992) = 1 - 1 / 9007199254740992 := by ring
  rw [e, e2] at h
  exact h

/-- The mean of `n` samples, `1 ≤ n ≤ 59`, that are each at least 0.01 is at
least `0.01 * (1 - 2 ^ (-47))`. -/
theorem double_mean_ge (a : Nat → ℚ) (n : Nat) (hn : 1 ≤ n) (hn2 : n ≤ 59)
    (h : ∀ i, i < n → 1 / 100 ≤ a i) :
    double_le (gdouble.finite (1 / 100 * (1 - 1 / 2 ^ 47)))
      (double_div (filter_sum a n) (round_double (n : ℚ))) = true := by
  have hs := filter_sum_ge a n h
  rw [round_double_natCast n (by omega)]
  have hnq : (0 : ℚ) < (n : ℚ) := by exact_mod_cast hn
  have hn59 : (n : ℚ) ≤ 59 := by exact_mod_cast hn2
  have hw0 : (0 : ℚ) ≤ 1 - 1 / 9007199254740992 := by norm_num
  have hb := pow_one_sub_ge n
  have hb1 := pow_one_sub_ge (n + 1)
  have hnd : (n : ℚ) / 9007199254740992 ≤ 59 / 9007199254740992 :=
    div_le_div_of_nonneg_right hn59 (by norm_num)
  cases hS : filter_sum a n with
  | finite s =>
    rw [hS] at hs
    have hs' : (n : ℚ) * (1 / 100) * (1 - 1 / 9007199254740992) ^ n ≤ s := by
      simpa [double_le] using hs
    have e : double_div (gdouble.finite s) (gdouble.finite (n : ℚ)) = round_double (s / n) := by
      simp [double_div, hnq.ne']
    rw [e]
    have hq : 1 / 100 * (1 - 1 / 9007199254740992) ^ n ≤ s / n := by
      rw [le_div_iff₀ hnq]
      linarith
    have hx : two_pow (-1022) ≤ s / n := by
      have := two_pow_neg_1022_le
      have h5 : (1 : ℚ) / 100 * (1 - (n : ℚ) / 9007199254740992)
          ≤ 1 / 100 * (1 - 1 / 9007199254740992) ^ n :=
        mul_le_mul_of_nonneg_left hb (by norm_num)
      norm_num at this hnd h5 hq ⊢
      linarith
    have h3 := round_double_ge _ _ hq hx
    refine double_le_of_le _ _ _ ?_ h3
    have e2 : (1 : ℚ) / 100 * (1 - 1 / 9007199254740992) ^ n * (1 - 1 / 9007199254740992)
        = 1 / 100 * (1 - 1 / 9007199254740992) ^ (n + 1) := by
      ring
    rw [e2]
    apply mul_le_mul_of_nonneg_left _ (by norm_num)
    have hnd1 : ((n + 1 : Nat) : ℚ) / 9007199254740992 ≤ 60 / 9007199254740992 := by
      apply div_le_div_of_nonneg_right _ (by norm_num)
      push_cast
      linarith
    norm_num at hb1 hnd1 ⊢
    linarith
  | infinite s =>
    rw [hS] at hs
    simp only [double_le, Bool.not_eq_true'] at hs
    subst hs
    simp [double_div, double_le, not_lt.mpr hnq.le]
  | nan =>
    rw [hS] at hs
    simp [double_le] at hs

/-- The quotient of two positive doubles, times 60, is not below zero. -/
theorem time_estimate_not_negative (rem rate : gdouble)
    (hrem : double_lt (gdouble.finite 0) rem = true)
    (hrate : double_lt (gdouble.finite 0) rate = true) :
    double_lt (double_mul (double_div rem rate) (gdouble.finite 60)) (gdouble.finite 0)
      = false := by
  have key : ∀ x : ℚ, 0 ≤ x →
      double_lt (double_mul (round_double x) (gdouble.finite 60)) (gdouble.finite 0)
        = false := by
    intro x hx
    rcases double_nonneg_cases _ (round_double_nonneg x hx) with ⟨v, ev, hv⟩ | ev
    · rw [ev]
      simp only [double_mul]
      rcases double_nonneg_cases _ (round_double_nonneg (v * 60) (by positivity))
        with ⟨w, ew, hw⟩ | ew
      · rw [ew]
        simp [double_lt, hw]
      · rw [ew]
        simp [double_lt]
    · rw [ev]
      simp [double_mul, double_lt]
  cases rem with
  | finite r =>
    cases rate with
    | finite q =>
      have hr : 0 < r := by simpa [double_lt] using hrem
      have hq : 0 < q := by simpa [double_lt] using hrate
      simp only [double_div, hq.ne', if_false]
      exact key _ (by positivity)
    | infinite s =>
      simp only [double_div]
      have := key 0 (le_refl 0)
      rw [round_double_zero] at this
      exact this
    | nan => simp [double_lt] at hrate
  | infinite s =>
    cases rate with
    | finite q =>
      have hq : 0 < q := by simpa [double_lt] using hrate
      have hs : s = false := by simpa [double_lt] using hrem
      subst hs
      simp [double_div, double_mul, double_lt, not_lt.mpr hq.le]
    | infinite t => simp [double_div, double_mul, double_lt]
    | nan => simp [double_lt] at hrate
  | nan => simp [double_lt] at hrem

/-- A finite double that is not below zero and below `2 ^ 31` converts to its
floor, which is not negative. -/
theorem gint_of_double_nonneg (d : gdouble) (v : ℚ) (hd : d = gdouble.finite v)
    (h0 : double_lt d (gdouble.finite 0) = false) (h : v < 2147483648) :
    gint_of_double d = ⌊v⌋ ∧ 0 ≤ gint_of_double d := by
  subst hd
  have hv : 0 ≤ v := by simpa [double_lt] using h0
  have e := gint_of_double_in_range v (by linarith) h
  rw [if_pos hv] at e
  rw [e]
  exact ⟨rfl, Int.floor_nonneg.mpr hv⟩

/-! ## filters reachable by ticks -/

theorem filter_append_good (f : filter) (value : ℚ) (now : timespec) (h : filter_good f)
    (hv : 1 / 100 ≤ value) : filter_good (filter_append f value now) := by
  obtain ⟨hs, hall⟩ := h
  refine ⟨(filter_append_shape f value now hs).1, ?_⟩
  unfold filter_shape at hs
  simp only [filter_append, MAX_SAMPLES, array_set] at hs ⊢
  intro i hi
  by_cases hi2 : i = f.next_sample
  · simp only [hi2, if_true]
    exact hv
  · simp only [hi2, if_false]
    exact hall i (by omega)

theorem filter_reset_good (f : filter) : filter_good (filter_reset f) := by
  refine ⟨?_, ?_⟩
  · unfold filter_shape
    simp [filter_reset, MAX_SAMPLES]
  · intro i hi
    simp [filter_reset] at hi

/-- The mean of a good filter that holds a sample is at least
`0.01 * (1 - 2 ^ (-47))`. -/
theorem filter_get_mean_ge (f : filter) (h : filter_good f) (hn : 1 ≤ f.num_samples) :
    double_le (gdouble.finite (1 / 100 * (1 - 1 / 2 ^ 47))) (filter_get_mean f) = true := by
  unfold filter_get_mean
  have h59 : f.num_samples ≤ 59 := by
    obtain ⟨⟨a, b⟩, _⟩ := h
    simp only [MAX_SAMPLES] at a b
    omega
  exact double_mean_ge f.samples f.num_samples hn h59 h.2

theorem round_double_0_01 : round_double (1 / 100) = gdouble.finite double_0_01 := by
  decide!

/-- For a reading that is a double, the test `double_value < 1 / 100` of
`get_sysattr_double` is the comparison with the double constant `0.01` that
the source makes: no double lies between `1 / 100` and that constant. -/
theorem get_sysattr_double_guard (v : ℚ) (hv : round_double v = gdouble.finite v) :
    v < 1 / 100 ↔ double_lt (gdouble.finite v) (round_double (1 / 100)) = true := by
  rw [round_double_0_01]
  simp only [double_lt, decide_eq_true_eq]
  constructor
  · intro h
    have : (1 : ℚ) / 100 < double_0_01 := by
      unfold double_0_01
      norm_num
    linarith
  · intro h
    by_contra hc
    push_neg at hc
    have hm := round_double_mono (1 / 100) v hc
    rw [round_double_0_01, hv] at hm
    simp only [double_le, decide_eq_true_eq] at hm
    linarith

/-- A rate that passes the guard `rate < 0.01` of `get_battery_current_rate`
is at least the double 0.01. -/
theorem derived_rate_ge (f : filter)
    (h : ¬ double_lt (double_fabs (filter_get_rate f)) (round_double (1 / 100)) = true) :
    double_le (round_double (1 / 100)) (double_fabs (filter_get_rate f)) = true ∧
    double_le (gdouble.finite (1 / 100 * (1 - 1 / 2 ^ 47))) (double_fabs (filter_get_rate f))
      = true := by
  rw [round_double_0_01] at h ⊢
  have h1 := double_le_of_not_lt _ double_0_01
    (double_fabs_ne_nan _ (filter_get_rate_ne_nan f)) (by simpa using h)
  refine ⟨h1, double_le_of_le _ _ _ ?_ h1⟩
  unfold double_0_01
  norm_num

theorem reset_battery_current_rate_good (fs : Filters) :
    (reset_battery_current_rate fs).good :=
  ⟨filter_reset_good fs.energy_filter, filter_reset_good fs.charge_filter,
    filter_reset_good fs.power_filter, filter_reset_good fs.current_filter⟩

theorem get_battery_remaining_capacity_good (use_charge : Bool) (r : Readings) (fs : Filters)
    (h : fs.good) : (get_battery_remaining_capacity use_charge r fs).1.good := by
  obtain ⟨h1, h2, h3, h4⟩ := h
  unfold get_battery_remaining_capacity
  split
  · cases hv : get_sysattr_double r.energy_now with
    | none => exact ⟨h1, h2, h3, h4⟩
    | some v =>
      exact ⟨filter_append_good _ _ _ h1 (get_sysattr_double_ge _ _ hv), h2, h3, h4⟩
  · cases hv : get_sysattr_double r.charge_now with
    | none => exact ⟨h1, h2, h3, h4⟩
    | some v =>
      exact ⟨h1, filter_append_good _ _ _ h2 (get_sysattr_double_ge _ _ hv), h3, h4⟩

theorem battery_capacities_good (r : Readings) (fs : Filters) (h : fs.good) :
    (battery_capacities r fs).1.good := by
  unfold battery_capacities
  cases get_battery_full_capacity r with
  | none => exact h
  | some c =>
    obtain ⟨use_charge, full⟩ := c
    simp only
    have hg := get_battery_remaining_capacity_good use_charge r fs h
    rcases hr : get_battery_remaining_capacity use_charge r fs with ⟨fs1, o⟩
    rw [hr] at hg
    cases o with
    | some v => exact hg
    | none =>
      simp only
      cases get_battery_remaining_capacity_pct r with
      | none => exact hg
      | some v => exact hg

theorem get_battery_charge_no_time_good (r : Readings) (fs : Filters) (h : fs.good) :
    (get_battery_charge_no_time r fs).1.good := by
  unfold get_battery_charge_no_time
  have hg := battery_capacities_good r fs h
  rcases hr : battery_capacities r fs with ⟨fs1, o⟩
  rw [hr] at hg
  cases o with
  | none => exact hg
  | some c => exact hg

/-- On good filters `get_battery_current_rate` leaves good filters, any rate it
returns is at least `0.01 * (1 - 2 ^ (-47))`, and a rate from the capacity
derivative is at least the double 0.01. -/
theorem get_battery_current_rate_good (use_charge : Bool) (r : Readings) (fs : Filters)
    (h : fs.good) :
    (get_battery_current_rate use_charge r fs).1.good ∧
    ∀ rate, (get_battery_current_rate use_charge r fs).2 = some rate →
      double_le (gdouble.finite (1 / 100 * (1 - 1 / 2 ^ 47))) rate = true ∧
      (get_sysattr_double (rate_attribute use_charge r) = none →
        double_le (round_double (1 / 100)) rate = true) := by
  obtain ⟨h1, h2, h3, h4⟩ := h
  unfold get_battery_current_rate
  cases use_charge with
  | false =>
    simp only [if_true]
    cases hv : get_sysattr_double r.power_now with
    | some v =>
      simp only
      have hg := filter_append_good fs.power_filter v r.now_rate h3
        (get_sysattr_double_ge _ _ hv)
      refine ⟨⟨h1, h2, hg, h4⟩, ?_⟩
      intro rate hr
      simp only [Option.some.injEq] at hr
      rw [← hr]
      refine ⟨filter_get_mean_ge _ hg (filter_append_shape _ _ _ h3.1).2, ?_⟩
      intro hnone
      simp only [rate_attribute, if_true] at hnone
      rw [hv] at hnone
      simp at hnone
    | none =>
      simp only
      split_ifs with hlt
      · exact ⟨⟨h1, h2, h3, h4⟩, fun rate hr => by simp at hr⟩
      · refine ⟨⟨h1, h2, h3, h4⟩, ?_⟩
        intro rate hr
        simp only [Option.some.injEq] at hr
        rw [← hr]
        exact ⟨(derived_rate_ge _ hlt).2, fun _ => (derived_rate_ge _ hlt).1⟩
  | true =>
    simp only [Bool.true_eq_false, if_false]
    cases hv : get_sysattr_double r.current_now with
    | some v =>
      simp only
      have hg := filter_append_good fs.current_filter v r.now_rate h4
        (get_sysattr_double_ge _ _ hv)
      refine ⟨⟨h1, h2, h3, hg⟩, ?_⟩
      intro rate hr
      simp only [Option.some.injEq] at hr
      rw [← hr]
      refine ⟨filter_get_mean_ge _ hg (filter_append_shape _ _ _ h4.1).2, ?_⟩
      intro hnone
      simp only [rate_attribute, Bool.true_eq_false, if_false] at hnone
      rw [hv] at hnone
      simp at hnone
    | none =>
      simp only
      split_ifs with hlt
      · exact ⟨⟨h1, h2, h3, h4⟩, fun rate hr => by simp at hr⟩
      · refine ⟨⟨h1, h2, h3, h4⟩, ?_⟩
        intro rate hr
        simp only [Option.some.injEq] at hr
        rw [← hr]
        exact ⟨(derived_rate_ge _ hlt).2, fun _ => (derived_rate_ge _ hlt).1⟩

theorem get_battery_charge_good (remaining : Bool) (r : Readings) (fs : Filters)
    (h : fs.good) : (get_battery_charge remaining r fs).1.good := by
  unfold get_battery_charge
  have hg := battery_capacities_good r fs h
  rcases hr : battery_capacities r fs with ⟨fs1, o⟩
  rw [hr] at hg
  cases o with
  | none => exact hg
  | some c =>
    obtain ⟨use_charge, full, rem⟩ := c
    simp only
    have hg2 := (get_battery_current_rate_good use_charge r fs1 hg).1
    rcases hr2 : get_battery_current_rate use_charge r fs1 with ⟨fs2, o2⟩
    rw [hr2] at hg2
    cases o2 with
    | none => exact hg2
    | some rate =>
      simp only
      split_ifs <;> exact hg2

theorem read_battery_status_good (inp : TickInput) (fs : Filters) (h : fs.good) :
    (read_battery_status inp fs).1.good := by
  unfold read_battery_status
  cases get_battery_present inp.battery_path inp.present with
  | none => exact h
  | some present =>
    simp only
    split
    · exact h
    · cases get_battery_status inp.status with
      | none => exact h
      | some battery_status =>
        simp only
        split
        · cases get_ac_online inp.ac_path inp.online with
          | none => exact h
          | some ac_online =>
            simp only
            split
            · have hg := get_battery_charge_no_time_good inp.probe fs h
              rcases hp : get_battery_charge_no_time inp.probe fs with ⟨fs1, o⟩
              rw [hp] at hg
              cases o with
              | none => exact hg
              | some percentage =>
                simp only
                split <;> exact hg
            · exact h
        · exact h

theorem HANDLE_BATTERY_STATUS_filters (st PCT TIM : Int) (s : State) :
    (HANDLE_BATTERY_STATUS st PCT TIM s).1.filters = s.filters := by
  unfold HANDLE_BATTERY_STATUS
  split_ifs <;> rfl

theorem discharging_checks_filters (cfg : configuration) (st p t : Int) (s : State) :
    (discharging_checks cfg st p t s).1.filters = s.filters := by
  unfold discharging_checks
  by_cases h1 : s.old_battery_status = DISCHARGING <;>
    by_cases h2 : p ≤ cfg.low_level <;>
    by_cases h3 : p ≤ cfg.critical_level <;>
    cases hb : s.battery_low <;> cases hc : s.battery_critical <;> simp [h1, h2, h3, hb, hc]

theorem spawn_critical_command_filters (cfg : configuration) (inp : TickInput) (s : State) :
    (spawn_critical_command cfg inp s).1.filters = s.filters := by
  unfold spawn_critical_command
  split
  · cases cfg.command_critical_level with
    | none => rfl
    | some command =>
      simp only
      split_ifs <;> rfl
  · rfl

theorem spawn_commands_filters (cfg : configuration) (inp : TickInput) (s : State) :
    (spawn_commands cfg inp s).1.filters = s.filters := by
  unfold spawn_commands
  split
  · cases cfg.command_low_level with
    | none => exact spawn_critical_command_filters cfg inp _
    | some command =>
      simp only
      split_ifs
      · rfl
      · exact spawn_critical_command_filters cfg inp _
      · exact spawn_critical_command_filters cfg inp _
  · exact spawn_critical_command_filters cfg inp s

theorem checks_filters_good (cfg : configuration) (inp : TickInput) (s0 : State)
    (h : s0.filters.good) : (update_tray_icon_status_checks cfg inp s0).s.filters.good := by
  obtain ⟨s, hs⟩ : ∃ s, s = if inp.changed_power_supplies = true then power_supplies_reset s0
      else s0 := ⟨_, rfl⟩
  have hsg : s.filters.good := by
    rw [hs]
    split_ifs
    · exact h
    · exact h
  unfold update_tray_icon_status_checks
  simp only [← hs]
  cases hb : inp.battery_path with
  | none =>
    simp only
    split_ifs <;> exact hsg
  | some bp =>
    simp only
    have hg1 := read_battery_status_good inp s.filters hsg
    rcases hr : read_battery_status inp s.filters with ⟨fs, o⟩
    rw [hr] at hg1
    simp only at hg1
    cases o with
    | none => exact hg1
    | some st =>
      simp only
      by_cases m1 : st = MISSING
      · subst m1
        simp only [if_true, HANDLE_BATTERY_STATUS_filters]
        exact hg1
      · by_cases m2 : st = UNKNOWN
        · subst m2
          simp only [m1, if_true, if_false, HANDLE_BATTERY_STATUS_filters]
          exact hg1
        · by_cases m3 : st = CHARGED
          · subst m3
            simp only [m1, m2, if_true, if_false, HANDLE_BATTERY_STATUS_filters]
            exact hg1
          · by_cases m4 : st = CHARGING
            · subst m4
              simp only [m1, m2, m3, if_true, if_false]
              have hg2 : ∀ fsx : Filters, fsx.good →
                  (get_battery_charge false inp.main fsx).1.good :=
                fun fsx hx => get_battery_charge_good false inp.main fsx hx
              by_cases hold : s.old_battery_status = CHARGING
              · simp only [hold, ne_eq, not_true_eq_false, if_false]
                have := hg2 fs hg1
                rcases hc : get_battery_charge false inp.main fs with ⟨fs2, o2⟩
                rw [hc] at this
                cases o2 with
                | none => exact this
                | some c =>
                  simp only [HANDLE_BATTERY_STATUS_filters]
                  exact this
              · simp only [hold, ne_eq, not_false_eq_true, if_true]
                have := hg2 _ (reset_battery_current_rate_good fs)
                rcases hc : get_battery_charge false inp.main (reset_battery_current_rate fs)
                  with ⟨fs2, o2⟩
                rw [hc] at this
                cases o2 with
                | none => exact this
                | some c =>
                  simp only [HANDLE_BATTERY_STATUS_filters]
                  exact this
            · simp only [m1, m2, m3, m4, if_false]
              by_cases hfam : st = DISCHARGING ∨ st = NOT_CHARGING
              · simp only [hfam, if_true]
                have hg2 : ∀ fsx : Filters, fsx.good →
                    (get_battery_charge true inp.main fsx).1.good :=
                  fun fsx hx => get_battery_charge_good true inp.main fsx hx
                by_cases hold : s.old_battery_status = DISCHARGING
                · simp only [hold, ne_eq, not_true_eq_false, if_false]
                  have := hg2 fs hg1
                  rcases hc : get_battery_charge true inp.main fs with ⟨fs2, o2⟩
                  rw [hc] at this
                  cases o2 with
                  | none => exact this
                  | some c =>
                    simp only [discharging_checks_filters]
                    exact this
                · simp only [hold, ne_eq, not_false_eq_true, if_true]
                  have := hg2 _ (reset_battery_current_rate_good fs)
                  rcases hc : get_battery_charge true inp.main (reset_battery_current_rate fs)
                    with ⟨fs2, o2⟩
                  rw [hc] at this
                  cases o2 with
                  | none => exact this
                  | some c =>
                    simp only [discharging_checks_filters]
                    exact this
              · simp only [hfam, if_false]
                exact hg1

theorem tick_filters_good (cfg : configuration) (inp : TickInput) (s0 : State)
    (h : s0.filters.good) : (update_tray_icon_status cfg inp s0).1.filters.good := by
  have hg := checks_filters_good cfg inp s0 h
  unfold update_tray_icon_status
  simp only
  split_ifs
  · simp only [spawn_commands_filters]
    exact hg
  · exact hg

theorem run_filters_good (cfg : configuration) (run : List TickInput) :
    ∀ s : State, s.filters.good → (run_ticks cfg run s).1.filters.good := by
  induction run with
  | nil =>
    intro s h
    exact h
  | cons inp rest ih =>
    intro s h
    rw [run_ticks_cons]
    exact ih _ (tick_filters_good cfg inp s h)

theorem filter_zero_good : filter_good filter_zero := by
  refine ⟨filter_zero_shape, ?_⟩
  intro i hi
  simp [filter_zero] at hi

theorem initial_filters_good : State.initial.filters.good :=
  ⟨filter_zero_good, filter_zero_good, filter_zero_good, filter_zero_good⟩

theorem double_lt_of_le_pos (a : ℚ) (d : gdouble) (ha : 0 < a)
    (h : double_le (gdouble.finite a) d = true) : double_lt (gdouble.finite 0) d = true := by
  cases d with
  | finite v =>
    have : a ≤ v := by simpa [double_le] using h
    simp only [double_lt, decide_eq_true_eq]
    linarith
  | infinite s =>
    simp only [double_le, Bool.not_eq_true'] at h
    simp [double_lt, h]
  | nan => simp [double_le] at h

/-- The capacities `get_battery_charge` works with are positive: positive
finite doubles, or the positive infinity when the product
`capacity * (full / 100.0)` overflows. -/
theorem battery_capacities_pos (r : Readings) (fs fs1 : Filters) (use_charge : Bool)
    (full rem : gdouble) (h : battery_capacities r fs = (fs1, some (use_charge, full, rem))) :
    double_lt (gdouble.finite 0) full = true ∧ double_lt (gdouble.finite 0) rem = true := by
  unfold battery_capacities at h
  cases hf : get_battery_full_capacity r with
  | none =>
    rw [hf] at h
    simp at h
  | some c =>
    obtain ⟨u, fl⟩ := c
    rw [hf] at h
    simp only at h
    have hfl : 1 / 100 ≤ fl := get_battery_full_capacity_ge r u fl hf
    have hf0 : 0 < fl := by linarith
    rcases hr : get_battery_remaining_capacity u r fs with ⟨g, o⟩
    rw [hr] at h
    cases o with
    | some v =>
      simp only [Prod.mk.injEq, Option.some.injEq] at h
      obtain ⟨_, _, h2, h3⟩ := h
      have hv : 1 / 100 ≤ v := get_battery_remaining_capacity_ge u r fs g v hr
      rw [← h2, ← h3]
      simp only [double_lt, decide_eq_true_eq]
      constructor <;> linarith
    | none =>
      simp only at h
      cases hp : get_battery_remaining_capacity_pct r with
      | none =>
        rw [hp] at h
        simp at h
      | some v =>
        rw [hp] at h
        simp only [Prod.mk.injEq, Option.some.injEq] at h
        obtain ⟨_, _, h2, h3⟩ := h
        have hv : 1 / 100 ≤ v := get_sysattr_double_ge _ _ hp
        have hv0 : 0 < v := by linarith
        rw [← h2, ← h3]
        refine ⟨by simpa [double_lt] using hf0, ?_⟩
        have e : double_div (gdouble.finite fl) (gdouble.finite 100)
            = round_double (fl / 100) := by
          simp [double_div]
        rw [e]
        have hsmall := two_pow_neg_1022_le
        have hq : (1 : ℚ) / 10000 ≤ fl / 100 := by
          rw [le_div_iff₀ (by norm_num)]
          linarith
        have h4 := round_double_ge (1 / 10000) (fl / 100) hq (by
          norm_num at hsmall hq ⊢
          linarith)
        cases hy : round_double (fl / 100) with
        | finite y =>
          rw [hy] at h4
          have hy1 : 1 / 10000 * (1 - 1 / 9007199254740992) ≤ y := by
            simpa [double_le] using h4
          simp only [double_mul]
          have hvy : (1 : ℚ) / 2000000 ≤ v * y := by
            have hy2 : (1 : ℚ) / 20000 ≤ y := by
              norm_num at hy1 ⊢
              linarith
            have : (1 : ℚ) / 100 * (1 / 20000) ≤ v * y :=
              mul_le_mul hv hy2 (by norm_num) hv0.le
            norm_num at this ⊢
            linarith
          have h5 := round_double_ge (1 / 2000000) (v * y) hvy (by
            norm_num at hsmall hvy ⊢
            linarith)
          exact double_lt_of_le_pos _ _ (by norm_num) h5
        | infinite s =>
          rw [hy] at h4
          simp only [double_le, Bool.not_eq_true'] at h4
          subst h4
          simp [double_mul, double_lt, hv0.ne', not_lt.mpr hv0.le]
        | nan => exact absurd hy (round_double_ne_nan _)

/-- C22 as stated fails.  The double 0.01 is accepted by the attribute reader.
After nine ticks of a discharging battery whose `power_now` reads 0.01 the
tenth call of `get_battery_current_rate` succeeds with the mean of ten samples
of 0.01, whose sum rounds to 0.09999999999999999: the rate is
0.009999999999999998, below the double 0.01 and below `1 / 100`.  And with
`energy_now` reading 40000000 and `power_now` reading 1 the product
`40000000.0 / 1.0 * 60.0` is 2400000000, beyond the range of a `gint`, and the
time estimate is `INT_MIN`, a negative number. -/
theorem C22_mean_rate_below_threshold :
    round_double (1 / 100) = gdouble.finite double_0_01 ∧
    get_sysattr_double (attr double_0_01) = some double_0_01 ∧
    threshold_rate_run.length = 9 ∧
    (run_ticks default_configuration threshold_rate_run State.initial).1.old_battery_status
      = DISCHARGING ∧
    (read_battery_status threshold_rate_tick
      (run_ticks default_configuration threshold_rate_run State.initial).1.filters).2
      = some DISCHARGING ∧
    (get_battery_current_rate false threshold_rate_tick.main
      (battery_capacities threshold_rate_tick.main
        (run_ticks default_configuration threshold_rate_run State.initial).1.filters).1).2
      = some (gdouble.finite (2882303761517117 / 288230376151711744)) ∧
    double_lt (gdouble.finite (2882303761517117 / 288230376151711744))
      (round_double (1 / 100)) = true ∧
    (2882303761517117 / 288230376151711744 : ℚ) < 1 / 100 ∧
    (get_battery_charge true (energy_readings 50000000 40000000 1 0)
      (reset_battery_current_rate State.initial.filters)).2 = some (80, -2147483648) := by
  decide!

/-- C22, amended.  Take any state reached from the initial state by the ticks
`run` and the call of `get_battery_charge` that the next tick makes from it, on
the filters left by the device-change reset, the status determination and
`reset_battery_current_rate`.  When `get_battery_current_rate` succeeds in that
call the rate is a double, not a NaN, that is at least
`0.01 * (1 - 2 ^ (-47))`, hence positive and not zero; when it comes from the
capacity derivative it is at least the double 0.01.  The remaining capacity is
positive, the time-to-empty estimate `rem / rate * 60.0` is not below zero
before its conversion to `gint`, and when it is finite and below `2 ^ 31` the
converted estimate is its floor and is not negative. -/
theorem C22_rate_positive_near_threshold (cfg : configuration) (run : List TickInput)
    (inp : TickInput) (s : State) (st : Int) (fs fs1 fs2 : Filters) (use_charge : Bool)
    (full rem rate : gdouble)
    (hs : s = if inp.changed_power_supplies = true then
        power_supplies_reset (run_ticks cfg run State.initial).1
      else (run_ticks cfg run State.initial).1)
    (hstatus : read_battery_status inp s.filters = (fs, some st))
    (hcap : battery_capacities inp.main
        (if s.old_battery_status ≠ (if st = CHARGING then CHARGING else DISCHARGING)
          then reset_battery_current_rate fs else fs)
      = (fs1, some (use_charge, full, rem)))
    (hrate : get_battery_current_rate use_charge inp.main fs1 = (fs2, some rate)) :
    double_le (gdouble.finite (1 / 100 * (1 - 1 / 2 ^ 47))) rate = true ∧
    double_lt (gdouble.finite 0) rate = true ∧
    (get_sysattr_double (rate_attribute use_charge inp.main) = none →
      double_le (round_double (1 / 100)) rate = true) ∧
    double_lt (gdouble.finite 0) rem = true ∧
    double_lt (double_mul (double_div rem rate) (gdouble.finite 60)) (gdouble.finite 0)
      = false ∧
    (∀ v : ℚ, double_mul (double_div rem rate) (gdouble.finite 60) = gdouble.finite v →
      v < 2147483648 →
      gint_of_double (double_mul (double_div rem rate) (gdouble.finite 60)) = ⌊v⌋ ∧
      0 ≤ gint_of_double (double_mul (double_div rem rate) (gdouble.finite 60))) ∧
    get_battery_charge true inp.main
        (if s.old_battery_status ≠ (if st = CHARGING then CHARGING else DISCHARGING)
          then reset_battery_current_rate fs else fs)
      = (fs2, some (charge_percentage rem full,
          gint_of_double (double_mul (double_div rem rate) (gdouble.finite 60)))) := by
  have hg0 : s.filters.good := by
    have := run_filters_good cfg run State.initial initial_filters_good
    rw [hs]
    split_ifs
    · exact this
    · exact this
  have hg1 : fs.good := by
    have := read_battery_status_good inp s.filters hg0
    rw [hstatus] at this
    exact this
  have hg2 : (if s.old_battery_status ≠ (if st = CHARGING then CHARGING else DISCHARGING)
      then reset_battery_current_rate fs else fs).good := by
    split_ifs
    · exact reset_battery_current_rate_good fs
    · exact hg1
    · exact reset_battery_current_rate_good fs
    · exact hg1
  have hg3 : fs1.good := by
    have := battery_capacities_good inp.main _ hg2
    rw [hcap] at this
    exact this
  obtain ⟨hr, hd⟩ : double_le (gdouble.finite (1 / 100 * (1 - 1 / 2 ^ 47))) rate = true ∧
      (get_sysattr_double (rate_attribute use_charge inp.main) = none →
        double_le (round_double (1 / 100)) rate = true) := by
    have := (get_battery_current_rate_good use_charge inp.main fs1 hg3).2 rate
    rw [hrate] at this
    exact this rfl
  have hr0 : double_lt (gdouble.finite 0) rate = true :=
    double_lt_of_le_pos _ _ (by norm_num) hr
  obtain ⟨_, hrem⟩ := battery_capacities_pos inp.main _ fs1 use_charge full rem hcap
  have ht := time_estimate_not_negative rem rate hrem hr0
  refine ⟨hr, hr0, hd, hrem, ht, ?_, ?_⟩
  · intro v hv hlt
    exact gint_of_double_nonneg _ v hv ht hlt
  · have := get_battery_charge_time true inp.main _ fs1 fs2 use_charge full rem rate hcap hrate
    simpa using this

/-- C22, amended, on the second tick of a discharging battery: the rate is the
mean 10000 of the two `power_now` samples and the estimate is 60 minutes. -/
theorem C22_rate_positive_near_threshold_witness :
    (read_battery_status discharging_tick second_tick_state.filters).2 = some DISCHARGING ∧
    second_tick_state.old_battery_status = DISCHARGING ∧
    (get_battery_current_rate false discharging_tick.main
      (battery_capacities discharging_tick.main
        (read_battery_status discharging_tick second_tick_state.filters).1).1).2
      = some (gdouble.finite 10000) ∧
    double_mul (double_div (gdouble.finite 10000) (gdouble.finite 10000)) (gdouble.finite 60)
      = gdouble.finite 60 ∧
    double_le (gdouble.finite (1 / 100 * (1 - 1 / 2 ^ 47))) (gdouble.finite 10000) = true ∧
    double_lt (gdouble.finite 0) (gdouble.finite 10000) = true ∧
    (∀ v : ℚ,
      double_mul (double_div (gdouble.finite 10000) (gdouble.finite 10000)) (gdouble.finite 60)
        = gdouble.finite v →
      v < 2147483648 →
      gint_of_double
        (double_mul (double_div (gdouble.finite 10000) (gdouble.finite 10000))
          (gdouble.finite 60)) = ⌊v⌋ ∧
      0 ≤ gint_of_double
        (double_mul (double_div (gdouble.finite 10000) (gdouble.finite 10000))
          (gdouble.finite 60))) :=
  have h := (C22_rate_positive_near_threshold default_configuration one_tick_run discharging_tick
    second_tick_state DISCHARGING
    (read_battery_status discharging_tick second_tick_state.filters).1
    (battery_capacities discharging_tick.main
      (if second_tick_state.old_battery_status
          ≠ (if DISCHARGING = CHARGING then CHARGING else DISCHARGING)
        then reset_battery_current_rate
          (read_battery_status discharging_tick second_tick_state.filters).1
        else (read_battery_status discharging_tick second_tick_state.filters).1)).1
    (get_battery_current_rate false discharging_tick.main
      (battery_capacities discharging_tick.main
        (if second_tick_state.old_battery_status
            ≠ (if DISCHARGING = CHARGING then CHARGING else DISCHARGING)
          then reset_battery_current_rate
            (read_battery_status discharging_tick second_tick_state.filters).1
          else (read_battery_status discharging_tick second_tick_state.filters).1)).1).1
    false (gdouble.finite 50000) (gdouble.finite 10000) (gdouble.finite 10000) rfl
    (Prod.ext rfl (by decide!)) (Prod.ext rfl (by decide!))
    (Prod.ext rfl (by decide!)))
  ⟨by decide!, by decide!, by decide!, by decide!, h.1, h.2.1, h.2.2.2.2.2.1⟩

end Cbatticon
